import Mathlib

/-!
# Verification of the TANG renderer core (`src/src/renderer.cpp`)

Shallow embedding of the frame-lifecycle resource model of the TANG
renderer.  The embedding follows `src/src/renderer.cpp` (the per-asset
descriptor-table design that the specification documents) together with
`src/src/descriptors/descriptor_set.cpp`.

Modelling conventions:
* C++ `std::unordered_map` is modelled as an insertion-ordered association
  list and `std::vector` as a `List`; `unordered_map::insert` is a no-op on
  an existing key, `operator[]` default-inserts a missing key, `at` fails on
  a missing key.
* Vulkan calls are modelled by their effect on the renderer-owned state plus
  an event trace (`REvent`); a fired `TNG_ASSERT_MSG`, an uncaught
  `std::out_of_range` from `unordered_map::at`, and out-of-bounds
  `std::vector` indexing (undefined behaviour) are all modelled as `none`
  (the process does not continue normally).
* GLM float scalars are modelled as exact rationals; `glm::cos`/`glm::sin`
  are passed in as explicit function parameters where the code uses them.
* Acquire/present results, the acquired image index, the swapchain image
  count chosen by the driver, and submission success are environment inputs
  and are passed as parameters to the corresponding operations.
-/

namespace TANG

/-- Asset identifier, the join key across all resource tables. -/
abbrev UUID := Nat

/-- `MAX_FRAMES_IN_FLIGHT` from `renderer.cpp` (line 49). -/
def MAX_FRAMES_IN_FLIGHT : Nat := 2

/-! ## List and association-map helpers (C++ container semantics) -/

/-- In-place update of element `i` of a vector (`v[i] = f(v[i])`); out of
range leaves the list unchanged (callers that would hit UB are modelled
separately). -/
def listModify (l : List α) (i : Nat) (f : α → α) : List α :=
  match l, i with
  | [], _ => []
  | a :: as, 0 => f a :: as
  | a :: as, i + 1 => a :: listModify as i f

/-- `vector::erase(begin() + i)`. Out of range leaves the list unchanged. -/
def listEraseIdx (l : List α) (i : Nat) : List α :=
  match l, i with
  | [], _ => []
  | _ :: as, 0 => as
  | a :: as, i + 1 => a :: listEraseIdx as i

/-- Association map lookup (`unordered_map::find`). -/
def mapFind (m : List (UUID × β)) (k : UUID) : Option β :=
  match m with
  | [] => none
  | p :: rest => if p.1 = k then some p.2 else mapFind rest k

/-- `unordered_map::insert`: no-op when the key is already present. -/
def mapInsert (m : List (UUID × β)) (k : UUID) (v : β) : List (UUID × β) :=
  match mapFind m k with
  | some _ => m
  | none => m ++ [(k, v)]

/-- `unordered_map::operator[]` read: default-inserts a missing key and
returns the map together with the mapped value. -/
def mapBracketGet (m : List (UUID × β)) (k : UUID) (dflt : β) :
    List (UUID × β) × β :=
  match mapFind m k with
  | some v => (m, v)
  | none => (m ++ [(k, dflt)], dflt)

/-- `m[k] = f(m[k])` via `operator[]`: default-inserts a missing key, then
updates the mapped value in place. -/
def mapBracketModify (m : List (UUID × β)) (k : UUID) (dflt : β) (f : β → β) :
    List (UUID × β) :=
  match mapFind m k with
  | some _ => m.map fun p => if p.1 = k then (p.1, f p.2) else p
  | none => m ++ [(k, f dflt)]

/-- `unordered_map::erase(key)`. -/
def mapErase (m : List (UUID × β)) (k : UUID) : List (UUID × β) :=
  m.filter fun p => p.1 ≠ k

/-! ## GLM math model

4×4 matrices over exact rationals; `Mat4` entries are written in the usual
mathematical row/column convention (GLM stores the transpose layout, but the
induced matrix product is the same). -/

abbrev Mat4 := Matrix (Fin 4) (Fin 4) ℚ

/-- 3-component vector (`glm::vec3`). -/
structure Vec3 where
  x : ℚ
  y : ℚ
  z : ℚ
deriving DecidableEq, Repr

/-- `glm::translate(glm::identity<glm::mat4>(), p)`. -/
def glmTranslate (p : Vec3) : Mat4 :=
  !![1, 0, 0, p.x; 0, 1, 0, p.y; 0, 0, 1, p.z; 0, 0, 0, 1]

/-- `glm::scale(glm::identity<glm::mat4>(), s)`. -/
def glmScale (s : Vec3) : Mat4 :=
  !![s.x, 0, 0, 0; 0, s.y, 0, 0; 0, 0, s.z, 0; 0, 0, 0, 1]

/-- `glm::eulerAngleXYZ(t1, t2, t3)` (from `gtx/euler_angles.inl`),
with `glm::cos`/`glm::sin` supplied as `fc`/`fs`. -/
def glmEulerAngleXYZ (fc fs : ℚ → ℚ) (t1 t2 t3 : ℚ) : Mat4 :=
  let c1 := fc (-t1)
  let c2 := fc (-t2)
  let c3 := fc (-t3)
  let s1 := fs (-t1)
  let s2 := fs (-t2)
  let s3 := fs (-t3)
  !![c2 * c3, c2 * s3, -s2, 0;
     -c1 * s3 + s1 * s2 * c3, c1 * c3 + s1 * s2 * s3, s1 * c2, 0;
     s1 * s3 + c1 * s2 * c3, -s1 * c3 + c1 * s2 * s3, c1 * c2, 0;
     0, 0, 0, 1]

/-! ## Data model -/

/-- CPU-side transform of an asset.

Modelled from the spec: `asset_types.h` (which defines `Transform` and its
default constructor) is not under `src/`; the spec's data model ("a CPU-side
transform (position/rotation/scale)") and its round-trip property
(`translate(p) * rotate(0,0,0) * scale(1,1,1)` "when rotation/scale were
never set") fix the default rotation to `(0,0,0)` and the default scale to
`(1,1,1)`. -/
structure Transform where
  position : Vec3
  rotation : Vec3
  scale : Vec3
deriving DecidableEq, Repr

/-- The default-constructed `Transform()` used by `CreateAssetResources`
(line 357). Modelled from the spec, see `Transform`. -/
def defaultTransform : Transform :=
  ⟨⟨0, 0, 0⟩, ⟨0, 0, 0⟩, ⟨1, 1, 1⟩⟩

/-- The kind of descriptor write performed by the four
`Renderer::Update*DescriptorSet` functions. -/
inductive DescWrite
  | transformWrite
  | cameraDataWrite
  | projectionWrite
  | pbrWrite
deriving DecidableEq, Repr

/-- Model of `DescriptorSet` (`descriptor_set.cpp`): `created` is whether
the underlying `VkDescriptorSet` is not `VK_NULL_HANDLE`; `writes` records
the descriptor writes flushed through `vkUpdateDescriptorSets`. -/
structure DescriptorSetM where
  created : Bool
  writes : List DescWrite
deriving DecidableEq, Repr

/-- `DescriptorSet::Update` (`descriptor_set.cpp` lines 86-97): a null
handle logs an error and bails without writing; otherwise the write is
flushed.  The result also reports whether the error was logged.  The
function always returns normally, so it never produces `none`; `none` is
what a fatal assertion would be. -/
def descriptorSetUpdate (w : DescWrite) (ds : DescriptorSetM) :
    Option (DescriptorSetM × Bool) :=
  if ds.created = false then
    some (ds, true)
  else
    some ({ ds with writes := ds.writes ++ [w] }, false)

/-- Contents of the camera-data uniform buffer (`CameraDataUBO`,
`renderer.cpp` lines 189-194): `vec4(position, 1.0)` and an exposure. -/
structure CameraData where
  position : Vec3
  positionW : ℚ
  exposure : ℚ
deriving DecidableEq, Repr

/-- `AssetDescriptorData`: per (asset, frame-slot) descriptor sets and
uniform buffers.  A UBO's modelled content is `none` until the first
`UpdateData`; the projection UBO content is abstracted to the swapchain
extent it was computed from (its remaining inputs are constants). -/
structure AssetDescriptorData where
  descriptorSets : List DescriptorSetM
  transformUBO : Option Mat4
  viewUBO : Option Mat4
  projUBO : Option (Nat × Nat)
  cameraDataUBO : Option CameraData
deriving DecidableEq, Repr

/-- `AssetDescriptorData()` default constructor. -/
def emptyAssetDescriptorData : AssetDescriptorData :=
  ⟨[], none, none, none, none⟩

/-- In-flight fence model: `pending` is a fence submitted with GPU work
that has not been observed signaled yet; waiting on it completes the work. -/
inductive FenceState
  | signaled
  | unsignaled
  | pending
deriving DecidableEq, Repr

/-- Model of `PrimaryCommandBuffer`: the UUIDs whose secondary command
buffers were executed in the last recording. -/
structure PrimaryCB where
  executed : List UUID
deriving DecidableEq, Repr

/-- Model of `SecondaryCommandBuffer`: the (asset, swapchain-image-slot)
pair of the last recording, if any. -/
structure SecondaryCB where
  recorded : Option (UUID × Nat)
deriving DecidableEq, Repr

/-- `Renderer::FrameDependentData` (one per frame in flight). -/
structure FrameDependentData where
  assetDescriptorDataMap : List (UUID × AssetDescriptorData)
  inFlightFence : FenceState
  primaryCommandBuffer : PrimaryCB
deriving DecidableEq, Repr

/-- `Renderer::SwapChainImageDependentData` (one per swapchain image). -/
structure SwapChainImageDependentData where
  secondaryCommandBuffer : List (UUID × SecondaryCB)
deriving DecidableEq, Repr

/-- A fresh swapchain-image slot (value-initialized by `vector::resize`). -/
def emptySWIDD : SwapChainImageDependentData := ⟨[]⟩

/-- `AssetResources` fields that the renderer core reads or writes (the
GPU buffer/texture handles it owns are externally managed resources). -/
structure AssetResources where
  uuid : UUID
  shouldDraw : Bool
  transform : Transform
  indexCount : Nat
deriving DecidableEq, Repr

/-- The renderer state (`Renderer`'s members driving the frame lifecycle). -/
structure RendererState where
  frameDependentData : List FrameDependentData
  swapChainImageDependentData : List SwapChainImageDependentData
  resourcesMap : List (UUID × Nat)
  assetResources : List AssetResources
  currentFrame : Nat
  swapChainExtent : Nat × Nat
  framebufferWidth : Nat
  framebufferHeight : Nat
deriving DecidableEq, Repr

/-- Observable actions performed against the device/window system. -/
inductive REvent
  | waitDeviceIdle
  | destroyColorAttachment
  | destroyDepthBuffer
  | destroyFramebuffer (i : Nat)
  | destroyImageView (i : Nat)
  | destroySecondary (i : Nat) (u : UUID)
  | destroySwapChainHandle
  | createSwapChainHandle
  | createColorAttachment
  | createDepthTexture
  | createFramebuffer (i : Nat)
  | createSecondary (i : Nat) (u : UUID)
  | recordSecondary (i : Nat) (u : UUID)
  | waitFence (slot : Nat)
  | resetFence (slot : Nat)
  | acquireImage
  | recordPrimary (imageIndex : Nat)
  | submit
  | presentImage
  | logError
deriving DecidableEq, Repr

/-! ## Accessors (`renderer.cpp` lines 1990-2022) -/

/-- `Renderer::GetCurrentFDD` (lines 1990-1993): raw
`frameDependentData[currentFrame]` with no bounds check. -/
def getCurrentFDD (st : RendererState) : Option FrameDependentData :=
  st.frameDependentData.get? st.currentFrame

/-- `Renderer::GetFDDAtIndex` (lines 1995-1999): asserts
`frameIndex < frameDependentData.size()` before indexing; a failed
assertion does not return a slot. -/
def getFDDAtIndex (st : RendererState) (frameIndex : Nat) :
    Option FrameDependentData :=
  if frameIndex < st.frameDependentData.length then
    st.frameDependentData.get? frameIndex
  else
    none

/-- `Renderer::GetFDDSize` (lines 2001-2004). -/
def getFDDSize (st : RendererState) : Nat := st.frameDependentData.length

/-- `Renderer::GetSWIDDAtIndex` (lines 2013-2017): asserts
`frameIndex < swapChainImageDependentData.size()` before indexing. -/
def getSWIDDAtIndex (st : RendererState) (frameIndex : Nat) :
    Option SwapChainImageDependentData :=
  if frameIndex < st.swapChainImageDependentData.length then
    st.swapChainImageDependentData.get? frameIndex
  else
    none

/-- `Renderer::GetSWIDDSize` (lines 2019-2022). -/
def getSWIDDSize (st : RendererState) : Nat :=
  st.swapChainImageDependentData.length

/-- Replace frame slot `i` (mutation through `GetFDDAtIndex(i)->...`). -/
def modifyFDD (st : RendererState) (i : Nat)
    (f : FrameDependentData → FrameDependentData) : RendererState :=
  { st with frameDependentData := listModify st.frameDependentData i f }

/-- Replace swapchain-image slot `i`. -/
def modifySWIDD (st : RendererState) (i : Nat)
    (f : SwapChainImageDependentData → SwapChainImageDependentData) :
    RendererState :=
  { st with
    swapChainImageDependentData :=
      listModify st.swapChainImageDependentData i f }

/-! ## Per-asset mutators (`renderer.cpp` lines 586-618) -/

/-- `Renderer::SetAssetDrawState` (lines 586-595).  A missing UUID logs an
error, but the code then falls through:
`assetResources[resourcesMap[uuid]].shouldDraw = true` default-inserts
`uuid -> 0` through `operator[]` and flags the asset stored at that index.
(The out-of-bounds vector access on an empty asset vector is UB; here the
write is dropped, and the theorems about this function only use states
where the index is in bounds.) -/
def setAssetDrawState (u : UUID) (st : RendererState) :
    RendererState × List REvent :=
  let ev := if mapFind st.resourcesMap u = none then [REvent.logError] else []
  let pr := mapBracketGet st.resourcesMap u 0
  ({ st with
      resourcesMap := pr.1
      assetResources :=
        listModify st.assetResources pr.2 fun a =>
          { a with shouldDraw := true } },
   ev)

/-- `Renderer::SetAssetTransform` (lines 597-600): no registration check;
`resourcesMap[uuid]` default-inserts a missing UUID. -/
def setAssetTransform (u : UUID) (t : Transform) (st : RendererState) :
    RendererState × List REvent :=
  let pr := mapBracketGet st.resourcesMap u 0
  ({ st with
      resourcesMap := pr.1
      assetResources :=
        listModify st.assetResources pr.2 fun a => { a with transform := t } },
   [])

/-- `Renderer::SetAssetPosition` (lines 602-606). -/
def setAssetPosition (u : UUID) (p : Vec3) (st : RendererState) :
    RendererState × List REvent :=
  let pr := mapBracketGet st.resourcesMap u 0
  ({ st with
      resourcesMap := pr.1
      assetResources :=
        listModify st.assetResources pr.2 fun a =>
          { a with transform := { a.transform with position := p } } },
   [])

/-- `Renderer::SetAssetRotation` (lines 608-612). -/
def setAssetRotation (u : UUID) (r : Vec3) (st : RendererState) :
    RendererState × List REvent :=
  let pr := mapBracketGet st.resourcesMap u 0
  ({ st with
      resourcesMap := pr.1
      assetResources :=
        listModify st.assetResources pr.2 fun a =>
          { a with transform := { a.transform with rotation := r } } },
   [])

/-- `Renderer::SetAssetScale` (lines 614-618). -/
def setAssetScale (u : UUID) (s : Vec3) (st : RendererState) :
    RendererState × List REvent :=
  let pr := mapBracketGet st.resourcesMap u 0
  ({ st with
      resourcesMap := pr.1
      assetResources :=
        listModify st.assetResources pr.2 fun a =>
          { a with transform := { a.transform with scale := s } } },
   [])

/-! ## Uniform buffer and descriptor set updates
(`renderer.cpp` lines 1772-1889) -/

/-- `Renderer::UpdateTransformUniformBuffer` (lines 1839-1852): writes
`translation * rotation * scale` into the current frame slot's transform
UBO for `uuid` (`assetDescriptorDataMap[uuid]` is `operator[]`). -/
def updateTransformUniformBuffer (fc fs : ℚ → ℚ) (t : Transform) (u : UUID)
    (st : RendererState) : RendererState :=
  let mat := glmTranslate t.position *
    glmEulerAngleXYZ fc fs t.rotation.x t.rotation.y t.rotation.z *
    glmScale t.scale
  modifyFDD st st.currentFrame fun fdd =>
    { fdd with
      assetDescriptorDataMap :=
        mapBracketModify fdd.assetDescriptorDataMap u emptyAssetDescriptorData
          fun add => { add with transformUBO := some mat } }

/-- `Renderer::UpdateCameraDataUniformBuffers` (lines 1854-1867): writes
the view matrix and `CameraDataUBO{vec4(position,1), exposure=1}` into
frame slot `frameIndex` for `uuid`.  `GetFDDAtIndex` asserts the index. -/
def updateCameraDataUniformBuffers (u : UUID) (frameIndex : Nat) (pos : Vec3)
    (viewMatrix : Mat4) (st : RendererState) : Option RendererState :=
  if frameIndex < getFDDSize st then
    some <| modifyFDD st frameIndex fun fdd =>
      { fdd with
        assetDescriptorDataMap :=
          mapBracketModify fdd.assetDescriptorDataMap u
            emptyAssetDescriptorData fun add =>
              { add with
                viewUBO := some viewMatrix
                cameraDataUBO := some ⟨pos, 1, 1⟩ } }
  else
    none

/-- `Renderer::UpdateProjectionUniformBuffer` (lines 1772-1789): the
written projection matrix is `perspective(45°, extent ratio, 0.1, 1000)`
with the Y clip coordinate flipped; its content is abstracted to the
swapchain extent it was computed from. -/
def updateProjectionUniformBuffer (u : UUID) (frameIndex : Nat)
    (st : RendererState) : Option RendererState :=
  if frameIndex < getFDDSize st then
    some <| modifyFDD st frameIndex fun fdd =>
      { fdd with
        assetDescriptorDataMap :=
          mapBracketModify fdd.assetDescriptorDataMap u
            emptyAssetDescriptorData fun add =>
              { add with projUBO := some st.swapChainExtent } }
  else
    none

/-- Common shape of the `Update*DescriptorSet` functions: fetch frame slot
`frameIndex` (assertion), fetch `assetDescriptorDataMap[uuid]` through
`operator[]`, then call `DescriptorSet::Update` on
`descriptorSets[setIndex]` (raw `std::vector` indexing: out of bounds is
UB, modelled as `none`). -/
def updateDescriptorSetAt (u : UUID) (frameIndex setIndex : Nat)
    (w : DescWrite) (st : RendererState) :
    Option (RendererState × List REvent) :=
  if h : frameIndex < getFDDSize st then
    let fdd := st.frameDependentData.get ⟨frameIndex, h⟩
    let pr :=
      mapBracketGet fdd.assetDescriptorDataMap u emptyAssetDescriptorData
    match pr.2.descriptorSets.get? setIndex with
    | none => none
    | some ds =>
      match descriptorSetUpdate w ds with
      | none => none
      | some r =>
        let m' := mapBracketModify pr.1 u emptyAssetDescriptorData fun add' =>
          { add' with
            descriptorSets :=
              listModify add'.descriptorSets setIndex fun _ => r.1 }
        some (modifyFDD st frameIndex fun fdd' =>
                { fdd' with assetDescriptorDataMap := m' },
              if r.2 then [REvent.logError] else [])
  else
    none

/-- `Renderer::UpdateTransformDescriptorSet` (lines 1869-1881): updates
`descriptorSets[2]` of the *current* frame slot. -/
def updateTransformDescriptorSet (u : UUID) (st : RendererState) :
    Option (RendererState × List REvent) :=
  updateDescriptorSetAt u st.currentFrame 2 DescWrite.transformWrite st

/-- `Renderer::UpdateCameraDataDescriptorSet` (lines 1825-1837): updates
`descriptorSets[2]` of frame slot `frameIndex`. -/
def updateCameraDataDescriptorSet (u : UUID) (frameIndex : Nat)
    (st : RendererState) : Option (RendererState × List REvent) :=
  updateDescriptorSetAt u frameIndex 2 DescWrite.cameraDataWrite st

/-- `Renderer::UpdateProjectionDescriptorSet` (lines 1791-1802): updates
`descriptorSets[1]` of frame slot `frameIndex`. -/
def updateProjectionDescriptorSet (u : UUID) (frameIndex : Nat)
    (st : RendererState) : Option (RendererState × List REvent) :=
  updateDescriptorSetAt u frameIndex 1 DescWrite.projectionWrite st

/-- `Renderer::UpdatePBRTextureDescriptorSet` (lines 1804-1823): updates
`descriptorSets[0]` of frame slot `frameIndex`. -/
def updatePBRTextureDescriptorSet (u : UUID) (frameIndex : Nat)
    (st : RendererState) : Option (RendererState × List REvent) :=
  updateDescriptorSetAt u frameIndex 0 DescWrite.pbrWrite st

/-- `Renderer::InitializeDescriptorSets` (lines 1883-1889). -/
def initializeDescriptorSets (u : UUID) (frameIndex : Nat)
    (st : RendererState) : Option (RendererState × List REvent) := do
  let (st1, e1) ← updateCameraDataDescriptorSet u frameIndex st
  let (st2, e2) ← updateProjectionDescriptorSet u frameIndex st1
  let (st3, e3) ← updatePBRTextureDescriptorSet u frameIndex st2
  return (st3, e1 ++ e2 ++ e3)

/-- `Renderer::UpdateCameraData` (lines 483-494): for every key of the
*current* frame slot's `assetDescriptorDataMap`, update the view/camera
UBOs and the camera-data descriptor set, in that slot only. -/
def updateCameraData (pos : Vec3) (viewMatrix : Mat4) (st : RendererState) :
    Option (RendererState × List REvent) := do
  let fdd ← getCurrentFDD st
  let keys := fdd.assetDescriptorDataMap.map (·.1)
  keys.foldlM
    (fun p u => do
      let st1 ← updateCameraDataUniformBuffers u p.1.currentFrame pos
        viewMatrix p.1
      let r ← updateCameraDataDescriptorSet u st1.currentFrame st1
      return (r.1, p.2 ++ r.2))
    (st, ([] : List REvent))

/-! ## Command buffer recording (`renderer.cpp` lines 1648-1742) -/

/-- `Renderer::RecordSecondaryCommandBuffer` (lines 1702-1729): reads the
descriptor sets of the asset from the *current* frame slot
(`assetDescriptorDataMap[uuid]` is `operator[]`, so it default-inserts a
missing entry), reads the framebuffer of swapchain-image slot
`frameBufferIndex` (assertion via `GetSWIDDAtIndex`), and records the draw
into the given slot's secondary command buffer for the asset. -/
def recordSecondaryCommandBuffer (u : UUID) (frameBufferIndex : Nat)
    (st : RendererState) : Option (RendererState × List REvent) :=
  if st.currentFrame < getFDDSize st then
    if frameBufferIndex < getSWIDDSize st then
      let st1 := modifyFDD st st.currentFrame fun fdd =>
        { fdd with
          assetDescriptorDataMap :=
            mapBracketModify fdd.assetDescriptorDataMap u
              emptyAssetDescriptorData id }
      let st2 := modifySWIDD st1 frameBufferIndex fun swidd =>
        { swidd with
          secondaryCommandBuffer :=
            swidd.secondaryCommandBuffer.map fun p =>
              if p.1 = u then (p.1, ⟨some (u, frameBufferIndex)⟩) else p }
      some (st2, [REvent.recordSecondary frameBufferIndex u])
    else
      none
  else
    none

/-- One iteration of the asset loop in `RecordPrimaryCommandBuffer`
(lines 1664-1680): the draw-state test indexes
`assetResources[resourcesMap[uuid]]` (both `operator[]`), and a drawable
asset gets its transform UBO and descriptor set updated and its secondary
command buffer (slot `imageIndex`) reset and re-recorded. -/
def recordPrimaryLoopStep (fc fs : ℚ → ℚ) (imageIndex : Nat)
    (a : AssetResources) (st : RendererState) (acc : List UUID)
    (ev : List REvent) :
    Option (RendererState × List UUID × List REvent) := do
  let pr1 := mapBracketGet st.resourcesMap a.uuid 0
  let st1 := { st with resourcesMap := pr1.1 }
  match st1.assetResources.get? pr1.2 with
  | none => none
  | some stored =>
    if stored.shouldDraw then do
      -- GetSecondaryCommandBufferAtIndex: GetSWIDDAtIndex + map `at`
      let swidd ← getSWIDDAtIndex st1 imageIndex
      let _ ← mapFind swidd.secondaryCommandBuffer a.uuid
      let pr2 := mapBracketGet st1.resourcesMap a.uuid 0
      let st2 := { st1 with resourcesMap := pr2.1 }
      let stored2 ← st2.assetResources.get? pr2.2
      let st3 := updateTransformUniformBuffer fc fs stored2.transform a.uuid st2
      let (st4, e4) ← updateTransformDescriptorSet a.uuid st3
      let (st5, e5) ← recordSecondaryCommandBuffer a.uuid imageIndex st4
      return (st5, acc ++ [a.uuid], ev ++ e4 ++ e5)
    else
      return (st1, acc, ev)

/-- The asset loop of `RecordPrimaryCommandBuffer`, iterating over the
`assetResources` vector in order. -/
def recordPrimaryLoop (fc fs : ℚ → ℚ) (imageIndex : Nat)
    (assets : List AssetResources) (st : RendererState) (acc : List UUID)
    (ev : List REvent) :
    Option (RendererState × List UUID × List REvent) :=
  match assets with
  | [] => some (st, acc, ev)
  | a :: rest => do
    let (st1, acc1, ev1) ← recordPrimaryLoopStep fc fs imageIndex a st acc ev
    recordPrimaryLoop fc fs imageIndex rest st1 acc1 ev1

/-- `Renderer::RecordPrimaryCommandBuffer` (lines 1648-1691): resets and
re-records the current frame slot's primary command buffer against the
framebuffer of swapchain-image slot `frameBufferIndex`, executing the
secondary command buffers of exactly the assets whose draw flag is set. -/
def recordPrimaryCommandBuffer (fc fs : ℚ → ℚ) (frameBufferIndex : Nat)
    (st : RendererState) : Option (RendererState × List REvent) := do
  let _ ← getCurrentFDD st
  -- GetFramebufferAtIndex -> GetSWIDDAtIndex assertion
  let _ ← getSWIDDAtIndex st frameBufferIndex
  let (st1, executed, ev) ←
    recordPrimaryLoop fc fs frameBufferIndex st.assetResources st []
      [REvent.recordPrimary frameBufferIndex]
  let st2 := modifyFDD st1 st1.currentFrame fun fdd =>
    { fdd with primaryCommandBuffer := ⟨executed⟩ }
  return (st2, ev)

/-! ## Asset lifecycle (`renderer.cpp` lines 235-467) -/

/-- The hard-coded initial camera position in `CreateAssetResources`
(line 371): `pos = {0, 5, 15}`. -/
def initialCameraPos : Vec3 := ⟨0, 5, 15⟩

/-- `glm::lookAt(pos, pos + eye, {0,1,0})` at `pos = (0,5,15)`,
`eye = (0,0,1)` (line 373), evaluated: `f = (0,0,1)`, `s = (-1,0,0)`,
`u = (0,1,0)` are already unit vectors, so the matrix is exact. -/
def hardcodedLookAt : Mat4 :=
  !![-1, 0, 0, 0; 0, 1, 0, -5; 0, 0, -1, 15; 0, 0, 0, 1]

/-- `glm::inverse` of `hardcodedLookAt` (line 373), evaluated exactly. -/
def initialViewMatrix : Mat4 :=
  !![-1, 0, 0, 0; 0, 1, 0, 5; 0, 0, -1, 15; 0, 0, 0, 1]

/-- `Renderer::CreateAssetUniformBuffers` (lines 1502-1534): for every
frame slot, `assetDescriptorDataMap[uuid]` (`operator[]`, default-inserts
the entry) and create/map the four uniform buffers. -/
def createAssetUniformBuffers (u : UUID) (st : RendererState) :
    RendererState :=
  { st with
    frameDependentData := st.frameDependentData.map fun fdd =>
      { fdd with
        assetDescriptorDataMap :=
          mapBracketModify fdd.assetDescriptorDataMap u
            emptyAssetDescriptorData id } }

/-- `Renderer::CreateDescriptorSets` (lines 1589-1609): for every frame
slot, `insert({uuid, AssetDescriptorData()})` (no-op on an existing key)
and push one created descriptor set per cached layout (the three layouts
built by `CreateDescriptorSetLayouts`, lines 1536-1565). -/
def createDescriptorSets (u : UUID) (st : RendererState) : RendererState :=
  { st with
    frameDependentData := st.frameDependentData.map fun fdd =>
      let m := mapInsert fdd.assetDescriptorDataMap u emptyAssetDescriptorData
      { fdd with
        assetDescriptorDataMap :=
          mapBracketModify m u emptyAssetDescriptorData fun add =>
            { add with
              descriptorSets :=
                add.descriptorSets ++ [⟨true, []⟩, ⟨true, []⟩, ⟨true, []⟩] } } }

/-- The per-frame-slot initialization loop of `CreateAssetResources`
(lines 374-381). -/
def initAssetFrameSlots (u : UUID) (st : RendererState) :
    Option (RendererState × List REvent) :=
  (List.range (getFDDSize st)).foldlM
    (fun p i => do
      let st1 ← updateCameraDataUniformBuffers u i initialCameraPos
        initialViewMatrix p.1
      let st2 ← updateProjectionUniformBuffer u i st1
      let r ← initializeDescriptorSets u i st2
      return (r.1, p.2 ++ r.2))
    (st, ([] : List REvent))

/-- `Renderer::CreateAssetResources` (lines 235-385), restricted to the
renderer-owned state: append a new `AssetResources` (draw flag cleared,
default transform), record its index in `resourcesMap`, create its uniform
buffers and descriptor sets in every frame slot, then initialize the
view/camera/projection UBOs and all descriptor sets of every slot.  The
mesh/material uploads act on externally-owned GPU memory. -/
def createAssetResources (u : UUID) (indexCount : Nat) (st : RendererState) :
    Option (RendererState × List REvent) := do
  let st1 := { st with
    assetResources := st.assetResources ++
      [{ uuid := u, shouldDraw := false, transform := defaultTransform,
         indexCount := indexCount }]
    resourcesMap := mapInsert st.resourcesMap u st.assetResources.length }
  let st2 := createAssetUniformBuffers u st1
  let st3 := createDescriptorSets u st2
  initAssetFrameSlots u st3

/-- `Renderer::CreateAssetCommandBuffer` (lines 387-406): for every
swapchain-image slot, bail out of the whole function with an error on the
first slot whose map already has the asset, otherwise emplace and create a
secondary command buffer for it. -/
def createAssetCommandBufferLoop (u : UUID) (slots : List Nat)
    (st : RendererState) (ev : List REvent) : RendererState × List REvent :=
  match slots with
  | [] => (st, ev)
  | i :: rest =>
    match getSWIDDAtIndex st i with
    | none => (st, ev)
    | some swidd =>
      match mapFind swidd.secondaryCommandBuffer u with
      | some _ => (st, ev ++ [REvent.logError])
      | none =>
        let st' := modifySWIDD st i fun s =>
          { s with
            secondaryCommandBuffer :=
              mapInsert s.secondaryCommandBuffer u ⟨none⟩ }
        createAssetCommandBufferLoop u rest st'
          (ev ++ [REvent.createSecondary i u])

/-- `Renderer::CreateAssetCommandBuffer` (lines 387-406). -/
def createAssetCommandBuffer (u : UUID) (st : RendererState) :
    RendererState × List REvent :=
  createAssetCommandBufferLoop u (List.range (getSWIDDSize st)) st []

/-- `Renderer::DestroyAssetResources` (lines 441-454): asserts the UUID is
registered, destroys the asset's GPU buffers, then erases the asset from
the vector at index `(&assetResources[idx] - &assetResources[0]) /
sizeof(assetResources)` — the pointer difference already counts elements,
and `sizeof` of the `std::vector` object (`szVec`, implementation-defined,
24-32 bytes on common ABIs) divides it again — and erases the UUID from
`resourcesMap`.  The frame slots' `assetDescriptorDataMap`s are not
touched. -/
def destroyAssetResources (szVec : Nat) (u : UUID) (st : RendererState) :
    Option (RendererState × List REvent) :=
  match mapFind st.resourcesMap u with
  | none => none
  | some idx =>
    let resourceIndex := idx / szVec
    some ({ st with
        assetResources := listEraseIdx st.assetResources resourceIndex
        resourcesMap := mapErase st.resourcesMap u }, [])

/-- `Renderer::DestroyAllAssetResources` (lines 456-467): destroys every
asset's buffers and clears the vector and the map (again leaving the frame
slots' descriptor data in place). -/
def destroyAllAssetResources (st : RendererState) :
    RendererState × List REvent :=
  ({ st with assetResources := [], resourcesMap := [] }, [])

/-! ## Swapchain recreation (`renderer.cpp` lines 496-507, 1057-1129,
1731-1770) -/

/-- `vector::resize` on the swapchain-image table
(`CreateSwapChainImageViews`, line 1119): keeps the prefix, appends
value-initialized slots. -/
def resizeSWIDD (l : List SwapChainImageDependentData) (n : Nat) :
    List SwapChainImageDependentData :=
  l.take n ++ List.replicate (n - l.length) emptySWIDD

/-- `Renderer::CleanupSwapChain` (lines 1744-1770): destroy the color and
depth attachments, every framebuffer, every swapchain image view, every
secondary command buffer of every slot, then the swapchain handle.  The
slot vector and its maps are not cleared. -/
def cleanupSwapChain (st : RendererState) : RendererState × List REvent :=
  let n := getSWIDDSize st
  let evFB := (List.range n).map REvent.destroyFramebuffer
  let evIV := (List.range n).map REvent.destroyImageView
  let evSC := (List.range n).flatMap fun i =>
    match st.swapChainImageDependentData.get? i with
    | none => []
    | some swidd =>
      swidd.secondaryCommandBuffer.map fun p => REvent.destroySecondary i p.1
  (st,
   [REvent.destroyColorAttachment, REvent.destroyDepthBuffer] ++ evFB ++ evIV
     ++ evSC ++ [REvent.destroySwapChainHandle])

/-- Inner loop body of `RecreateAllSecondaryCommandBuffers`
(lines 1735-1740): `GetSecondaryCommandBufferAtIndex` (`at`: fatal on a
missing key), `Create`, then `RecordSecondaryCommandBuffer`. -/
def recreateSecondaryFor (i : Nat) (a : AssetResources) (st : RendererState)
    (ev : List REvent) : Option (RendererState × List REvent) := do
  let swidd ← getSWIDDAtIndex st i
  let _ ← mapFind swidd.secondaryCommandBuffer a.uuid
  let (st1, e1) ← recordSecondaryCommandBuffer a.uuid i st
  return (st1, ev ++ [REvent.createSecondary i a.uuid] ++ e1)

/-- `Renderer::RecreateAllSecondaryCommandBuffers` (lines 1731-1742): for
every swapchain-image slot, re-create and re-record the secondary command
buffer of every registered asset. -/
def recreateAllSecondaryCommandBuffers (st : RendererState) :
    Option (RendererState × List REvent) :=
  (List.range (getSWIDDSize st)).foldlM
    (fun p i =>
      p.1.assetResources.foldlM
        (fun q a => recreateSecondaryFor i a q.1 q.2) p)
    (st, ([] : List REvent))

/-- `Renderer::RecreateSwapChain` (lines 496-507): wait for device idle,
`CleanupSwapChain`, recreate the swapchain (the driver chooses
`newImageCount` images; the extent becomes the cached framebuffer size),
recreate the color attachment, depth texture and framebuffers, then
re-record all secondary command buffers. -/
def recreateSwapChain (newImageCount : Nat) (st : RendererState) :
    Option (RendererState × List REvent) := do
  let (st1, evClean) := cleanupSwapChain st
  let st2 := { st1 with
    swapChainImageDependentData :=
      resizeSWIDD st1.swapChainImageDependentData newImageCount
    swapChainExtent := (st1.framebufferWidth, st1.framebufferHeight) }
  let evCreate :=
    [REvent.createSwapChainHandle, REvent.createColorAttachment,
     REvent.createDepthTexture] ++
      (List.range newImageCount).map REvent.createFramebuffer
  let (st3, evRec) ← recreateAllSecondaryCommandBuffers st2
  return (st3, REvent.waitDeviceIdle :: evClean ++ evCreate ++ evRec)

/-! ## The frame loop (`renderer.cpp` lines 205-229, 620-699) -/

/-- Result of `vkAcquireNextImageKHR` as handled by `DrawFrame`. -/
inductive AcquireRes
  | success
  | suboptimal
  | outOfDate
  | otherError
deriving DecidableEq, Repr

/-- Result of `vkQueuePresentKHR` as handled by `DrawFrame`. -/
inductive PresentRes
  | success
  | suboptimal
  | outOfDate
  | otherError
deriving DecidableEq, Repr

/-- Environment inputs consumed by one `DrawFrame` call: the acquire
result and image index from the presentation engine, whether
`vkQueueSubmit` succeeds (a failure is a fatal assertion in
`SubmitQueue`), the present result, the image count of a swapchain
rebuilt during this frame, and `glm::cos`/`glm::sin`. -/
structure FrameInput where
  acquire : AcquireRes
  imageIndex : Nat
  submitOk : Bool
  presentRes : PresentRes
  newImageCount : Nat
  fc : ℚ → ℚ
  fs : ℚ → ℚ

/-- `vkWaitForFences` on one slot: an unsignaled fence with no pending GPU
work never signals (deadlock, modelled as `none`); a pending fence is
signaled once the GPU work completes and the wait returns. -/
def waitInFlightFence (slot : Nat) (st : RendererState) :
    Option RendererState :=
  match (st.frameDependentData.get? slot).map (·.inFlightFence) with
  | none => none
  | some FenceState.unsignaled => none
  | some _ =>
    some <| modifyFDD st slot fun fdd =>
      { fdd with inFlightFence := FenceState.signaled }

/-- Set one slot's fence state. -/
def setFence (slot : Nat) (f : FenceState) (st : RendererState) :
    RendererState :=
  modifyFDD st slot fun fdd => { fdd with inFlightFence := f }

/-- The fence-reset / record / submit / present path of
`Renderer::DrawFrame` (lines 642-698), entered when the acquire result is
`VK_SUCCESS` or `VK_SUBOPTIMAL_KHR`: reset the current fence, record the
primary command buffer, submit (failure is a fatal assertion in
`SubmitQueue`; the submit hands the fence to the GPU), then present
(out-of-date/suboptimal: recreate the swapchain; other failures: log). -/
def drawFrameSubmitPath (inp : FrameInput) (st1 : RendererState)
    (ev0 : List REvent) : Option (RendererState × List REvent) := do
  let st2 := setFence st1.currentFrame FenceState.unsignaled st1
  let (st3, ev3) ←
    recordPrimaryCommandBuffer inp.fc inp.fs inp.imageIndex st2
  if inp.submitOk = false then
    none
  else
    let st4 := setFence st3.currentFrame FenceState.pending st3
    let evSub := [REvent.resetFence st1.currentFrame] ++ ev3 ++
      [REvent.submit, REvent.presentImage]
    match inp.presentRes with
    | PresentRes.outOfDate => do
      let (st5, ev5) ← recreateSwapChain inp.newImageCount st4
      return (st5, ev0 ++ evSub ++ ev5)
    | PresentRes.suboptimal => do
      let (st5, ev5) ← recreateSwapChain inp.newImageCount st4
      return (st5, ev0 ++ evSub ++ ev5)
    | PresentRes.otherError =>
      return (st4, ev0 ++ evSub ++ [REvent.logError])
    | PresentRes.success => return (st4, ev0 ++ evSub)

/-- `Renderer::DrawFrame` (lines 620-699): wait on the current slot's
in-flight fence, acquire an image (out-of-date: recreate the swapchain and
return early, before the fence reset; other failures: fatal assertion),
otherwise continue with `drawFrameSubmitPath`. -/
def drawFrame (inp : FrameInput) (st : RendererState) :
    Option (RendererState × List REvent) := do
  let _ ← getCurrentFDD st
  let st1 ← waitInFlightFence st.currentFrame st
  let ev0 := [REvent.waitFence st.currentFrame, REvent.acquireImage]
  match inp.acquire with
  | AcquireRes.outOfDate => do
    let (st2, ev2) ← recreateSwapChain inp.newImageCount st1
    return (st2, ev0 ++ ev2)
  | AcquireRes.otherError => none
  | _ => drawFrameSubmitPath inp st1 ev0

/-- `Renderer::Draw` (lines 215-229): `DrawFrame`, then clear every
asset's draw flag, then advance `currentFrame` modulo
`MAX_FRAMES_IN_FLIGHT`. -/
def draw (inp : FrameInput) (st : RendererState) :
    Option (RendererState × List REvent) := do
  let (st1, ev) ← drawFrame inp st
  let st2 := { st1 with
    assetResources := st1.assetResources.map fun (a : AssetResources) =>
      { a with shouldDraw := false } }
  return ({ st2 with
      currentFrame := (st2.currentFrame + 1) % MAX_FRAMES_IN_FLIGHT }, ev)

/-- `Renderer::Update` (lines 205-213): recreate the swapchain when the
cached framebuffer size disagrees with the current swapchain extent. -/
def update (newImageCount : Nat) (st : RendererState) :
    Option (RendererState × List REvent) :=
  if st.swapChainExtent ≠ (st.framebufferWidth, st.framebufferHeight) then
    recreateSwapChain newImageCount st
  else
    some (st, [])

/-- `Renderer::SetNextFramebufferSize` (lines 477-481). -/
def setNextFramebufferSize (w h : Nat) (st : RendererState) :
    RendererState × List REvent :=
  ({ st with framebufferWidth := w, framebufferHeight := h }, [])

/-- The state after `Renderer::Initialize` (lines 509-532):
`MAX_FRAMES_IN_FLIGHT` frame slots with signaled fences
(`CreateSyncObjects`, line 1460) and empty descriptor maps,
`imageCount` swapchain-image slots, no assets, frame slot 0 current, and
the swapchain extent matching the window size. -/
def initialState (windowWidth windowHeight imageCount : Nat) :
    RendererState :=
  { frameDependentData :=
      List.replicate MAX_FRAMES_IN_FLIGHT
        ⟨[], FenceState.signaled, ⟨[]⟩⟩
    swapChainImageDependentData := List.replicate imageCount emptySWIDD
    resourcesMap := []
    assetResources := []
    currentFrame := 0
    swapChainExtent := (windowWidth, windowHeight)
    framebufferWidth := windowWidth
    framebufferHeight := windowHeight }

/-! ## The public API as a transition system -/

/-- One call of the public renderer surface, with its environment inputs. -/
inductive ApiOp
  | opDraw (inp : FrameInput)
  | opSetAssetDrawState (u : UUID)
  | opSetAssetTransform (u : UUID) (t : Transform)
  | opSetAssetPosition (u : UUID) (p : Vec3)
  | opSetAssetRotation (u : UUID) (r : Vec3)
  | opSetAssetScale (u : UUID) (s : Vec3)
  | opCreateAssetResources (u : UUID) (indexCount : Nat)
  | opCreateAssetCommandBuffer (u : UUID)
  | opDestroyAssetResources (szVec : Nat) (u : UUID)
  | opDestroyAllAssetResources
  | opUpdateCameraData (pos : Vec3) (viewMatrix : Mat4)
  | opUpdate (newImageCount : Nat)
  | opSetNextFramebufferSize (w h : Nat)

/-- Whether an `ApiOp` is a `Draw()` call. -/
def ApiOp.isDraw : ApiOp → Bool
  | ApiOp.opDraw _ => true
  | _ => false

/-- Run one public API call. -/
def runOp (op : ApiOp) (st : RendererState) :
    Option (RendererState × List REvent) :=
  match op with
  | ApiOp.opDraw inp => draw inp st
  | ApiOp.opSetAssetDrawState u => some (setAssetDrawState u st)
  | ApiOp.opSetAssetTransform u t => some (setAssetTransform u t st)
  | ApiOp.opSetAssetPosition u p => some (setAssetPosition u p st)
  | ApiOp.opSetAssetRotation u r => some (setAssetRotation u r st)
  | ApiOp.opSetAssetScale u s => some (setAssetScale u s st)
  | ApiOp.opCreateAssetResources u ic => createAssetResources u ic st
  | ApiOp.opCreateAssetCommandBuffer u => some (createAssetCommandBuffer u st)
  | ApiOp.opDestroyAssetResources szVec u => destroyAssetResources szVec u st
  | ApiOp.opDestroyAllAssetResources => some (destroyAllAssetResources st)
  | ApiOp.opUpdateCameraData p m => updateCameraData p m st
  | ApiOp.opUpdate n => update n st
  | ApiOp.opSetNextFramebufferSize w h => some (setNextFramebufferSize w h st)

/-- Run a sequence of public API calls, discarding the event traces. -/
def runOps (ops : List ApiOp) (st : RendererState) : Option RendererState :=
  match ops with
  | [] => some st
  | op :: rest => do
    let (st1, _) ← runOp op st
    runOps rest st1

/-- The number of completed `Draw()` calls in a sequence of API calls. -/
def countDraws (ops : List ApiOp) : Nat :=
  (ops.filter (·.isDraw)).length

/-! ## Derived observations and well-formedness -/

/-- Total number of `AssetDescriptorData` entries across all frame slots. -/
def descriptorEntryCount (st : RendererState) : Nat :=
  (st.frameDependentData.map (·.assetDescriptorDataMap.length)).sum

/-- The spec's asset-descriptor invariant: entry total = registered assets
× `MAX_FRAMES_IN_FLIGHT`. -/
def descriptorCountInvariant (st : RendererState) : Prop :=
  descriptorEntryCount st = st.assetResources.length * MAX_FRAMES_IN_FLIGHT

instance (st : RendererState) : Decidable (descriptorCountInvariant st) :=
  inferInstanceAs (Decidable (_ = _))

/-- `resourcesMap` correctly indexes the asset vector. -/
def wfResourcesMap (st : RendererState) : Prop :=
  ∀ k a, st.assetResources.get? k = some a →
    mapFind st.resourcesMap a.uuid = some k

/-- Every frame slot has a complete, created descriptor-data entry for
every registered asset (three descriptor sets, as `CreateDescriptorSets`
builds them). -/
def wfDescriptorData (st : RendererState) : Prop :=
  ∀ fdd ∈ st.frameDependentData, ∀ a ∈ st.assetResources,
    ∃ add, mapFind fdd.assetDescriptorDataMap a.uuid = some add ∧
      add.descriptorSets.length = 3 ∧
      ∀ ds ∈ add.descriptorSets, ds.created = true

/-- Every swapchain-image slot has a secondary command buffer for every
registered asset (established by `CreateAssetCommandBuffer`). -/
def wfSecondaryBuffers (st : RendererState) : Prop :=
  ∀ swidd ∈ st.swapChainImageDependentData, ∀ a ∈ st.assetResources,
    (mapFind swidd.secondaryCommandBuffer a.uuid).isSome

/-- The frame-slot table has its initialization shape and the current
index is in range. -/
def wfFrames (st : RendererState) : Prop :=
  st.frameDependentData.length = MAX_FRAMES_IN_FLIGHT ∧
    st.currentFrame < MAX_FRAMES_IN_FLIGHT

/-! ## Container lemmas -/

theorem listModify_length (l : List α) (i : Nat) (f : α → α) :
    (listModify l i f).length = l.length := by
  induction l generalizing i with
  | nil => rfl
  | cons a as ih =>
    cases i with
    | zero => rfl
    | succ i => simp [listModify, ih]

theorem listModify_get_ne (l : List α) (i : Nat) (f : α → α) (j : Nat)
    (h : j ≠ i) : (listModify l i f).get? j = l.get? j := by
  induction l generalizing i j with
  | nil => rfl
  | cons a as ih =>
    cases i with
    | zero =>
      cases j with
      | zero => exact absurd rfl h
      | succ j => rfl
    | succ i =>
      cases j with
      | zero => rfl
      | succ j =>
        simpa [listModify] using ih i j (fun hj => h (by simp [hj]))

theorem listModify_get_self (l : List α) (i : Nat) (f : α → α) :
    (listModify l i f).get? i = (l.get? i).map f := by
  induction l generalizing i with
  | nil => rfl
  | cons a as ih =>
    cases i with
    | zero => rfl
    | succ i => simpa [listModify] using ih i

theorem listEraseIdx_length (l : List α) (i : Nat) (h : i < l.length) :
    (listEraseIdx l i).length + 1 = l.length := by
  induction l generalizing i with
  | nil => simp at h
  | cons a as ih =>
    cases i with
    | zero => rfl
    | succ i =>
      have := ih i (by simpa using h)
      simpa [listEraseIdx] using this

theorem mapFind_append_right (m : List (UUID × β)) (k : UUID) (v : β)
    (h : mapFind m k = none) : mapFind (m ++ [(k, v)]) k = some v := by
  induction m with
  | nil => simp [mapFind]
  | cons p rest ih =>
    by_cases hp : p.1 = k
    · simp [mapFind, hp] at h
    · simp only [mapFind, hp] at h
      simp only [List.cons_append, mapFind, hp, if_false]
      exact ih h

theorem mapFind_append_other (m : List (UUID × β)) (k k' : UUID) (v : β)
    (h : k' ≠ k) : mapFind (m ++ [(k, v)]) k' = mapFind m k' := by
  induction m with
  | nil =>
    have : ¬(k = k') := fun hq => h (Eq.symm hq)
    simp [mapFind, this]
  | cons p rest ih =>
    by_cases hp : p.1 = k'
    · simp [mapFind, hp]
    · simp only [List.cons_append, mapFind, hp, if_false]
      exact ih

theorem mapBracketGet_present (m : List (UUID × β)) (k : UUID) (d v : β)
    (h : mapFind m k = some v) : mapBracketGet m k d = (m, v) := by
  simp [mapBracketGet, h]

theorem mapBracketGet_absent (m : List (UUID × β)) (k : UUID) (d : β)
    (h : mapFind m k = none) : mapBracketGet m k d = (m ++ [(k, d)], d) := by
  simp [mapBracketGet, h]

/-- In-place value adjustment at a key, the "present" arm of
`mapBracketModify`. -/
def mapAdjust (m : List (UUID × β)) (k : UUID) (f : β → β) :
    List (UUID × β) :=
  m.map fun p => if p.1 = k then (p.1, f p.2) else p

theorem mapAdjust_length (m : List (UUID × β)) (k : UUID) (f : β → β) :
    (mapAdjust m k f).length = m.length := by
  simp [mapAdjust]

theorem mapFind_adjust_other (m : List (UUID × β)) (k k' : UUID) (f : β → β)
    (h : k' ≠ k) : mapFind (mapAdjust m k f) k' = mapFind m k' := by
  induction m with
  | nil => rfl
  | cons p rest ih =>
    by_cases hp : p.1 = k
    · have hp' : ¬p.1 = k' := fun hq => h (hq ▸ hp)
      simp only [mapAdjust, List.map_cons, if_pos hp, mapFind, hp']
      simpa [mapAdjust] using ih
    · simp only [mapAdjust, List.map_cons, if_neg hp, mapFind]
      by_cases hq : p.1 = k'
      · simp [hq]
      · simpa [mapAdjust, hq] using ih

theorem mapFind_adjust_self (m : List (UUID × β)) (k : UUID) (f : β → β) :
    mapFind (mapAdjust m k f) k = (mapFind m k).map f := by
  induction m with
  | nil => rfl
  | cons p rest ih =>
    by_cases hp : p.1 = k
    · simp [mapAdjust, List.map_cons, if_pos hp, mapFind, hp]
    · simp only [mapAdjust, List.map_cons, if_neg hp, mapFind, hp, if_false]
      simpa [mapAdjust] using ih

theorem mapBracketModify_present (m : List (UUID × β)) (k : UUID) (d v : β)
    (f : β → β) (h : mapFind m k = some v) :
    mapBracketModify m k d f = mapAdjust m k f := by
  simp [mapBracketModify, mapAdjust, h]

theorem mapBracketModify_absent (m : List (UUID × β)) (k : UUID) (d : β)
    (f : β → β) (h : mapFind m k = none) :
    mapBracketModify m k d f = m ++ [(k, f d)] := by
  simp [mapBracketModify, h]

theorem mapBracketModify_find_other (m : List (UUID × β)) (k k' : UUID)
    (d : β) (f : β → β) (h : k' ≠ k) :
    mapFind (mapBracketModify m k d f) k' = mapFind m k' := by
  cases hm : mapFind m k with
  | none => rw [mapBracketModify_absent m k d f hm]
            exact mapFind_append_other m k k' (f d) h
  | some v => rw [mapBracketModify_present m k d v f hm]
              exact mapFind_adjust_other m k k' f h

theorem mapBracketModify_find_self_present (m : List (UUID × β)) (k : UUID)
    (d v : β) (f : β → β) (h : mapFind m k = some v) :
    mapFind (mapBracketModify m k d f) k = some (f v) := by
  rw [mapBracketModify_present m k d v f h, mapFind_adjust_self, h]
  rfl

theorem mapBracketModify_find_self_absent (m : List (UUID × β)) (k : UUID)
    (d : β) (f : β → β) (h : mapFind m k = none) :
    mapFind (mapBracketModify m k d f) k = some (f d) := by
  rw [mapBracketModify_absent m k d f h]
  exact mapFind_append_right m k (f d) h

theorem mapBracketModify_length_present (m : List (UUID × β)) (k : UUID)
    (d : β) (f : β → β) (v : β) (h : mapFind m k = some v) :
    (mapBracketModify m k d f).length = m.length := by
  rw [mapBracketModify_present m k d v f h, mapAdjust_length]

theorem mapBracketModify_length_absent (m : List (UUID × β)) (k : UUID)
    (d : β) (f : β → β) (h : mapFind m k = none) :
    (mapBracketModify m k d f).length = m.length + 1 := by
  rw [mapBracketModify_absent m k d f h]
  simp

theorem mapInsert_present (m : List (UUID × β)) (k : UUID) (v w : β)
    (h : mapFind m k = some w) : mapInsert m k v = m := by
  simp [mapInsert, h]

theorem mapInsert_absent (m : List (UUID × β)) (k : UUID) (v : β)
    (h : mapFind m k = none) : mapInsert m k v = m ++ [(k, v)] := by
  simp [mapInsert, h]

/-- Generic preservation through an `Option`-valued fold. -/
theorem foldlM_option_preserve {α β : Type _} (P : α → Prop)
    (f : α → β → Option α)
    (hf : ∀ a b a', P a → f a b = some a' → P a') :
    ∀ (l : List β) (a a' : α), P a → List.foldlM f a l = some a' → P a' := by
  intro l
  induction l with
  | nil =>
    intro a a' hP h
    simp [List.foldlM] at h
    exact h ▸ hP
  | cons b rest ih =>
    intro a a' hP h
    simp only [List.foldlM_cons] at h
    cases hfa : f a b with
    | none => rw [hfa] at h; simp at h
    | some a1 =>
      rw [hfa] at h
      simp at h
      exact ih a1 a' (hf a b a1 hP hfa) h

theorem optionPureEq {α : Type _} {a b : α} (h : (pure a : Option α) = some b) :
    a = b :=
  Option.some.inj h

/-! ## Shape preservation lemmas -/

/-- State components preserved by every operation inside `DrawFrame`:
the slot index, the slot count, and the asset vector. -/
def drawShapeInv (st st' : RendererState) : Prop :=
  st'.currentFrame = st.currentFrame ∧
    st'.frameDependentData.length = st.frameDependentData.length ∧
    st'.assetResources = st.assetResources

theorem drawShapeInv_refl (st : RendererState) : drawShapeInv st st :=
  ⟨rfl, rfl, rfl⟩

theorem drawShapeInv_trans {s1 s2 s3 : RendererState}
    (h1 : drawShapeInv s1 s2) (h2 : drawShapeInv s2 s3) :
    drawShapeInv s1 s3 :=
  ⟨h2.1.trans h1.1, h2.2.1.trans h1.2.1, h2.2.2.trans h1.2.2⟩

theorem drawShapeInv_modifyFDD (st : RendererState) (i : Nat)
    (f : FrameDependentData → FrameDependentData) :
    drawShapeInv st (modifyFDD st i f) :=
  ⟨rfl, listModify_length _ _ _, rfl⟩

theorem drawShapeInv_modifySWIDD (st : RendererState) (i : Nat)
    (f : SwapChainImageDependentData → SwapChainImageDependentData) :
    drawShapeInv st (modifySWIDD st i f) :=
  ⟨rfl, rfl, rfl⟩

theorem drawShapeInv_setFence (slot : Nat) (f : FenceState)
    (st : RendererState) : drawShapeInv st (setFence slot f st) :=
  drawShapeInv_modifyFDD st slot _

theorem waitInFlightFence_eq (slot : Nat) (st st' : RendererState)
    (h : waitInFlightFence slot st = some st') :
    st' = setFence slot FenceState.signaled st := by
  unfold waitInFlightFence at h
  cases hf : (st.frameDependentData.get? slot).map (·.inFlightFence) with
  | none => rw [hf] at h; exact absurd h (by simp)
  | some fs =>
    rw [hf] at h
    cases fs with
    | unsignaled => exact absurd h (by simp)
    | signaled => simp at h; exact h.symm
    | pending => simp at h; exact h.symm

theorem updateTransformUniformBuffer_modifyFDD (fc fs : ℚ → ℚ)
    (t : Transform) (u : UUID) (st : RendererState) :
    ∃ f, updateTransformUniformBuffer fc fs t u st =
      modifyFDD st st.currentFrame f :=
  ⟨_, rfl⟩

theorem updateCameraDataUniformBuffers_modifyFDD (u : UUID) (i : Nat)
    (pos : Vec3) (vm : Mat4) (st st' : RendererState)
    (h : updateCameraDataUniformBuffers u i pos vm st = some st') :
    ∃ f, st' = modifyFDD st i f := by
  unfold updateCameraDataUniformBuffers at h
  by_cases hi : i < getFDDSize st
  · rw [if_pos hi] at h
    simp at h
    exact ⟨_, h.symm⟩
  · rw [if_neg hi] at h
    exact absurd h (by simp)

theorem updateProjectionUniformBuffer_modifyFDD (u : UUID) (i : Nat)
    (st st' : RendererState)
    (h : updateProjectionUniformBuffer u i st = some st') :
    ∃ f, st' = modifyFDD st i f := by
  unfold updateProjectionUniformBuffer at h
  by_cases hi : i < getFDDSize st
  · rw [if_pos hi] at h
    simp at h
    exact ⟨_, h.symm⟩
  · rw [if_neg hi] at h
    exact absurd h (by simp)

theorem updateDescriptorSetAt_modifyFDD (u : UUID) (i setIndex : Nat)
    (w : DescWrite) (st st' : RendererState) (ev : List REvent)
    (h : updateDescriptorSetAt u i setIndex w st = some (st', ev)) :
    ∃ f, st' = modifyFDD st i f := by
  unfold updateDescriptorSetAt at h
  split at h
  · dsimp only at h
    split at h
    · exact absurd h (by simp)
    · split at h
      · exact absurd h (by simp)
      · simp at h
        exact ⟨_, h.1.symm⟩
  · exact absurd h (by simp)

theorem recordSecondaryCommandBuffer_shape (u : UUID) (i : Nat)
    (st st' : RendererState) (ev : List REvent)
    (h : recordSecondaryCommandBuffer u i st = some (st', ev)) :
    ∃ f g, st' = modifySWIDD (modifyFDD st st.currentFrame f) i g ∧
      ev = [REvent.recordSecondary i u] ∧
      (∀ fdd, (f fdd).inFlightFence = fdd.inFlightFence ∧
        (f fdd).primaryCommandBuffer = fdd.primaryCommandBuffer) := by
  unfold recordSecondaryCommandBuffer at h
  by_cases h1 : st.currentFrame < getFDDSize st
  · rw [if_pos h1] at h
    by_cases h2 : i < getSWIDDSize st
    · rw [if_pos h2] at h
      simp at h
      exact ⟨_, _, h.1.symm, h.2.symm, fun fdd => ⟨rfl, rfl⟩⟩
    · rw [if_neg h2] at h
      exact absurd h (by simp)
  · rw [if_neg h1] at h
    exact absurd h (by simp)

theorem drawShapeInv_updateDescriptorSetAt (u : UUID) (i setIndex : Nat)
    (w : DescWrite) (st st' : RendererState) (ev : List REvent)
    (h : updateDescriptorSetAt u i setIndex w st = some (st', ev)) :
    drawShapeInv st st' := by
  obtain ⟨f, hf⟩ := updateDescriptorSetAt_modifyFDD u i setIndex w st st' ev h
  exact hf ▸ drawShapeInv_modifyFDD st i f

theorem drawShapeInv_recordSecondary (u : UUID) (i : Nat)
    (st st' : RendererState) (ev : List REvent)
    (h : recordSecondaryCommandBuffer u i st = some (st', ev)) :
    drawShapeInv st st' := by
  obtain ⟨f, g, hf, -⟩ := recordSecondaryCommandBuffer_shape u i st st' ev h
  subst hf
  exact drawShapeInv_trans (drawShapeInv_modifyFDD st st.currentFrame f)
    (drawShapeInv_modifySWIDD _ i g)

theorem drawShapeInv_resourcesMapOnly (st : RendererState)
    (m : List (UUID × Nat)) :
    drawShapeInv st { st with resourcesMap := m } :=
  ⟨rfl, rfl, rfl⟩

theorem drawShapeInv_recordPrimaryLoopStep (fc fs : ℚ → ℚ)
    (imageIndex : Nat) (a : AssetResources) (st st' : RendererState)
    (acc acc' : List UUID) (ev ev' : List REvent)
    (h : recordPrimaryLoopStep fc fs imageIndex a st acc ev =
      some (st', acc', ev')) : drawShapeInv st st' := by
  unfold recordPrimaryLoopStep at h
  dsimp only at h
  split at h
  · exact absurd h (by simp)
  · rename_i stored hstored
    split at h
    · cases hsw : getSWIDDAtIndex
          { st with resourcesMap := (mapBracketGet st.resourcesMap a.uuid 0).1 }
          imageIndex with
      | none => rw [hsw] at h; exact absurd h (by simp)
      | some swidd =>
        rw [hsw] at h
        simp only [Option.bind_eq_bind, Option.some_bind] at h
        cases hfind : mapFind swidd.secondaryCommandBuffer a.uuid with
        | none => rw [hfind] at h; exact absurd h (by simp)
        | some sb =>
          rw [hfind] at h
          simp only [Option.some_bind] at h
          cases hst2 : ({ st with
              resourcesMap :=
                (mapBracketGet
                  (mapBracketGet st.resourcesMap a.uuid 0).1 a.uuid 0).1 } :
                RendererState).assetResources.get?
              (mapBracketGet
                (mapBracketGet st.resourcesMap a.uuid 0).1 a.uuid 0).2 with
          | none => rw [hst2] at h; exact absurd h (by simp)
          | some stored2 =>
            rw [hst2] at h
            simp only [Option.some_bind] at h
            cases hup : updateTransformDescriptorSet a.uuid
                (updateTransformUniformBuffer fc fs stored2.transform a.uuid
                  { st with
                    resourcesMap :=
                      (mapBracketGet
                        (mapBracketGet st.resourcesMap a.uuid 0).1
                        a.uuid 0).1 }) with
            | none => rw [hup] at h; exact absurd h (by simp)
            | some p4 =>
              rw [hup] at h
              simp only [Option.some_bind] at h
              cases hrec : recordSecondaryCommandBuffer a.uuid imageIndex
                  p4.1 with
              | none => rw [hrec] at h; exact absurd h (by simp)
              | some p5 =>
                rw [hrec] at h
                simp only [Option.some_bind] at h
                have h5 : p5.1 = st' :=
                  congrArg (fun q => q.1) (optionPureEq h)
                have s1 := drawShapeInv_resourcesMapOnly st
                  (mapBracketGet st.resourcesMap a.uuid 0).1
                have s2 := drawShapeInv_resourcesMapOnly
                  ({ st with
                    resourcesMap := (mapBracketGet st.resourcesMap a.uuid 0).1 }
                    : RendererState)
                  (mapBracketGet
                    (mapBracketGet st.resourcesMap a.uuid 0).1 a.uuid 0).1
                obtain ⟨f3, hf3⟩ := updateTransformUniformBuffer_modifyFDD fc fs
                  stored2.transform a.uuid
                  { st with
                    resourcesMap :=
                      (mapBracketGet
                        (mapBracketGet st.resourcesMap a.uuid 0).1 a.uuid 0).1 }
                have s3 : drawShapeInv
                    ({ st with
                      resourcesMap :=
                        (mapBracketGet
                          (mapBracketGet st.resourcesMap a.uuid 0).1
                          a.uuid 0).1 } : RendererState)
                    (updateTransformUniformBuffer fc fs stored2.transform
                      a.uuid
                      { st with
                        resourcesMap :=
                          (mapBracketGet
                            (mapBracketGet st.resourcesMap a.uuid 0).1
                            a.uuid 0).1 }) := by
                  rw [hf3]; exact drawShapeInv_modifyFDD _ _ _
                have s4 := drawShapeInv_updateDescriptorSetAt a.uuid _ 2
                  DescWrite.transformWrite _ p4.1 p4.2
                  (by simpa [updateTransformDescriptorSet] using hup)
                have s5 := drawShapeInv_recordSecondary a.uuid imageIndex
                  p4.1 p5.1 p5.2 (by simpa using hrec)
                rw [← h5]
                exact drawShapeInv_trans s1 (drawShapeInv_trans s2
                  (drawShapeInv_trans s3 (drawShapeInv_trans s4 s5)))
    · have : st' = { st with
          resourcesMap := (mapBracketGet st.resourcesMap a.uuid 0).1 } :=
        (congrArg (fun q => q.1) (optionPureEq h)).symm
      rw [this]
      exact drawShapeInv_resourcesMapOnly st _

theorem drawShapeInv_recordPrimaryLoop (fc fs : ℚ → ℚ) (imageIndex : Nat) :
    ∀ (assets : List AssetResources) (st : RendererState) (acc : List UUID)
      (ev : List REvent) (st' : RendererState) (acc' : List UUID)
      (ev' : List REvent),
      recordPrimaryLoop fc fs imageIndex assets st acc ev =
        some (st', acc', ev') → drawShapeInv st st' := by
  intro assets
  induction assets with
  | nil =>
    intro st acc ev st' acc' ev' h
    unfold recordPrimaryLoop at h
    have := optionPureEq h
    rw [show st' = st from (congrArg (fun q => q.1) this).symm]
    exact drawShapeInv_refl st
  | cons a rest ih =>
    intro st acc ev st' acc' ev' h
    unfold recordPrimaryLoop at h
    cases hstep : recordPrimaryLoopStep fc fs imageIndex a st acc ev with
    | none => rw [hstep] at h; exact absurd h (by simp)
    | some r =>
      rw [hstep] at h
      simp only [Option.bind_eq_bind, Option.some_bind] at h
      exact drawShapeInv_trans
        (drawShapeInv_recordPrimaryLoopStep fc fs imageIndex a st r.1 acc
          r.2.1 ev r.2.2 (by simpa using hstep))
        (ih r.1 r.2.1 r.2.2 st' acc' ev' (by simpa using h))

theorem drawShapeInv_recordPrimaryCommandBuffer (fc fs : ℚ → ℚ)
    (frameBufferIndex : Nat) (st st' : RendererState) (ev : List REvent)
    (h : recordPrimaryCommandBuffer fc fs frameBufferIndex st =
      some (st', ev)) : drawShapeInv st st' := by
  unfold recordPrimaryCommandBuffer at h
  cases h1 : getCurrentFDD st with
  | none => rw [h1] at h; exact absurd h (by simp)
  | some fdd =>
    rw [h1] at h
    simp only [Option.bind_eq_bind, Option.some_bind] at h
    cases h2 : getSWIDDAtIndex st frameBufferIndex with
    | none => rw [h2] at h; exact absurd h (by simp)
    | some swidd =>
      rw [h2] at h
      simp only [Option.some_bind] at h
      cases h3 : recordPrimaryLoop fc fs frameBufferIndex st.assetResources
          st [] [REvent.recordPrimary frameBufferIndex] with
      | none => rw [h3] at h; exact absurd h (by simp)
      | some r =>
        rw [h3] at h
        simp only [Option.some_bind] at h
        have hshape := drawShapeInv_recordPrimaryLoop fc fs frameBufferIndex
          st.assetResources st [] [REvent.recordPrimary frameBufferIndex]
          r.1 r.2.1 r.2.2 (by simpa using h3)
        have hst' : st' = modifyFDD r.1 r.1.currentFrame
            fun fdd' => { fdd' with primaryCommandBuffer := ⟨r.2.1⟩ } :=
          (congrArg (fun q => q.1) (optionPureEq h)).symm
        rw [hst']
        exact drawShapeInv_trans hshape (drawShapeInv_modifyFDD _ _ _)

theorem drawShapeInv_recreateSecondaryFor (i : Nat) (a : AssetResources)
    (st st' : RendererState) (ev ev' : List REvent)
    (h : recreateSecondaryFor i a st ev = some (st', ev')) :
    drawShapeInv st st' := by
  unfold recreateSecondaryFor at h
  cases h1 : getSWIDDAtIndex st i with
  | none => rw [h1] at h; exact absurd h (by simp)
  | some swidd =>
    rw [h1] at h
    simp only [Option.bind_eq_bind, Option.some_bind] at h
    cases h2 : mapFind swidd.secondaryCommandBuffer a.uuid with
    | none => rw [h2] at h; exact absurd h (by simp)
    | some sb =>
      rw [h2] at h
      simp only [Option.some_bind] at h
      cases h3 : recordSecondaryCommandBuffer a.uuid i st with
      | none => rw [h3] at h; exact absurd h (by simp)
      | some r =>
        rw [h3] at h
        simp only [Option.some_bind] at h
        have := optionPureEq h
        rw [show st' = r.1 from (congrArg (fun q => q.1) this).symm]
        exact drawShapeInv_recordSecondary a.uuid i st r.1 r.2
          (by simpa using h3)

theorem drawShapeInv_recreateAllSecondary (st st' : RendererState)
    (ev : List REvent)
    (h : recreateAllSecondaryCommandBuffers st = some (st', ev)) :
    drawShapeInv st st' := by
  unfold recreateAllSecondaryCommandBuffers at h
  have hmain := foldlM_option_preserve
    (fun (p : RendererState × List REvent) => drawShapeInv st p.1)
    (fun p i => p.1.assetResources.foldlM
      (fun (q : RendererState × List REvent) a =>
        recreateSecondaryFor i a q.1 q.2) p)
    (fun p i p' hp hstep => by
      have hinner := foldlM_option_preserve
        (fun (q : RendererState × List REvent) => drawShapeInv st q.1)
        (fun q a => recreateSecondaryFor i a q.1 q.2)
        (fun q a q' hq hf => by
          exact drawShapeInv_trans hq
            (drawShapeInv_recreateSecondaryFor i a q.1 q'.1 q.2 q'.2
              (by cases q' with | mk s e => simpa using hf)))
        p.1.assetResources p p' hp hstep
      exact hinner)
    (List.range (getSWIDDSize st)) (st, []) (st', ev)
    (drawShapeInv_refl st) h
  exact hmain

theorem drawShapeInv_recreateSwapChain (n : Nat) (st st' : RendererState)
    (ev : List REvent) (h : recreateSwapChain n st = some (st', ev)) :
    drawShapeInv st st' := by
  unfold recreateSwapChain at h
  dsimp only at h
  cases h1 : recreateAllSecondaryCommandBuffers
      { st with
        swapChainImageDependentData :=
          resizeSWIDD st.swapChainImageDependentData n
        swapChainExtent := (st.framebufferWidth, st.framebufferHeight) } with
  | none =>
    rw [show (cleanupSwapChain st).1 = st from rfl] at h
    rw [h1] at h
    exact absurd h (by simp)
  | some r =>
    rw [show (cleanupSwapChain st).1 = st from rfl] at h
    rw [h1] at h
    simp only [Option.bind_eq_bind, Option.some_bind] at h
    have hst' : st' = r.1 := (congrArg (fun q => q.1) (optionPureEq h)).symm
    rw [hst']
    have hmid : drawShapeInv st
        ({ st with
          swapChainImageDependentData :=
            resizeSWIDD st.swapChainImageDependentData n
          swapChainExtent := (st.framebufferWidth, st.framebufferHeight) } :
          RendererState) := ⟨rfl, rfl, rfl⟩
    exact drawShapeInv_trans hmid
      (drawShapeInv_recreateAllSecondary _ r.1 r.2 (by simpa using h1))

theorem drawShapeInv_drawFrameSubmitPath (inp : FrameInput)
    (st1 st' : RendererState) (ev0 ev : List REvent)
    (h : drawFrameSubmitPath inp st1 ev0 = some (st', ev)) :
    drawShapeInv st1 st' := by
  unfold drawFrameSubmitPath at h
  dsimp only at h
  cases h3 : recordPrimaryCommandBuffer inp.fc inp.fs inp.imageIndex
      (setFence st1.currentFrame FenceState.unsignaled st1) with
  | none => rw [h3] at h; exact absurd h (by simp)
  | some r3 =>
    rw [h3] at h
    simp only [Option.bind_eq_bind, Option.some_bind] at h
    have hs2 : drawShapeInv st1
        (setFence st1.currentFrame FenceState.unsignaled st1) :=
      drawShapeInv_setFence _ _ st1
    have hs3 : drawShapeInv st1 r3.1 :=
      drawShapeInv_trans hs2
        (drawShapeInv_recordPrimaryCommandBuffer inp.fc inp.fs inp.imageIndex
          _ r3.1 r3.2 (by simpa using h3))
    have hs4 : drawShapeInv st1
        (setFence r3.1.currentFrame FenceState.pending r3.1) :=
      drawShapeInv_trans hs3 (drawShapeInv_setFence _ _ r3.1)
    by_cases hsub : inp.submitOk = false
    · rw [if_pos hsub] at h
      exact absurd h (by simp)
    · rw [if_neg hsub] at h
      cases hpres : inp.presentRes with
      | outOfDate =>
        rw [hpres] at h
        cases h5 : recreateSwapChain inp.newImageCount
            (setFence r3.1.currentFrame FenceState.pending r3.1) with
        | none => rw [h5] at h; exact absurd h (by simp)
        | some r5 =>
          rw [h5] at h
          simp only [Option.some_bind] at h
          have := optionPureEq h
          rw [show st' = r5.1 from (congrArg (fun q => q.1) this).symm]
          exact drawShapeInv_trans hs4
            (drawShapeInv_recreateSwapChain inp.newImageCount _ r5.1 r5.2
              (by simpa using h5))
      | suboptimal =>
        rw [hpres] at h
        cases h5 : recreateSwapChain inp.newImageCount
            (setFence r3.1.currentFrame FenceState.pending r3.1) with
        | none => rw [h5] at h; exact absurd h (by simp)
        | some r5 =>
          rw [h5] at h
          simp only [Option.some_bind] at h
          have := optionPureEq h
          rw [show st' = r5.1 from (congrArg (fun q => q.1) this).symm]
          exact drawShapeInv_trans hs4
            (drawShapeInv_recreateSwapChain inp.newImageCount _ r5.1 r5.2
              (by simpa using h5))
      | otherError =>
        rw [hpres] at h
        have := optionPureEq h
        rw [show st' = setFence r3.1.currentFrame FenceState.pending r3.1
          from (congrArg (fun q => q.1) this).symm]
        exact hs4
      | success =>
        rw [hpres] at h
        have := optionPureEq h
        rw [show st' = setFence r3.1.currentFrame FenceState.pending r3.1
          from (congrArg (fun q => q.1) this).symm]
        exact hs4

theorem drawShapeInv_drawFrame (inp : FrameInput) (st st' : RendererState)
    (ev : List REvent) (h : drawFrame inp st = some (st', ev)) :
    drawShapeInv st st' := by
  unfold drawFrame at h
  cases h0 : getCurrentFDD st with
  | none => rw [h0] at h; exact absurd h (by simp)
  | some fdd0 =>
    rw [h0] at h
    simp only [Option.bind_eq_bind, Option.some_bind] at h
    cases h1 : waitInFlightFence st.currentFrame st with
    | none => rw [h1] at h; exact absurd h (by simp)
    | some st1 =>
      rw [h1] at h
      simp only [Option.some_bind] at h
      have hw : st1 = setFence st.currentFrame FenceState.signaled st :=
        waitInFlightFence_eq st.currentFrame st st1 h1
      have hs1 : drawShapeInv st st1 := hw ▸ drawShapeInv_setFence _ _ st
      cases hacq : inp.acquire with
      | outOfDate =>
        rw [hacq] at h
        cases h2 : recreateSwapChain inp.newImageCount st1 with
        | none => rw [h2] at h; exact absurd h (by simp)
        | some r =>
          rw [h2] at h
          simp only [Option.some_bind] at h
          have := optionPureEq h
          rw [show st' = r.1 from (congrArg (fun q => q.1) this).symm]
          exact drawShapeInv_trans hs1
            (drawShapeInv_recreateSwapChain inp.newImageCount st1 r.1 r.2
              (by simpa using h2))
      | otherError => rw [hacq] at h; exact absurd h (by simp)
      | success =>
        rw [hacq] at h
        exact drawShapeInv_trans hs1
          (drawShapeInv_drawFrameSubmitPath inp st1 st' _ ev h)
      | suboptimal =>
        rw [hacq] at h
        exact drawShapeInv_trans hs1
          (drawShapeInv_drawFrameSubmitPath inp st1 st' _ ev h)

theorem draw_state_eq (inp : FrameInput) (st st' : RendererState)
    (ev : List REvent) (h : draw inp st = some (st', ev)) :
    ∃ st1 : RendererState, drawFrame inp st = some (st1, ev) ∧
      st' = { st1 with
        assetResources := st1.assetResources.map fun a =>
          { a with shouldDraw := false }
        currentFrame := (st1.currentFrame + 1) % MAX_FRAMES_IN_FLIGHT } := by
  unfold draw at h
  cases h1 : drawFrame inp st with
  | none => rw [h1] at h; exact absurd h (by simp)
  | some r =>
    rw [h1] at h
    simp only [Option.bind_eq_bind, Option.some_bind] at h
    have heq := optionPureEq h
    refine ⟨r.1, ?_, ?_⟩
    · rw [show ev = r.2 from (congrArg (fun q => q.2) heq).symm]
    · exact (congrArg (fun q => q.1) heq).symm

/-- Effect of a completed `Draw()` on the slot index and frame table. -/
theorem draw_frame_effect (inp : FrameInput) (st st' : RendererState)
    (ev : List REvent) (h : draw inp st = some (st', ev)) :
    st'.currentFrame = (st.currentFrame + 1) % MAX_FRAMES_IN_FLIGHT ∧
      st'.frameDependentData.length = st.frameDependentData.length ∧
      st'.assetResources = st.assetResources.map
        fun a => { a with shouldDraw := false } := by
  obtain ⟨st1, h1, h2⟩ := draw_state_eq inp st st' ev h
  have hs := drawShapeInv_drawFrame inp st st1 ev h1
  subst h2
  exact ⟨by simpa using congrArg (· + 1) hs.1 ▸ rfl, by simpa using hs.2.1,
    by simp [hs.2.2]⟩

/-! ## `currentFrame` and frame-table preservation of the non-draw API -/

/-- The slot index and the frame-table length, preserved by every public
call except `Draw()`. -/
def frameIdxShape (st st' : RendererState) : Prop :=
  st'.currentFrame = st.currentFrame ∧
    st'.frameDependentData.length = st.frameDependentData.length

theorem frameIdxShape_of_drawShape {st st' : RendererState}
    (h : drawShapeInv st st') : frameIdxShape st st' :=
  ⟨h.1, h.2.1⟩

theorem frameIdxShape_refl (st : RendererState) : frameIdxShape st st :=
  ⟨rfl, rfl⟩

theorem frameIdxShape_trans {s1 s2 s3 : RendererState}
    (h1 : frameIdxShape s1 s2) (h2 : frameIdxShape s2 s3) :
    frameIdxShape s1 s3 :=
  ⟨h2.1.trans h1.1, h2.2.trans h1.2⟩

theorem frameIdxShape_mapFDD (st : RendererState)
    (f : FrameDependentData → FrameDependentData) :
    frameIdxShape st
      { st with frameDependentData := st.frameDependentData.map f } :=
  ⟨rfl, by simp⟩

theorem frameIdxShape_createAssetUniformBuffers (u : UUID)
    (st : RendererState) :
    frameIdxShape st (createAssetUniformBuffers u st) :=
  frameIdxShape_mapFDD st _

theorem frameIdxShape_createDescriptorSets (u : UUID) (st : RendererState) :
    frameIdxShape st (createDescriptorSets u st) :=
  frameIdxShape_mapFDD st _

theorem drawShapeInv_initAssetFrameSlots (u : UUID)
    (st st' : RendererState) (ev : List REvent)
    (h : initAssetFrameSlots u st = some (st', ev)) :
    drawShapeInv st st' := by
  unfold initAssetFrameSlots at h
  have := foldlM_option_preserve
    (fun (p : RendererState × List REvent) => drawShapeInv st p.1)
    (fun p i => do
      let st1 ← updateCameraDataUniformBuffers u i initialCameraPos
        initialViewMatrix p.1
      let st2 ← updateProjectionUniformBuffer u i st1
      let r ← initializeDescriptorSets u i st2
      return (r.1, p.2 ++ r.2))
    (fun p i p' hp hstep => by
      dsimp only at hstep
      cases hc : updateCameraDataUniformBuffers u i initialCameraPos
          initialViewMatrix p.1 with
      | none => rw [hc] at hstep; exact absurd hstep (by simp)
      | some s1 =>
        rw [hc] at hstep
        simp only [Option.bind_eq_bind, Option.some_bind] at hstep
        obtain ⟨f1, hf1⟩ := updateCameraDataUniformBuffers_modifyFDD u i
          initialCameraPos initialViewMatrix p.1 s1 hc
        have hp1 : drawShapeInv st s1 := by
          rw [hf1]
          exact drawShapeInv_trans hp (drawShapeInv_modifyFDD p.1 i f1)
        cases hpr : updateProjectionUniformBuffer u i s1 with
        | none => rw [hpr] at hstep; exact absurd hstep (by simp)
        | some s2 =>
          rw [hpr] at hstep
          simp only [Option.some_bind] at hstep
          obtain ⟨f2, hf2⟩ := updateProjectionUniformBuffer_modifyFDD u i s1
            s2 hpr
          have hp2 : drawShapeInv st s2 := by
            rw [hf2]
            exact drawShapeInv_trans hp1 (drawShapeInv_modifyFDD s1 i f2)
          cases hin : initializeDescriptorSets u i s2 with
          | none => rw [hin] at hstep; exact absurd hstep (by simp)
          | some r3 =>
            rw [hin] at hstep
            simp only [Option.some_bind] at hstep
            have hfin : drawShapeInv st r3.1 := by
              unfold initializeDescriptorSets at hin
              cases ha : updateCameraDataDescriptorSet u i s2 with
              | none => rw [ha] at hin; exact absurd hin (by simp)
              | some ra =>
                rw [ha] at hin
                simp only [Option.bind_eq_bind, Option.some_bind] at hin
                cases hb : updateProjectionDescriptorSet u i ra.1 with
                | none => rw [hb] at hin; exact absurd hin (by simp)
                | some rb =>
                  rw [hb] at hin
                  simp only [Option.some_bind] at hin
                  cases hcx : updatePBRTextureDescriptorSet u i rb.1 with
                  | none => rw [hcx] at hin; exact absurd hin (by simp)
                  | some rc =>
                    rw [hcx] at hin
                    simp only [Option.some_bind] at hin
                    have e1 := drawShapeInv_updateDescriptorSetAt u i 2
                      DescWrite.cameraDataWrite s2 ra.1 ra.2
                      (by simpa [updateCameraDataDescriptorSet] using ha)
                    have e2 := drawShapeInv_updateDescriptorSetAt u i 1
                      DescWrite.projectionWrite ra.1 rb.1 rb.2
                      (by simpa [updateProjectionDescriptorSet] using hb)
                    have e3 := drawShapeInv_updateDescriptorSetAt u i 0
                      DescWrite.pbrWrite rb.1 rc.1 rc.2
                      (by simpa [updatePBRTextureDescriptorSet] using hcx)
                    have := optionPureEq hin
                    rw [show r3.1 = rc.1 from congrArg (fun q => q.1)
                      this.symm]
                    exact drawShapeInv_trans hp2 (drawShapeInv_trans e1
                      (drawShapeInv_trans e2 e3))
            have := optionPureEq hstep
            rw [show p'.1 = r3.1 from congrArg (fun q => q.1) this.symm]
            exact hfin)
    (List.range (getFDDSize st)) (st, []) (st', ev)
    (drawShapeInv_refl st) h
  exact this

theorem frameIdxShape_initAssetFrameSlots (u : UUID)
    (st st' : RendererState) (ev : List REvent)
    (h : initAssetFrameSlots u st = some (st', ev)) :
    frameIdxShape st st' :=
  frameIdxShape_of_drawShape (drawShapeInv_initAssetFrameSlots u st st' ev h)

theorem frameIdxShape_createAssetResources (u : UUID) (ic : Nat)
    (st st' : RendererState) (ev : List REvent)
    (h : createAssetResources u ic st = some (st', ev)) :
    frameIdxShape st st' := by
  unfold createAssetResources at h
  dsimp only at h
  have h0 : frameIdxShape st
      ({ st with
        assetResources := st.assetResources ++
          [{ uuid := u, shouldDraw := false, transform := defaultTransform,
             indexCount := ic }]
        resourcesMap := mapInsert st.resourcesMap u
          st.assetResources.length } : RendererState) := ⟨rfl, rfl⟩
  exact frameIdxShape_trans (frameIdxShape_trans (frameIdxShape_trans h0
    (frameIdxShape_createAssetUniformBuffers u _))
    (frameIdxShape_createDescriptorSets u _))
    (frameIdxShape_initAssetFrameSlots u _ st' ev h)

theorem frameIdxShape_createAssetCommandBufferLoop (u : UUID) :
    ∀ (slots : List Nat) (st : RendererState) (ev : List REvent),
      frameIdxShape st (createAssetCommandBufferLoop u slots st ev).1 := by
  intro slots
  induction slots with
  | nil => intro st ev; exact frameIdxShape_refl st
  | cons i rest ih =>
    intro st ev
    unfold createAssetCommandBufferLoop
    split
    · exact frameIdxShape_refl st
    · split
      · exact frameIdxShape_refl st
      · exact frameIdxShape_trans
          (frameIdxShape_of_drawShape (drawShapeInv_modifySWIDD st i _))
          (ih _ _)

theorem frameIdxShape_updateCameraData (pos : Vec3) (vm : Mat4)
    (st st' : RendererState) (ev : List REvent)
    (h : updateCameraData pos vm st = some (st', ev)) :
    frameIdxShape st st' := by
  unfold updateCameraData at h
  cases h0 : getCurrentFDD st with
  | none => rw [h0] at h; exact absurd h (by simp)
  | some fdd =>
    rw [h0] at h
    simp only [Option.bind_eq_bind, Option.some_bind] at h
    have := foldlM_option_preserve
      (fun (p : RendererState × List REvent) => frameIdxShape st p.1)
      (fun p u => do
        let st1 ← updateCameraDataUniformBuffers u p.1.currentFrame pos
          vm p.1
        let r ← updateCameraDataDescriptorSet u st1.currentFrame st1
        return (r.1, p.2 ++ r.2))
      (fun p u p' hp hstep => by
        dsimp only at hstep
        cases hc : updateCameraDataUniformBuffers u p.1.currentFrame pos vm
            p.1 with
        | none => rw [hc] at hstep; exact absurd hstep (by simp)
        | some s1 =>
          rw [hc] at hstep
          simp only [Option.bind_eq_bind, Option.some_bind] at hstep
          obtain ⟨f1, hf1⟩ := updateCameraDataUniformBuffers_modifyFDD u
            p.1.currentFrame pos vm p.1 s1 hc
          have hp1 : frameIdxShape st s1 := by
            rw [hf1]
            exact frameIdxShape_trans hp
              (frameIdxShape_of_drawShape (drawShapeInv_modifyFDD p.1 _ f1))
          cases hd : updateCameraDataDescriptorSet u s1.currentFrame s1 with
          | none => rw [hd] at hstep; exact absurd hstep (by simp)
          | some r2 =>
            rw [hd] at hstep
            simp only [Option.some_bind] at hstep
            have hp2 : frameIdxShape st r2.1 :=
              frameIdxShape_trans hp1
                (frameIdxShape_of_drawShape
                  (drawShapeInv_updateDescriptorSetAt u s1.currentFrame 2
                    DescWrite.cameraDataWrite s1 r2.1 r2.2
                    (by simpa [updateCameraDataDescriptorSet] using hd)))
            have := optionPureEq hstep
            rw [show p'.1 = r2.1 from congrArg (fun q => q.1) this.symm]
            exact hp2)
      (fdd.assetDescriptorDataMap.map (·.1)) (st, []) (st', ev)
      (frameIdxShape_refl st) h
    exact this

theorem frameIdxShape_destroyAssetResources (szVec : Nat) (u : UUID)
    (st st' : RendererState) (ev : List REvent)
    (h : destroyAssetResources szVec u st = some (st', ev)) :
    frameIdxShape st st' := by
  unfold destroyAssetResources at h
  cases hf : mapFind st.resourcesMap u with
  | none => rw [hf] at h; exact absurd h (by simp)
  | some idx =>
    rw [hf] at h
    simp only [Option.some.injEq] at h
    rw [show st' = _ from (congrArg (fun q => q.1) h).symm]
    exact ⟨rfl, rfl⟩

theorem frameIdxShape_update (n : Nat) (st st' : RendererState)
    (ev : List REvent) (h : update n st = some (st', ev)) :
    frameIdxShape st st' := by
  unfold update at h
  by_cases hc : st.swapChainExtent ≠ (st.framebufferWidth, st.framebufferHeight)
  · rw [if_pos hc] at h
    exact frameIdxShape_of_drawShape
      (drawShapeInv_recreateSwapChain n st st' ev h)
  · rw [if_neg hc] at h
    simp only [Option.some.injEq] at h
    rw [show st' = st from (congrArg (fun q => q.1) h).symm]
    exact frameIdxShape_refl st

/-- Per-call effect on the slot index: `Draw()` advances it modulo
`MAX_FRAMES_IN_FLIGHT` and every other public call leaves it unchanged;
no call changes the frame-table length. -/
theorem runOp_currentFrame (op : ApiOp) (st st' : RendererState)
    (ev : List REvent) (h : runOp op st = some (st', ev)) :
    st'.frameDependentData.length = st.frameDependentData.length ∧
      st'.currentFrame = (if op.isDraw then
        (st.currentFrame + 1) % MAX_FRAMES_IN_FLIGHT else st.currentFrame) := by
  cases op with
  | opDraw inp =>
    obtain ⟨h1, h2, -⟩ := draw_frame_effect inp st st' ev (by simpa using h)
    exact ⟨h2, by simpa [ApiOp.isDraw] using h1⟩
  | opSetAssetDrawState u =>
    simp only [runOp, Option.some.injEq] at h
    rw [show st' = _ from (congrArg (fun q => q.1) h).symm]
    exact ⟨rfl, rfl⟩
  | opSetAssetTransform u t =>
    simp only [runOp, Option.some.injEq] at h
    rw [show st' = _ from (congrArg (fun q => q.1) h).symm]
    exact ⟨rfl, rfl⟩
  | opSetAssetPosition u p =>
    simp only [runOp, Option.some.injEq] at h
    rw [show st' = _ from (congrArg (fun q => q.1) h).symm]
    exact ⟨rfl, rfl⟩
  | opSetAssetRotation u r =>
    simp only [runOp, Option.some.injEq] at h
    rw [show st' = _ from (congrArg (fun q => q.1) h).symm]
    exact ⟨rfl, rfl⟩
  | opSetAssetScale u s =>
    simp only [runOp, Option.some.injEq] at h
    rw [show st' = _ from (congrArg (fun q => q.1) h).symm]
    exact ⟨rfl, rfl⟩
  | opCreateAssetResources u ic =>
    have := frameIdxShape_createAssetResources u ic st st' ev
      (by simpa [runOp] using h)
    exact ⟨this.2, this.1⟩
  | opCreateAssetCommandBuffer u =>
    simp only [runOp, Option.some.injEq] at h
    have := frameIdxShape_createAssetCommandBufferLoop u
      (List.range (getSWIDDSize st)) st []
    rw [show st' = _ from (congrArg (fun q => q.1) h).symm]
    exact ⟨this.2, this.1⟩
  | opDestroyAssetResources szVec u =>
    have := frameIdxShape_destroyAssetResources szVec u st st' ev
      (by simpa [runOp] using h)
    exact ⟨this.2, this.1⟩
  | opDestroyAllAssetResources =>
    simp only [runOp, Option.some.injEq] at h
    rw [show st' = _ from (congrArg (fun q => q.1) h).symm]
    exact ⟨rfl, rfl⟩
  | opUpdateCameraData p m =>
    have := frameIdxShape_updateCameraData p m st st' ev
      (by simpa [runOp] using h)
    exact ⟨this.2, this.1⟩
  | opUpdate n =>
    have := frameIdxShape_update n st st' ev (by simpa [runOp] using h)
    exact ⟨this.2, this.1⟩
  | opSetNextFramebufferSize w hh =>
    simp only [runOp, Option.some.injEq] at h
    rw [show st' = _ from (congrArg (fun q => q.1) h).symm]
    exact ⟨rfl, rfl⟩

theorem getCurrentFDD_eq_atIndex (st : RendererState)
    (h : st.currentFrame < st.frameDependentData.length) :
    getCurrentFDD st = getFDDAtIndex st st.currentFrame ∧
      (getCurrentFDD st).isSome := by
  unfold getCurrentFDD getFDDAtIndex
  rw [if_pos h]
  refine ⟨rfl, ?_⟩
  rw [List.get?_eq_get h]
  rfl

theorem runOps_currentFrame : ∀ (ops : List ApiOp) (st st' : RendererState),
    st.frameDependentData.length = MAX_FRAMES_IN_FLIGHT →
    st.currentFrame < MAX_FRAMES_IN_FLIGHT →
    runOps ops st = some st' →
    st'.frameDependentData.length = MAX_FRAMES_IN_FLIGHT ∧
      st'.currentFrame =
        (st.currentFrame + countDraws ops) % MAX_FRAMES_IN_FLIGHT := by
  intro ops
  induction ops with
  | nil =>
    intro st st' hlen hcf h
    simp only [runOps, Option.some.injEq] at h
    subst h
    exact ⟨hlen, by
      have : st.currentFrame % MAX_FRAMES_IN_FLIGHT = st.currentFrame :=
        Nat.mod_eq_of_lt hcf
      simpa [countDraws] using this.symm⟩
  | cons op rest ih =>
    intro st st' hlen hcf h
    unfold runOps at h
    cases h1 : runOp op st with
    | none => rw [h1] at h; exact absurd h (by simp)
    | some r =>
      rw [h1] at h
      simp only [Option.bind_eq_bind, Option.some_bind] at h
      obtain ⟨hl1, hc1⟩ := runOp_currentFrame op st r.1 r.2
        (by simpa using h1)
      cases hdq : op.isDraw with
      | true =>
        rw [hdq] at hc1
        rw [if_pos rfl] at hc1
        have hlt : r.1.currentFrame < MAX_FRAMES_IN_FLIGHT := by
          rw [hc1]; exact Nat.mod_lt _ (by simp [MAX_FRAMES_IN_FLIGHT])
        obtain ⟨hl2, hc2⟩ := ih r.1 st' (hl1.trans hlen) hlt h
        refine ⟨hl2, ?_⟩
        rw [hc2, hc1]
        have hcd : countDraws (op :: rest) = countDraws rest + 1 := by
          simp [countDraws, hdq]
        rw [hcd]
        simp only [MAX_FRAMES_IN_FLIGHT]
        omega
      | false =>
        rw [hdq] at hc1
        rw [if_neg (by simp)] at hc1
        obtain ⟨hl2, hc2⟩ := ih r.1 st' (hl1.trans hlen) (hc1 ▸ hcf) h
        refine ⟨hl2, ?_⟩
        rw [hc2, hc1]
        have hcd : countDraws (op :: rest) = countDraws rest := by
          simp [countDraws, hdq]
        rw [hcd]

/-! ## Claim theorems -/

/-- C3: after any sequence of public API calls containing `k` completed
`Draw()` calls since initialization, the slot index `currentFrame` equals
`k mod MAX_FRAMES_IN_FLIGHT`, and `GetCurrentFDD()` returns the same slot
as `GetFDDAtIndex(k mod MAX_FRAMES_IN_FLIGHT)` (a real slot); moreover the
advance inside `Draw()` is the only mutation of the slot index — every
other public call leaves `currentFrame` unchanged. -/
theorem claim_C3_currentFrame_counts_draws :
    (∀ (ops : List ApiOp) (w h m : Nat) (st' : RendererState),
      runOps ops (initialState w h m) = some st' →
      st'.currentFrame = countDraws ops % MAX_FRAMES_IN_FLIGHT ∧
        getCurrentFDD st' =
          getFDDAtIndex st' (countDraws ops % MAX_FRAMES_IN_FLIGHT) ∧
        (getCurrentFDD st').isSome) ∧
    (∀ (op : ApiOp) (st st1 : RendererState) (ev : List REvent),
      runOp op st = some (st1, ev) → op.isDraw = false →
      st1.currentFrame = st.currentFrame) := by
  constructor
  · intro ops w h m st' hrun
    obtain ⟨hlen, hcf⟩ := runOps_currentFrame ops (initialState w h m) st'
      (by simp [initialState, MAX_FRAMES_IN_FLIGHT])
      (by simp [initialState, MAX_FRAMES_IN_FLIGHT]) hrun
    have hcf' : st'.currentFrame = countDraws ops % MAX_FRAMES_IN_FLIGHT := by
      simpa [initialState] using hcf
    have hlt : st'.currentFrame < st'.frameDependentData.length := by
      rw [hlen, hcf']
      exact Nat.mod_lt _ (by simp [MAX_FRAMES_IN_FLIGHT])
    obtain ⟨he, hs⟩ := getCurrentFDD_eq_atIndex st' hlt
    exact ⟨hcf', by rw [← hcf']; exact he, hs⟩
  · intro op st st1 ev h hnd
    have := (runOp_currentFrame op st st1 ev h).2
    rwa [hnd, if_neg (by simp)] at this

/-- A fixed frame-input record with successful acquire/submit/present. -/
def inpOK : FrameInput :=
  ⟨AcquireRes.success, 0, true, PresentRes.success, 3, fun _ => 1,
   fun _ => 0⟩

theorem claim_C3_witness :
    (runOps [ApiOp.opDraw inpOK, ApiOp.opDraw inpOK, ApiOp.opDraw inpOK]
        (initialState 800 600 3)).isSome ∧
      (runOp (ApiOp.opSetAssetDrawState 5) (initialState 800 600 3)).isSome ∧
      (∀ st',
        runOps [ApiOp.opDraw inpOK, ApiOp.opDraw inpOK, ApiOp.opDraw inpOK]
          (initialState 800 600 3) = some st' →
        st'.currentFrame = 1) ∧
      (∀ st1 ev,
        runOp (ApiOp.opSetAssetDrawState 5) (initialState 800 600 3) =
          some (st1, ev) → st1.currentFrame = 0) := by
  refine ⟨by decide, by decide, ?_, ?_⟩
  · intro st' hrun
    have := (claim_C3_currentFrame_counts_draws.1
      [ApiOp.opDraw inpOK, ApiOp.opDraw inpOK, ApiOp.opDraw inpOK]
      800 600 3 st' hrun).1
    simpa [countDraws, ApiOp.isDraw, MAX_FRAMES_IN_FLIGHT] using this
  · intro st1 ev hrun
    have := claim_C3_currentFrame_counts_draws.2
      (ApiOp.opSetAssetDrawState 5) (initialState 800 600 3) st1 ev hrun
      (by rfl)
    simpa [initialState] using this

/-- C4: for every index at or beyond the table size, `GetFDDAtIndex` on
the frame-dependent table and `GetSWIDDAtIndex` on the
swapchain-image-dependent table fail their range assertion instead of
returning a slot. -/
theorem claim_C4_out_of_range_fails (st : RendererState) (i j : Nat)
    (hi : st.frameDependentData.length ≤ i)
    (hj : st.swapChainImageDependentData.length ≤ j) :
    getFDDAtIndex st i = none ∧ getSWIDDAtIndex st j = none := by
  constructor
  · unfold getFDDAtIndex
    rw [if_neg (Nat.not_lt.mpr hi)]
  · unfold getSWIDDAtIndex
    rw [if_neg (Nat.not_lt.mpr hj)]

theorem claim_C4_witness :
    (initialState 800 600 3).frameDependentData.length ≤
        MAX_FRAMES_IN_FLIGHT ∧
      (initialState 800 600 3).swapChainImageDependentData.length ≤ 3 ∧
      getFDDAtIndex (initialState 800 600 3) MAX_FRAMES_IN_FLIGHT = none ∧
      getSWIDDAtIndex (initialState 800 600 3) 3 = none := by
  refine ⟨by decide, by decide, ?_⟩
  exact claim_C4_out_of_range_fails (initialState 800 600 3)
    MAX_FRAMES_IN_FLIGHT 3 (by decide) (by decide)

/-- C9 as the spec states it is false: `DescriptorSet::Update` on a
never-created descriptor set does not fail a fatal assertion (`none` in
this model); it returns normally. -/
theorem claim_C9_counterexample :
    descriptorSetUpdate DescWrite.transformWrite ⟨false, []⟩ ≠ none ∧
      descriptorSetUpdate DescWrite.transformWrite ⟨false, []⟩ =
        some (⟨false, []⟩, true) := by
  constructor
  · decide
  · decide

/-- C9 amended: calling `Update` on a descriptor set whose underlying
object has not been created (or has been destroyed) logs an error and
returns without flushing any descriptor write — a guarded non-fatal no-op,
not a fatal assertion. -/
theorem claim_C9_update_uncreated_logs_and_bails (w : DescWrite)
    (ds : DescriptorSetM) (h : ds.created = false) :
    descriptorSetUpdate w ds = some (ds, true) := by
  unfold descriptorSetUpdate
  rw [if_pos h]

/-- A renderer state with exactly one registered asset (UUID 1), as left
by `Initialize` + `CreateAssetResources` + `CreateAssetCommandBuffer`
(uniform-buffer payloads elided): descriptor data in both frame slots,
secondary command buffers in all three swapchain-image slots, draw flag
clear, default transform. -/
def soloADD : AssetDescriptorData :=
  ⟨[⟨true, []⟩, ⟨true, []⟩, ⟨true, []⟩], none, none, none, none⟩

def soloFDD : FrameDependentData :=
  ⟨[(1, soloADD)], FenceState.signaled, ⟨[]⟩⟩

def soloState : RendererState :=
  { frameDependentData := [soloFDD, soloFDD]
    swapChainImageDependentData := List.replicate 3 ⟨[(1, ⟨none⟩)]⟩
    resourcesMap := [(1, 0)]
    assetResources := [⟨1, false, defaultTransform, 6⟩]
    currentFrame := 0
    swapChainExtent := (800, 600)
    framebufferWidth := 800
    framebufferHeight := 600 }

/-- C2 is the intended behavior, but the code does not implement it:
with only UUID 1 registered, `SetAssetDrawState(2)` logs the error but
then falls through, default-inserting `2 -> 0` into `resourcesMap` and
setting the draw flag of the asset stored at index 0; `SetAssetPosition(2, p)`
performs no check at all, default-inserts `2 -> 0`, overwrites asset 0's
position, and logs nothing.  Both calls corrupt state that the claim says
is left unchanged. -/
theorem claim_C2_unregistered_mutators_corrupt_state :
    mapFind soloState.resourcesMap 2 = none ∧
      (setAssetDrawState 2 soloState).1.resourcesMap = [(1, 0), (2, 0)] ∧
      ((setAssetDrawState 2 soloState).1.assetResources.map
        (fun a => a.shouldDraw)) = [true] ∧
      (setAssetDrawState 2 soloState).2 = [REvent.logError] ∧
      (setAssetPosition 2 ⟨9, 9, 9⟩ soloState).1.resourcesMap =
        [(1, 0), (2, 0)] ∧
      ((setAssetPosition 2 ⟨9, 9, 9⟩ soloState).1.assetResources.map
        (fun a => a.transform.position)) = [⟨9, 9, 9⟩] ∧
      (setAssetPosition 2 ⟨9, 9, 9⟩ soloState).2 = [] := by
  refine ⟨rfl, rfl, ?_, rfl, rfl, ?_, rfl⟩
  · decide
  · decide

theorem claim_C9_witness :
    (⟨false, [DescWrite.pbrWrite]⟩ : DescriptorSetM).created = false ∧
      descriptorSetUpdate DescWrite.cameraDataWrite
        ⟨false, [DescWrite.pbrWrite]⟩ =
        some (⟨false, [DescWrite.pbrWrite]⟩, true) :=
  ⟨rfl, claim_C9_update_uncreated_logs_and_bails DescWrite.cameraDataWrite
    ⟨false, [DescWrite.pbrWrite]⟩ rfl⟩

/-! ## C1: descriptor-entry counting -/

theorem mapBracketModify_find_isSome (m : List (UUID × β)) (k : UUID)
    (d : β) (f : β → β) :
    (mapFind (mapBracketModify m k d f) k).isSome := by
  cases hm : mapFind m k with
  | none => rw [mapBracketModify_find_self_absent m k d f hm]; rfl
  | some v => rw [mapBracketModify_find_self_present m k d v f hm]; rfl

theorem listModify_forall {α : Type _} {P : α → Prop} (l : List α) (i : Nat)
    (f : α → α) (hl : ∀ a ∈ l, P a)
    (hf : ∀ a, l.get? i = some a → P (f a)) :
    ∀ a ∈ listModify l i f, P a := by
  induction l generalizing i with
  | nil => intro a ha; simp [listModify] at ha
  | cons b bs ih =>
    cases i with
    | zero =>
      intro a ha
      rcases (by simpa [listModify] using ha : a = f b ∨ a ∈ bs) with h | h
      · exact h ▸ hf b rfl
      · exact hl a (by simp [h])
    | succ i =>
      intro a ha
      rcases (by simpa [listModify] using ha : a = b ∨ a ∈ listModify bs i f)
          with h | h
      · exact h ▸ hl b (by simp)
      · exact ih i (fun x hx => hl x (by simp [hx]))
          (fun x hx => hf x (by simpa using hx)) a h

theorem sum_map_listModify {α : Type _} (g : α → Nat) (l : List α) (i : Nat)
    (f : α → α) (hf : ∀ a, l.get? i = some a → g (f a) = g a) :
    ((listModify l i f).map g).sum = (l.map g).sum := by
  induction l generalizing i with
  | nil => rfl
  | cons b bs ih =>
    cases i with
    | zero => simp [listModify, hf b rfl]
    | succ i =>
      simp only [listModify, List.map_cons, List.sum_cons]
      rw [ih i (fun a ha => hf a (by simpa using ha))]

/-- Entry counting and presence of a key, tracked together through the
per-frame-slot update functions. -/
def entriesTracked (u : UUID) (c : Nat) (st : RendererState) : Prop :=
  descriptorEntryCount st = c ∧
    ∀ fdd ∈ st.frameDependentData,
      (mapFind fdd.assetDescriptorDataMap u).isSome

theorem entriesTracked_modifyFDD_present (u : UUID) (c : Nat)
    (st : RendererState) (i : Nat)
    (f : FrameDependentData → FrameDependentData)
    (hlen : ∀ fdd, st.frameDependentData.get? i = some fdd →
      (mapFind fdd.assetDescriptorDataMap u).isSome →
        (f fdd).assetDescriptorDataMap.length =
          fdd.assetDescriptorDataMap.length)
    (hpres : ∀ fdd, st.frameDependentData.get? i = some fdd →
      (mapFind fdd.assetDescriptorDataMap u).isSome →
        (mapFind (f fdd).assetDescriptorDataMap u).isSome)
    (h : entriesTracked u c st) : entriesTracked u c (modifyFDD st i f) := by
  obtain ⟨hc, hp⟩ := h
  have hmem : ∀ fdd, st.frameDependentData.get? i = some fdd →
      fdd ∈ st.frameDependentData := fun fdd hf => List.get?_mem hf
  constructor
  · unfold descriptorEntryCount at hc ⊢
    unfold modifyFDD
    dsimp only
    rw [sum_map_listModify _ _ i f
      (fun fdd hfdd => hlen fdd hfdd (hp fdd (hmem fdd hfdd)))]
    exact hc
  · intro fdd hfdd
    exact listModify_forall st.frameDependentData i f hp
      (fun x hx => hpres x hx (hp x (hmem x hx))) fdd hfdd

theorem entriesTracked_updateCameraDataUniformBuffers (u : UUID) (c : Nat)
    (st st' : RendererState) (i : Nat) (pos : Vec3) (vm : Mat4)
    (h : updateCameraDataUniformBuffers u i pos vm st = some st')
    (ht : entriesTracked u c st) :
    entriesTracked u c st' := by
  unfold updateCameraDataUniformBuffers at h
  by_cases hi : i < getFDDSize st
  · rw [if_pos hi] at h
    simp only [Option.some.injEq] at h
    subst h
    refine entriesTracked_modifyFDD_present u c st i _ ?_ ?_ ht
    · intro fdd hfdd hsome
      cases hm : mapFind fdd.assetDescriptorDataMap u with
      | none => rw [hm] at hsome; simp at hsome
      | some v =>
        simpa using mapBracketModify_length_present
          fdd.assetDescriptorDataMap u emptyAssetDescriptorData _ v hm
    · intro fdd hfdd hsome
      simpa using mapBracketModify_find_isSome fdd.assetDescriptorDataMap u
        emptyAssetDescriptorData _
  · rw [if_neg hi] at h
    exact absurd h (by simp)

theorem entriesTracked_updateProjectionUniformBuffer (u : UUID) (c : Nat)
    (st st' : RendererState) (i : Nat)
    (h : updateProjectionUniformBuffer u i st = some st')
    (ht : entriesTracked u c st) : entriesTracked u c st' := by
  unfold updateProjectionUniformBuffer at h
  by_cases hi : i < getFDDSize st
  · rw [if_pos hi] at h
    simp only [Option.some.injEq] at h
    subst h
    refine entriesTracked_modifyFDD_present u c st i _ ?_ ?_ ht
    · intro fdd hfdd hsome
      cases hm : mapFind fdd.assetDescriptorDataMap u with
      | none => rw [hm] at hsome; simp at hsome
      | some v =>
        simpa using mapBracketModify_length_present
          fdd.assetDescriptorDataMap u emptyAssetDescriptorData _ v hm
    · intro fdd hfdd hsome
      simpa using mapBracketModify_find_isSome fdd.assetDescriptorDataMap u
        emptyAssetDescriptorData _
  · rw [if_neg hi] at h
    exact absurd h (by simp)

theorem entriesTracked_updateDescriptorSetAt (u : UUID) (c : Nat)
    (st st' : RendererState) (i setIndex : Nat) (w : DescWrite)
    (ev : List REvent)
    (h : updateDescriptorSetAt u i setIndex w st = some (st', ev))
    (ht : entriesTracked u c st) : entriesTracked u c st' := by
  unfold updateDescriptorSetAt at h
  split at h
  · rename_i hi
    dsimp only at h
    split at h
    · exact absurd h (by simp)
    · split at h
      · exact absurd h (by simp)
      · simp only [Option.some.injEq, Prod.mk.injEq] at h
        rw [← h.1]
        -- the modified slot has `u` present, so `mapBracketGet` leaves
        -- the map unchanged and `mapBracketModify` adjusts in place
        refine entriesTracked_modifyFDD_present u c st i _ ?_ ?_ ht
        · intro fdd hfdd hsome
          have hfdd' : fdd = st.frameDependentData.get ⟨i, hi⟩ := by
            have := List.get?_eq_get (l := st.frameDependentData) hi
            rw [this] at hfdd
            exact (Option.some.inj hfdd).symm
          subst hfdd'
          cases hm : mapFind (st.frameDependentData.get
              ⟨i, hi⟩).assetDescriptorDataMap u with
          | none => rw [hm] at hsome; simp at hsome
          | some v =>
            rw [mapBracketGet_present _ u emptyAssetDescriptorData v hm]
            simpa using mapBracketModify_length_present
              (st.frameDependentData.get ⟨i, hi⟩).assetDescriptorDataMap u
              emptyAssetDescriptorData _ v hm
        · intro fdd hfdd hsome
          simpa using mapBracketModify_find_isSome
            (mapBracketGet (st.frameDependentData.get
              ⟨i, hi⟩).assetDescriptorDataMap u emptyAssetDescriptorData).1
            u emptyAssetDescriptorData _
  · exact absurd h (by simp)

theorem entriesTracked_initializeDescriptorSets (u : UUID) (c : Nat)
    (st st' : RendererState) (i : Nat) (ev : List REvent)
    (h : initializeDescriptorSets u i st = some (st', ev))
    (ht : entriesTracked u c st) : entriesTracked u c st' := by
  unfold initializeDescriptorSets at h
  cases ha : updateCameraDataDescriptorSet u i st with
  | none => rw [ha] at h; exact absurd h (by simp)
  | some ra =>
    rw [ha] at h
    simp only [Option.bind_eq_bind, Option.some_bind] at h
    cases hb : updateProjectionDescriptorSet u i ra.1 with
    | none => rw [hb] at h; exact absurd h (by simp)
    | some rb =>
      rw [hb] at h
      simp only [Option.some_bind] at h
      cases hc : updatePBRTextureDescriptorSet u i rb.1 with
      | none => rw [hc] at h; exact absurd h (by simp)
      | some rc =>
        rw [hc] at h
        simp only [Option.some_bind] at h
        have t1 := entriesTracked_updateDescriptorSetAt u c st ra.1 i 2
          DescWrite.cameraDataWrite ra.2
          (by simpa [updateCameraDataDescriptorSet] using ha) ht
        have t2 := entriesTracked_updateDescriptorSetAt u c ra.1 rb.1 i 1
          DescWrite.projectionWrite rb.2
          (by simpa [updateProjectionDescriptorSet] using hb) t1
        have t3 := entriesTracked_updateDescriptorSetAt u c rb.1 rc.1 i 0
          DescWrite.pbrWrite rc.2
          (by simpa [updatePBRTextureDescriptorSet] using hc) t2
        have := optionPureEq h
        rw [show st' = rc.1 from congrArg (fun q => q.1) this.symm]
        exact t3

theorem entriesTracked_initAssetFrameSlots (u : UUID) (c : Nat)
    (st st' : RendererState) (ev : List REvent)
    (h : initAssetFrameSlots u st = some (st', ev))
    (ht : entriesTracked u c st) : entriesTracked u c st' := by
  unfold initAssetFrameSlots at h
  have := foldlM_option_preserve
    (fun (p : RendererState × List REvent) => entriesTracked u c p.1)
    (fun p i => do
      let st1 ← updateCameraDataUniformBuffers u i initialCameraPos
        initialViewMatrix p.1
      let st2 ← updateProjectionUniformBuffer u i st1
      let r ← initializeDescriptorSets u i st2
      return (r.1, p.2 ++ r.2))
    (fun p i p' hp hstep => by
      dsimp only at hstep
      cases hc : updateCameraDataUniformBuffers u i initialCameraPos
          initialViewMatrix p.1 with
      | none => rw [hc] at hstep; exact absurd hstep (by simp)
      | some s1 =>
        rw [hc] at hstep
        simp only [Option.bind_eq_bind, Option.some_bind] at hstep
        have t1 := entriesTracked_updateCameraDataUniformBuffers u c p.1 s1
          i initialCameraPos initialViewMatrix hc hp
        cases hpr : updateProjectionUniformBuffer u i s1 with
        | none => rw [hpr] at hstep; exact absurd hstep (by simp)
        | some s2 =>
          rw [hpr] at hstep
          simp only [Option.some_bind] at hstep
          have t2 := entriesTracked_updateProjectionUniformBuffer u c s1 s2
            i hpr t1
          cases hin : initializeDescriptorSets u i s2 with
          | none => rw [hin] at hstep; exact absurd hstep (by simp)
          | some r3 =>
            rw [hin] at hstep
            simp only [Option.some_bind] at hstep
            have t3 := entriesTracked_initializeDescriptorSets u c s2 r3.1
              i r3.2 (by simpa using hin) t2
            have := optionPureEq hstep
            rw [show p'.1 = r3.1 from congrArg (fun q => q.1) this.symm]
            exact t3)
    (List.range (getFDDSize st)) (st, []) (st', ev) ht h
  exact this

theorem sumlen_bracketModify_fresh (u : UUID) :
    ∀ l : List FrameDependentData,
      (∀ fdd ∈ l, mapFind fdd.assetDescriptorDataMap u = none) →
      ((l.map fun fdd =>
          ({ fdd with
            assetDescriptorDataMap := mapBracketModify
              fdd.assetDescriptorDataMap u emptyAssetDescriptorData id } :
            FrameDependentData)).map
        (fun x => x.assetDescriptorDataMap.length)).sum =
      (l.map fun x => x.assetDescriptorDataMap.length).sum + l.length := by
  intro l
  induction l with
  | nil => intro; rfl
  | cons fdd rest ih =>
    intro hfresh
    have h1 : mapFind fdd.assetDescriptorDataMap u = none :=
      hfresh fdd (by simp)
    simp only [List.map_cons, List.sum_cons, List.length_cons]
    rw [ih (fun x hx => hfresh x (by simp [hx]))]
    rw [mapBracketModify_length_absent _ u _ _ h1]
    omega

theorem entries_createAssetUniformBuffers_fresh (u : UUID)
    (st : RendererState)
    (hfresh : ∀ fdd ∈ st.frameDependentData,
      mapFind fdd.assetDescriptorDataMap u = none) :
    entriesTracked u
      (descriptorEntryCount st + st.frameDependentData.length)
      (createAssetUniformBuffers u st) := by
  constructor
  · unfold createAssetUniformBuffers descriptorEntryCount
    dsimp only
    exact sumlen_bracketModify_fresh u st.frameDependentData hfresh
  · intro fdd' hfdd'
    obtain ⟨fdd, hmem, heq⟩ := List.mem_map.mp hfdd'
    rw [← heq]
    simpa using mapBracketModify_find_isSome fdd.assetDescriptorDataMap u
      emptyAssetDescriptorData id

theorem sumlen_createDescriptorSets_present (u : UUID) :
    ∀ l : List FrameDependentData,
      (∀ fdd ∈ l, (mapFind fdd.assetDescriptorDataMap u).isSome) →
      ((l.map fun fdd =>
          let m := mapInsert fdd.assetDescriptorDataMap u
            emptyAssetDescriptorData
          ({ fdd with
            assetDescriptorDataMap :=
              mapBracketModify m u emptyAssetDescriptorData fun add =>
                { add with
                  descriptorSets := add.descriptorSets ++
                    [⟨true, []⟩, ⟨true, []⟩, ⟨true, []⟩] } } :
            FrameDependentData)).map
        (fun x => x.assetDescriptorDataMap.length)).sum =
      (l.map fun x => x.assetDescriptorDataMap.length).sum := by
  intro l
  induction l with
  | nil => intro; rfl
  | cons fdd rest ih =>
    intro hp
    have hps : (mapFind fdd.assetDescriptorDataMap u).isSome :=
      hp fdd (by simp)
    cases hm : mapFind fdd.assetDescriptorDataMap u with
    | none => rw [hm] at hps; simp at hps
    | some v =>
      simp only [List.map_cons, List.sum_cons]
      rw [ih (fun x hx => hp x (by simp [hx]))]
      rw [mapInsert_present _ u _ v hm,
        mapBracketModify_length_present _ u _ _ v hm]

theorem entriesTracked_createDescriptorSets (u : UUID) (c : Nat)
    (st : RendererState) (ht : entriesTracked u c st) :
    entriesTracked u c (createDescriptorSets u st) := by
  obtain ⟨hc, hp⟩ := ht
  constructor
  · unfold createDescriptorSets descriptorEntryCount
    dsimp only
    unfold descriptorEntryCount at hc
    rw [← hc]
    exact sumlen_createDescriptorSets_present u st.frameDependentData hp
  · intro fdd' hfdd'
    obtain ⟨fdd, hmem, heq⟩ := List.mem_map.mp hfdd'
    rw [← heq]
    have hps : (mapFind fdd.assetDescriptorDataMap u).isSome := hp fdd hmem
    cases hm : mapFind fdd.assetDescriptorDataMap u with
    | none => rw [hm] at hps; simp at hps
    | some v =>
      dsimp only
      rw [mapInsert_present _ u _ v hm]
      simpa using mapBracketModify_find_isSome fdd.assetDescriptorDataMap u
        emptyAssetDescriptorData _

/-- C1 fails on the code: creating one asset and then destroying it
leaves two `AssetDescriptorData` entries (one per frame slot) behind with
zero registered assets, so the entry total is 2 while (registered assets)
× `MAX_FRAMES_IN_FLIGHT` is 0. -/
theorem claim_C1_counterexample :
    ((do
        let r1 ← createAssetResources 7 6 (initialState 800 600 3)
        let r2 ← destroyAssetResources 24 7 r1.1
        return r2.1) : Option RendererState).map
        (fun st2 => (descriptorEntryCount st2, st2.assetResources.length,
          decide (descriptorCountInvariant st2))) = some (2, 0, false) := by
  decide

/-- C1 amended: `CreateAssetResources` inserts exactly one
`AssetDescriptorData` entry per frame slot for the new UUID, so the `(entry
total) = (registered assets) × MaxFramesInFlight` invariant is preserved
across every create.  `DestroyAssetResources`, however, leaves every frame
slot's descriptor map untouched while removing the asset, so any destroy
leaves the entry total unchanged, drops the registered count by one, and
necessarily breaks the invariant. -/
theorem claim_C1_create_preserves_destroy_breaks :
    (∀ (st : RendererState) (u : UUID) (ic : Nat) (st1 : RendererState)
      (ev : List REvent),
      (∀ fdd ∈ st.frameDependentData,
        mapFind fdd.assetDescriptorDataMap u = none) →
      createAssetResources u ic st = some (st1, ev) →
      descriptorEntryCount st1 =
          descriptorEntryCount st + st.frameDependentData.length ∧
        st1.assetResources.length = st.assetResources.length + 1 ∧
        (descriptorCountInvariant st →
          st.frameDependentData.length = MAX_FRAMES_IN_FLIGHT →
          descriptorCountInvariant st1)) ∧
    (∀ (st : RendererState) (szVec : Nat) (u : UUID) (st2 : RendererState)
      (ev : List REvent) (idx : Nat),
      mapFind st.resourcesMap u = some idx →
      idx / szVec < st.assetResources.length →
      destroyAssetResources szVec u st = some (st2, ev) →
      descriptorEntryCount st2 = descriptorEntryCount st ∧
        st2.assetResources.length + 1 = st.assetResources.length ∧
        (descriptorCountInvariant st → ¬descriptorCountInvariant st2)) := by
  constructor
  · intro st u ic st1 ev hfresh hcreate
    unfold createAssetResources at hcreate
    dsimp only at hcreate
    have hbase : entriesTracked u
        (descriptorEntryCount st + st.frameDependentData.length)
        (createAssetUniformBuffers u
          { st with
            assetResources := st.assetResources ++
              [{ uuid := u, shouldDraw := false,
                 transform := defaultTransform, indexCount := ic }]
            resourcesMap := mapInsert st.resourcesMap u
              st.assetResources.length }) :=
      entries_createAssetUniformBuffers_fresh u _ hfresh
    have hcds := entriesTracked_createDescriptorSets u _ _ hbase
    have hfin := entriesTracked_initAssetFrameSlots u _ _ st1 ev hcreate hcds
    have hsh := frameIdxShape_initAssetFrameSlots u _ st1 ev hcreate
    have hass : st1.assetResources.length = st.assetResources.length + 1 := by
      have h1 := (drawShapeInv_initAssetFrameSlots u _ st1 ev hcreate).2.2
      rw [h1]
      show (st.assetResources ++
        [{ uuid := u, shouldDraw := false, transform := defaultTransform,
           indexCount := ic }] : List AssetResources).length =
        st.assetResources.length + 1
      simp
    exact ⟨hfin.1, hass, fun hinv hlen => by
      unfold descriptorCountInvariant at hinv ⊢
      rw [hfin.1, hass, hinv, hlen]
      ring⟩
  · intro st szVec u st2 ev idx hfind hlt hdestroy
    unfold destroyAssetResources at hdestroy
    rw [hfind] at hdestroy
    simp only [Option.some.injEq] at hdestroy
    have hs : st2 = { st with
        assetResources := listEraseIdx st.assetResources (idx / szVec)
        resourcesMap := mapErase st.resourcesMap u } :=
      (congrArg (fun q => q.1) hdestroy).symm
    have hcnt : descriptorEntryCount st2 = descriptorEntryCount st := by
      rw [hs]
      rfl
    have hlen2 : st2.assetResources.length + 1 = st.assetResources.length := by
      rw [hs]
      exact listEraseIdx_length st.assetResources (idx / szVec) hlt
    refine ⟨hcnt, hlen2, ?_⟩
    intro hinv hinv2
    unfold descriptorCountInvariant at hinv hinv2
    rw [hcnt, hinv] at hinv2
    rw [MAX_FRAMES_IN_FLIGHT] at hinv2
    omega

theorem claim_C1_witness :
    ((createAssetResources 7 6 (initialState 800 600 3)).map
        (fun r => (descriptorEntryCount r.1, r.1.assetResources.length)) =
      some (2, 1)) ∧
    ((destroyAssetResources 24 1 soloState).map
        (fun r => (descriptorEntryCount r.1, r.1.assetResources.length,
          decide (descriptorCountInvariant r.1))) = some (2, 0, false)) := by
  constructor
  · cases hc : createAssetResources 7 6 (initialState 800 600 3) with
    | none => exact absurd hc (by decide)
    | some r =>
      have hmain := claim_C1_create_preserves_destroy_breaks.1
        (initialState 800 600 3) 7 6 r.1 r.2 (by decide) (by rw [hc])
      show some (descriptorEntryCount r.1, r.1.assetResources.length) =
        some (2, 1)
      rw [show descriptorEntryCount r.1 = 2 by
          rw [hmain.1]; decide,
        show r.1.assetResources.length = 1 by rw [hmain.2.1]; decide]
  · cases hd : destroyAssetResources 24 1 soloState with
    | none => exact absurd hd (by decide)
    | some r =>
      have hmain := claim_C1_create_preserves_destroy_breaks.2 soloState
        24 1 r.1 r.2 0 (by decide) (by decide) (by rw [hd])
      show some (descriptorEntryCount r.1, r.1.assetResources.length,
        decide (descriptorCountInvariant r.1)) = some (2, 0, false)
      have hcnt : descriptorEntryCount r.1 = 2 := by
        rw [hmain.1]; decide
      have hlen : r.1.assetResources.length = 0 := by
        have := hmain.2.1
        have hsolo : soloState.assetResources.length = 1 := by decide
        omega
      have hninv : ¬descriptorCountInvariant r.1 := by
        apply hmain.2.2
        decide
      rw [hcnt, hlen]
      simp [hninv]

/-! ## C5: draw flags are cleared and govern the execution list -/

theorem recordPrimaryLoop_no_draw (fc fs : ℚ → ℚ) (imageIndex : Nat) :
    ∀ (assets : List AssetResources) (st : RendererState) (acc : List UUID)
      (ev : List REvent) (r : RendererState × List UUID × List REvent),
      (∀ a ∈ st.assetResources, a.shouldDraw = false) →
      recordPrimaryLoop fc fs imageIndex assets st acc ev = some r →
      r.2.1 = acc ∧ r.2.2 = ev ∧
        r.1.assetResources = st.assetResources := by
  intro assets
  induction assets with
  | nil =>
    intro st acc ev r hflags h
    unfold recordPrimaryLoop at h
    have := optionPureEq h
    exact ⟨(congrArg (fun q => q.2.1) this).symm,
      (congrArg (fun q => q.2.2) this).symm,
      (congrArg (fun q => q.1.assetResources) this).symm⟩
  | cons a rest ih =>
    intro st acc ev r hflags h
    unfold recordPrimaryLoop at h
    cases hstep : recordPrimaryLoopStep fc fs imageIndex a st acc ev with
    | none => rw [hstep] at h; exact absurd h (by simp)
    | some r1 =>
      rw [hstep] at h
      simp only [Option.bind_eq_bind, Option.some_bind] at h
      unfold recordPrimaryLoopStep at hstep
      dsimp only at hstep
      split at hstep
      · exact absurd hstep (by simp)
      · rename_i stored hstored
        have hmem : stored ∈ st.assetResources := List.get?_mem hstored
        have hfalse : stored.shouldDraw = false := hflags stored hmem
        rw [hfalse] at hstep
        simp only [Bool.false_eq_true, if_false] at hstep
        have hr1 := optionPureEq hstep
        have hr1s : r1.1 = { st with
            resourcesMap := (mapBracketGet st.resourcesMap a.uuid 0).1 } :=
          (congrArg (fun q => q.1) hr1).symm
        have hr1a : r1.2.1 = acc := (congrArg (fun q => q.2.1) hr1).symm
        have hr1e : r1.2.2 = ev := (congrArg (fun q => q.2.2) hr1).symm
        have hrest := ih r1.1 r1.2.1 r1.2.2 r
          (by rw [hr1s]; exact hflags) (by simpa using h)
        refine ⟨hrest.1.trans hr1a, hrest.2.1.trans hr1e, ?_⟩
        rw [hrest.2.2, hr1s]

/-- C5: after every completed `Draw()` the draw flag of every registered
asset is false, and consequently a subsequent primary-command-buffer
recording from that state executes no secondary command buffer: its event
trace is just the primary recording and the current slot's primary command
buffer is left with an empty execution list. -/
theorem claim_C5_draw_clears_flags (inp : FrameInput)
    (st st' : RendererState) (ev : List REvent)
    (h : draw inp st = some (st', ev)) :
    (∀ a ∈ st'.assetResources, a.shouldDraw = false) ∧
    (∀ (fc fs : ℚ → ℚ) (i : Nat) (st'' : RendererState) (ev2 : List REvent),
      recordPrimaryCommandBuffer fc fs i st' = some (st'', ev2) →
      ev2 = [REvent.recordPrimary i] ∧
        (st''.frameDependentData.get? st'.currentFrame).map
          (fun fdd => fdd.primaryCommandBuffer.executed) = some []) := by
  have heff := draw_frame_effect inp st st' ev h
  have hflags : ∀ a ∈ st'.assetResources, a.shouldDraw = false := by
    intro a ha
    rw [heff.2.2] at ha
    obtain ⟨b, -, hb⟩ := List.mem_map.mp ha
    rw [← hb]
  refine ⟨hflags, ?_⟩
  intro fc fs i st'' ev2 hrec
  unfold recordPrimaryCommandBuffer at hrec
  cases h0 : getCurrentFDD st' with
  | none => rw [h0] at hrec; exact absurd hrec (by simp)
  | some fdd0 =>
    rw [h0] at hrec
    simp only [Option.bind_eq_bind, Option.some_bind] at hrec
    cases h1 : getSWIDDAtIndex st' i with
    | none => rw [h1] at hrec; exact absurd hrec (by simp)
    | some swidd =>
      rw [h1] at hrec
      simp only [Option.some_bind] at hrec
      cases h2 : recordPrimaryLoop fc fs i st'.assetResources st' []
          [REvent.recordPrimary i] with
      | none => rw [h2] at hrec; exact absurd hrec (by simp)
      | some r =>
        rw [h2] at hrec
        simp only [Option.some_bind] at hrec
        obtain ⟨hacc, hev, hass⟩ := recordPrimaryLoop_no_draw fc fs i
          st'.assetResources st' [] [REvent.recordPrimary i] r hflags h2
        have hshape := drawShapeInv_recordPrimaryLoop fc fs i
          st'.assetResources st' [] [REvent.recordPrimary i] r.1 r.2.1 r.2.2
          (by simpa using h2)
        have heq := optionPureEq hrec
        have hev2 : ev2 = r.2.2 := (congrArg (fun q => q.2) heq).symm
        have hst'' : st'' = modifyFDD r.1 r.1.currentFrame
            (fun fdd' => { fdd' with primaryCommandBuffer := ⟨r.2.1⟩ }) :=
          (congrArg (fun q => q.1) heq).symm
        refine ⟨hev2.trans hev, ?_⟩
        rw [hst'']
        unfold modifyFDD
        dsimp only
        rw [hshape.1, listModify_get_self]
        have hs0 : st'.frameDependentData.get? st'.currentFrame = some fdd0 :=
          h0
        have hlen : r.1.frameDependentData.length =
            st'.frameDependentData.length := hshape.2.1
        cases h3 : r.1.frameDependentData.get? st'.currentFrame with
        | none =>
          have hlt : st'.currentFrame < st'.frameDependentData.length := by
            have := List.get?_eq_some.mp hs0
            exact this.1
          rw [List.get?_eq_none] at h3
          omega
        | some fddr =>
          rw [hacc]
          rfl

/-- The one-asset state with the draw flag asserted for this frame. -/
def soloDrawState : RendererState := (setAssetDrawState 1 soloState).1

theorem claim_C5_witness :
    ((draw inpOK soloDrawState).map
        (fun r => r.1.assetResources.map fun a => a.shouldDraw) =
      some [false]) ∧
    (((draw inpOK soloDrawState).bind
        (fun r =>
          recordPrimaryCommandBuffer (fun _ => 1) (fun _ => 0) 0 r.1)).map
        (fun q => q.2) = some [REvent.recordPrimary 0]) := by
  cases hdraw : draw inpOK soloDrawState with
  | none => exact absurd hdraw (by decide)
  | some r =>
    have hmain := claim_C5_draw_clears_flags inpOK soloDrawState r.1 r.2
      (by rw [hdraw])
    constructor
    · show some (r.1.assetResources.map fun a => a.shouldDraw) = some [false]
      have heff := draw_frame_effect inpOK soloDrawState r.1 r.2 (by rw [hdraw])
      rw [heff.2.2]
      have : soloDrawState.assetResources.length = 1 := by decide
      cases hsa : soloDrawState.assetResources with
      | nil => rw [hsa] at this; simp at this
      | cons a rest =>
        rw [hsa] at this
        cases rest with
        | nil => rfl
        | cons b bs => simp at this
    · show Option.map (fun q => q.2)
        (recordPrimaryCommandBuffer (fun _ => 1) (fun _ => 0) 0 r.1) =
        some [REvent.recordPrimary 0]
      cases hrec : recordPrimaryCommandBuffer (fun _ => 1) (fun _ => 0) 0
          r.1 with
      | none =>
        exfalso
        -- the recording succeeds: evaluate it on the concrete drawn state
        have hr : r.1 =
            ((draw inpOK soloDrawState).getD (soloDrawState, [])).1 := by
          rw [hdraw]
          rfl
        rw [hr] at hrec
        revert hrec
        decide
      | some q =>
        have := (hmain.2 (fun _ => 1) (fun _ => 0) 0 q.1 q.2
          (by rw [hrec])).1
        show some q.2 = some [REvent.recordPrimary 0]
        rw [this]

/-! ## C10: the out-of-date early return in DrawFrame -/

/-- Events that belong to the record/submit/present portion of a frame. -/
def isFrameSubmissionEvent : REvent → Bool
  | REvent.resetFence _ => true
  | REvent.recordPrimary _ => true
  | REvent.submit => true
  | REvent.presentImage => true
  | _ => false

theorem map_listModify_eq {α β : Type _} (g : α → β) (l : List α) (i : Nat)
    (f : α → α) (hf : ∀ a, l.get? i = some a → g (f a) = g a) :
    (listModify l i f).map g = l.map g := by
  induction l generalizing i with
  | nil => rfl
  | cons b bs ih =>
    cases i with
    | zero => simp [listModify, hf b rfl]
    | succ i =>
      simp only [listModify, List.map_cons]
      rw [ih i (fun a ha => hf a (by simpa using ha))]

/-- The per-slot fences of the frame table. -/
def fencesOf (st : RendererState) : List FenceState :=
  st.frameDependentData.map (·.inFlightFence)

theorem fencesOf_recordSecondary (u : UUID) (i : Nat)
    (st st' : RendererState) (ev : List REvent)
    (h : recordSecondaryCommandBuffer u i st = some (st', ev)) :
    fencesOf st' = fencesOf st := by
  obtain ⟨f, g, hf, -, hfence⟩ :=
    recordSecondaryCommandBuffer_shape u i st st' ev h
  subst hf
  unfold fencesOf modifySWIDD modifyFDD
  dsimp only
  exact map_listModify_eq _ _ _ _ (fun a _ => (hfence a).1)

theorem evOk_append {l1 l2 : List REvent}
    (h1 : ∀ e ∈ l1, isFrameSubmissionEvent e = false)
    (h2 : ∀ e ∈ l2, isFrameSubmissionEvent e = false) :
    ∀ e ∈ l1 ++ l2, isFrameSubmissionEvent e = false := by
  intro e he
  rcases List.mem_append.mp he with h | h
  · exact h1 e h
  · exact h2 e h

theorem evOk_map {β : Type _} (f : β → REvent) (l : List β)
    (hf : ∀ b, isFrameSubmissionEvent (f b) = false) :
    ∀ e ∈ l.map f, isFrameSubmissionEvent e = false := by
  intro e he
  obtain ⟨b, -, hb⟩ := List.mem_map.mp he
  rw [← hb]
  exact hf b

theorem evOk_flatMap {β : Type _} (f : β → List REvent) (l : List β)
    (hf : ∀ b, ∀ e ∈ f b, isFrameSubmissionEvent e = false) :
    ∀ e ∈ l.flatMap f, isFrameSubmissionEvent e = false := by
  intro e he
  obtain ⟨b, -, hb⟩ := List.mem_flatMap.mp he
  exact hf b e hb

theorem cleanup_events_ok (st : RendererState) :
    ∀ e ∈ (cleanupSwapChain st).2, isFrameSubmissionEvent e = false := by
  unfold cleanupSwapChain
  dsimp only
  refine evOk_append (evOk_append (evOk_append (evOk_append ?_ ?_) ?_) ?_) ?_
  · intro e he
    simp only [List.mem_cons, List.mem_singleton] at he
    rcases he with he | he | he
    · rw [he]; rfl
    · rw [he]; rfl
    · simp at he
  · exact evOk_map _ _ (fun b => rfl)
  · exact evOk_map _ _ (fun b => rfl)
  · refine evOk_flatMap _ _ (fun i => ?_)
    split
    · intro e he; simp at he
    · exact evOk_map _ _ (fun b => rfl)
  · intro e he
    simp only [List.mem_singleton] at he
    rw [he]; rfl

theorem recreateSecondaryFor_effect (i : Nat) (a : AssetResources)
    (st st' : RendererState) (ev ev' : List REvent)
    (h : recreateSecondaryFor i a st ev = some (st', ev')) :
    fencesOf st' = fencesOf st ∧
      ∃ evNew, ev' = ev ++ evNew ∧
        ∀ e ∈ evNew, isFrameSubmissionEvent e = false := by
  unfold recreateSecondaryFor at h
  cases h1 : getSWIDDAtIndex st i with
  | none => rw [h1] at h; exact absurd h (by simp)
  | some swidd =>
    rw [h1] at h
    simp only [Option.bind_eq_bind, Option.some_bind] at h
    cases h2 : mapFind swidd.secondaryCommandBuffer a.uuid with
    | none => rw [h2] at h; exact absurd h (by simp)
    | some sb =>
      rw [h2] at h
      simp only [Option.some_bind] at h
      cases h3 : recordSecondaryCommandBuffer a.uuid i st with
      | none => rw [h3] at h; exact absurd h (by simp)
      | some r =>
        rw [h3] at h
        simp only [Option.some_bind] at h
        have heq := optionPureEq h
        have h3' : recordSecondaryCommandBuffer a.uuid i st =
            some (r.1, r.2) := by rw [h3]
        obtain ⟨f, g, hf, hevr, -⟩ :=
          recordSecondaryCommandBuffer_shape a.uuid i st r.1 r.2 h3'
        refine ⟨?_, [REvent.createSecondary i a.uuid] ++ r.2, ?_, ?_⟩
        · rw [show st' = r.1 from (congrArg (fun q => q.1) heq).symm]
          exact fencesOf_recordSecondary a.uuid i st r.1 r.2 h3'
        · rw [show ev' = ev ++ [REvent.createSecondary i a.uuid] ++ r.2 from
            (congrArg (fun q => q.2) heq).symm]
          simp
        · intro e he
          rcases List.mem_append.mp he with h4 | h4
          · simp only [List.mem_singleton] at h4
            rw [h4]
            rfl
          · rw [hevr] at h4
            simp only [List.mem_singleton] at h4
            rw [h4]
            rfl

theorem recreateAllSecondary_effect (st st' : RendererState)
    (ev : List REvent)
    (h : recreateAllSecondaryCommandBuffers st = some (st', ev)) :
    fencesOf st' = fencesOf st ∧
      ∀ e ∈ ev, isFrameSubmissionEvent e = false := by
  unfold recreateAllSecondaryCommandBuffers at h
  have := foldlM_option_preserve
    (fun (p : RendererState × List REvent) =>
      fencesOf p.1 = fencesOf st ∧
        ∀ e ∈ p.2, isFrameSubmissionEvent e = false)
    (fun p i =>
      p.1.assetResources.foldlM (fun q a => recreateSecondaryFor i a q.1 q.2)
        p)
    (fun p i p' hp hstep => by
      have hinner := foldlM_option_preserve
        (fun (q : RendererState × List REvent) =>
          fencesOf q.1 = fencesOf st ∧
            ∀ e ∈ q.2, isFrameSubmissionEvent e = false)
        (fun q a => recreateSecondaryFor i a q.1 q.2)
        (fun q a q' hq hf => by
          obtain ⟨hfen, evNew, hevEq, hevOk⟩ := recreateSecondaryFor_effect
            i a q.1 q'.1 q.2 q'.2
            (by cases q' with | mk s e => simpa using hf)
          refine ⟨hfen.trans hq.1, ?_⟩
          rw [hevEq]
          intro e he
          rcases List.mem_append.mp he with h4 | h4
          · exact hq.2 e h4
          · exact hevOk e h4)
        p.1.assetResources p p' hp hstep
      exact hinner)
    (List.range (getSWIDDSize st)) (st, []) (st', ev)
    ⟨rfl, by intro e he; simp at he⟩ h
  exact this

theorem recreateSwapChain_effect (n : Nat) (st st' : RendererState)
    (ev : List REvent) (h : recreateSwapChain n st = some (st', ev)) :
    fencesOf st' = fencesOf st ∧
      ∀ e ∈ ev, isFrameSubmissionEvent e = false := by
  unfold recreateSwapChain at h
  dsimp only at h
  rw [show (cleanupSwapChain st).1 = st from rfl] at h
  cases h1 : recreateAllSecondaryCommandBuffers
      { st with
        swapChainImageDependentData :=
          resizeSWIDD st.swapChainImageDependentData n
        swapChainExtent := (st.framebufferWidth, st.framebufferHeight) } with
  | none => rw [h1] at h; exact absurd h (by simp)
  | some r =>
    rw [h1] at h
    simp only [Option.bind_eq_bind, Option.some_bind] at h
    have heq := optionPureEq h
    obtain ⟨hfen, hevOk⟩ := recreateAllSecondary_effect _ r.1 r.2
      (by simpa using h1)
    constructor
    · rw [show st' = r.1 from (congrArg (fun q => q.1) heq).symm]
      exact hfen
    · rw [show ev = REvent.waitDeviceIdle :: (cleanupSwapChain st).2 ++
        ([REvent.createSwapChainHandle, REvent.createColorAttachment,
          REvent.createDepthTexture] ++
          (List.range n).map REvent.createFramebuffer) ++ r.2 from
        (congrArg (fun q => q.2) heq).symm]
      have hclean := cleanup_events_ok st
      intro e he
      rcases List.mem_cons.mp he with he | he
      · rw [he]; rfl
      · refine evOk_append (evOk_append hclean
          (evOk_append ?_ (evOk_map REvent.createFramebuffer (List.range n)
            fun b => rfl))) hevOk e he
        intro e2 he2
        fin_cases he2 <;> rfl

/-- C10: when image acquisition reports an out-of-date swapchain,
`DrawFrame` recreates the swapchain and returns early: it performs no
fence reset, no primary recording, no submission and no present, and the
current slot's in-flight fence is left signaled (so the next `Draw()` on
that slot cannot deadlock on its fence wait) — yet the enclosing `Draw()`
still clears every asset's draw flag and still advances `currentFrame`,
exactly as on a presented frame. -/
theorem claim_C10_out_of_date_skips_frame (inp : FrameInput)
    (st st' : RendererState) (ev : List REvent)
    (hacq : inp.acquire = AcquireRes.outOfDate)
    (h : draw inp st = some (st', ev)) :
    (∀ e ∈ ev, isFrameSubmissionEvent e = false) ∧
      (st'.frameDependentData.get? st.currentFrame).map (·.inFlightFence) =
        some FenceState.signaled ∧
      (∀ a ∈ st'.assetResources, a.shouldDraw = false) ∧
      st'.currentFrame = (st.currentFrame + 1) % MAX_FRAMES_IN_FLIGHT := by
  obtain ⟨st1, h1, h2⟩ := draw_state_eq inp st st' ev h
  have heff := draw_frame_effect inp st st' ev h
  unfold drawFrame at h1
  cases h0 : getCurrentFDD st with
  | none => rw [h0] at h1; exact absurd h1 (by simp)
  | some fdd0 =>
    rw [h0] at h1
    simp only [Option.bind_eq_bind, Option.some_bind] at h1
    cases hw : waitInFlightFence st.currentFrame st with
    | none => rw [hw] at h1; exact absurd h1 (by simp)
    | some stw =>
      rw [hw] at h1
      simp only [Option.some_bind] at h1
      rw [hacq] at h1
      cases hrc : recreateSwapChain inp.newImageCount stw with
      | none => rw [hrc] at h1; exact absurd h1 (by simp)
      | some r =>
        rw [hrc] at h1
        simp only [Option.some_bind] at h1
        have heq := optionPureEq h1
        have hst1 : st1 = r.1 := (congrArg (fun q => q.1) heq).symm
        have hev : ev = [REvent.waitFence st.currentFrame,
            REvent.acquireImage] ++ r.2 :=
          (congrArg (fun q => q.2) heq).symm
        obtain ⟨hfen, hevOk⟩ := recreateSwapChain_effect inp.newImageCount
          stw r.1 r.2 (by rw [hrc])
        have hwEq : stw = setFence st.currentFrame FenceState.signaled st :=
          waitInFlightFence_eq st.currentFrame st stw hw
        refine ⟨?_, ?_, ?_, heff.1⟩
        · rw [hev]
          intro e he
          rcases List.mem_append.mp he with he | he
          · fin_cases he <;> rfl
          · exact hevOk e he
        · have hfdds : st'.frameDependentData = r.1.frameDependentData := by
            rw [h2, hst1]
          have hcf := congrArg (fun l => l.get? st.currentFrame) hfen
          unfold fencesOf at hcf
          simp only [List.get?_map] at hcf
          rw [hfdds]
          have hcflt : st.currentFrame < st.frameDependentData.length := by
            have := List.get?_eq_some.mp h0
            exact this.1
          have h0' : st.frameDependentData.get? st.currentFrame =
              some fdd0 := h0
          have hstw : stw.frameDependentData.get? st.currentFrame =
              some { fdd0 with inFlightFence := FenceState.signaled } := by
            rw [hwEq]
            unfold setFence modifyFDD
            dsimp only
            rw [listModify_get_self, h0']
            rfl
          rw [hstw] at hcf
          exact hcf
        · intro a ha
          rw [heff.2.2] at ha
          obtain ⟨b, -, hb⟩ := List.mem_map.mp ha
          rw [← hb]

/-- A frame input whose acquire reports an out-of-date swapchain. -/
def inpOOD : FrameInput :=
  ⟨AcquireRes.outOfDate, 0, true, PresentRes.success, 3, fun _ => 1,
   fun _ => 0⟩

theorem claim_C10_witness :
    inpOOD.acquire = AcquireRes.outOfDate ∧
      ((draw inpOOD soloDrawState).map fun r =>
        ((r.1.frameDependentData.get? 0).map (·.inFlightFence),
         r.1.assetResources.map (fun a => a.shouldDraw),
         r.1.currentFrame,
         r.2.filter isFrameSubmissionEvent)) =
        some (some FenceState.signaled, [false], 1, []) := by
  refine ⟨rfl, ?_⟩
  cases hdraw : draw inpOOD soloDrawState with
  | none => exact absurd hdraw (by decide)
  | some r =>
    obtain ⟨hevOk, hfen, hflags, hcf⟩ := claim_C10_out_of_date_skips_frame
      inpOOD soloDrawState r.1 r.2 rfl (by rw [hdraw])
    have heff := draw_frame_effect inpOOD soloDrawState r.1 r.2
      (by rw [hdraw])
    show some ((r.1.frameDependentData.get? 0).map (·.inFlightFence),
      r.1.assetResources.map (fun a => a.shouldDraw),
      r.1.currentFrame, r.2.filter isFrameSubmissionEvent) = _
    have hflagsList : r.1.assetResources.map (fun a => a.shouldDraw) =
        [false] := by
      rw [heff.2.2]
      rfl
    have hfilter : r.2.filter isFrameSubmissionEvent = [] := by
      rw [List.filter_eq_nil]
      intro e he
      rw [hevOk e he]
      simp
    rw [hflagsList, hfilter, hcf]
    have : (r.1.frameDependentData.get? 0).map (·.inFlightFence) =
        some FenceState.signaled := hfen
    rw [this]
    rfl

/-! ## C7: camera updates touch only the current frame slot -/

/-- The descriptor-data entry of `u` in the current frame slot. -/
def currentSlotFind (st : RendererState) (u : UUID) :
    Option AssetDescriptorData :=
  (st.frameDependentData.get? st.currentFrame).bind fun fdd =>
    mapFind fdd.assetDescriptorDataMap u

/-- Effect of one iteration of the `UpdateCameraData` loop (lines
489-493): the pair `UpdateCameraDataUniformBuffers` +
`UpdateCameraDataDescriptorSet` for one asset, on the current slot. -/
theorem cameraStep_effect (pos : Vec3) (vm : Mat4) (u : UUID)
    (s s1 : RendererState) (r2 : RendererState × List REvent)
    (h1 : updateCameraDataUniformBuffers u s.currentFrame pos vm s = some s1)
    (h2 : updateCameraDataDescriptorSet u s1.currentFrame s1 = some r2) :
    r2.1.currentFrame = s.currentFrame ∧
      (∀ j, j ≠ s.currentFrame →
        r2.1.frameDependentData.get? j = s.frameDependentData.get? j) ∧
      (∀ v, v ≠ u → currentSlotFind r2.1 v = currentSlotFind s v) ∧
      (∀ add, currentSlotFind s u = some add →
        ∃ add2, currentSlotFind r2.1 u = some add2 ∧
          add2.viewUBO = some vm ∧
          add2.cameraDataUBO = some ⟨pos, 1, 1⟩ ∧
          add2.transformUBO = add.transformUBO ∧
          add2.projUBO = add.projUBO ∧
          (∀ ds, add.descriptorSets.get? 2 = some ds → ds.created = true →
            ∃ ds2, add2.descriptorSets.get? 2 = some ds2 ∧
              ds2.writes = ds.writes ++ [DescWrite.cameraDataWrite])) := by
  unfold updateCameraDataUniformBuffers at h1
  by_cases hcf : s.currentFrame < getFDDSize s
  case neg => rw [if_neg hcf] at h1; exact absurd h1 (by simp)
  rw [if_pos hcf] at h1
  simp only [Option.some.injEq] at h1
  have hcf' : s.currentFrame < s.frameDependentData.length := hcf
  obtain ⟨fdd0, hget0⟩ : ∃ fdd0,
      s.frameDependentData.get? s.currentFrame = some fdd0 :=
    ⟨_, List.get?_eq_get hcf'⟩
  set F1 : AssetDescriptorData → AssetDescriptorData := fun add =>
    { add with viewUBO := some vm, cameraDataUBO := some ⟨pos, 1, 1⟩ }
    with hF1
  set m1 := mapBracketModify fdd0.assetDescriptorDataMap u
    emptyAssetDescriptorData F1 with hm1
  have hs1 : s1 = modifyFDD s s.currentFrame fun fdd =>
      { fdd with
        assetDescriptorDataMap :=
          mapBracketModify fdd.assetDescriptorDataMap u
            emptyAssetDescriptorData F1 } := h1.symm
  have hs1cf : s1.currentFrame = s.currentFrame := by rw [hs1]; rfl
  have hs1len : s1.frameDependentData.length =
      s.frameDependentData.length := by
    rw [hs1]
    exact listModify_length _ _ _
  have hget1 : s1.frameDependentData.get? s.currentFrame =
      some { fdd0 with assetDescriptorDataMap := m1 } := by
    rw [hs1]
    unfold modifyFDD
    dsimp only
    rw [listModify_get_self, hget0]
    rfl
  have hs1ne : ∀ j, j ≠ s.currentFrame →
      s1.frameDependentData.get? j = s.frameDependentData.get? j := by
    intro j hj
    rw [hs1]
    unfold modifyFDD
    dsimp only
    exact listModify_get_ne _ _ _ j hj
  -- the second update: the entry for u is present in m1
  unfold updateCameraDataDescriptorSet updateDescriptorSetAt at h2
  rw [hs1cf] at h2
  by_cases hcf1 : s.currentFrame < getFDDSize s1
  case neg =>
    rw [dif_neg hcf1] at h2
    exact absurd h2 (by simp)
  rw [dif_pos hcf1] at h2
  dsimp only at h2
  have hgetel : s1.frameDependentData.get ⟨s.currentFrame, hcf1⟩ =
      { fdd0 with assetDescriptorDataMap := m1 } := by
    have := List.get?_eq_get (l := s1.frameDependentData) hcf1
    rw [this] at hget1
    exact Option.some.inj hget1
  -- the entry found by operator[]
  obtain ⟨entry1, hentry1⟩ : ∃ e, mapFind m1 u = some e := by
    have := mapBracketModify_find_isSome fdd0.assetDescriptorDataMap u
      emptyAssetDescriptorData F1
    rw [← hm1] at this
    cases he : mapFind m1 u with
    | none => rw [he] at this; simp at this
    | some e => exact ⟨e, rfl⟩
  have hpr : mapBracketGet
      (s1.frameDependentData.get
        ⟨s.currentFrame, hcf1⟩).assetDescriptorDataMap u
      emptyAssetDescriptorData = (m1, entry1) := by
    rw [hgetel]
    exact mapBracketGet_present m1 u emptyAssetDescriptorData entry1 hentry1
  rw [hpr] at h2
  dsimp only at h2
  split at h2
  · exact absurd h2 (by simp)
  · rename_i ds2 hds2
    split at h2
    · exact absurd h2 (by simp)
    · rename_i rr hrr
      simp only [Option.some.injEq] at h2
      set F2 : AssetDescriptorData → AssetDescriptorData := fun add2 =>
        { add2 with
          descriptorSets := listModify add2.descriptorSets 2 fun _ => rr.1 }
        with hF2
      have hr2 : r2.1 = modifyFDD s1 s.currentFrame fun fdd2 =>
          { fdd2 with
            assetDescriptorDataMap :=
              mapBracketModify m1 u emptyAssetDescriptorData F2 } :=
        (congrArg (fun q => q.1) h2).symm
      have hr2cf : r2.1.currentFrame = s.currentFrame := by
        rw [hr2]
        exact hs1cf
      have hget2 : r2.1.frameDependentData.get? s.currentFrame =
          some { fdd0 with
            assetDescriptorDataMap :=
              mapBracketModify m1 u emptyAssetDescriptorData F2 } := by
        rw [hr2]
        unfold modifyFDD
        dsimp only
        rw [listModify_get_self, hget1]
        rfl
      have hm2find : ∀ v, v ≠ u →
          mapFind (mapBracketModify m1 u emptyAssetDescriptorData F2) v =
            mapFind fdd0.assetDescriptorDataMap v := by
        intro v hv
        rw [mapBracketModify_find_other m1 u v _ F2 hv, hm1]
        exact mapBracketModify_find_other _ u v _ F1 hv
      refine ⟨hr2cf, ?_, ?_, ?_⟩
      · intro j hj
        rw [hr2]
        unfold modifyFDD
        dsimp only
        rw [listModify_get_ne _ _ _ j hj]
        exact hs1ne j hj
      · intro v hv
        unfold currentSlotFind
        rw [hr2cf, hget2, hget0]
        dsimp only [Option.some_bind]
        exact hm2find v hv
      · intro add hadd
        unfold currentSlotFind at hadd
        rw [hget0] at hadd
        dsimp only [Option.some_bind] at hadd
        have hentry1eq : entry1 = F1 add := by
          have := mapBracketModify_find_self_present
            fdd0.assetDescriptorDataMap u emptyAssetDescriptorData add F1
            hadd
          rw [← hm1] at this
          rw [hentry1] at this
          exact Option.some.inj this
        have hfinal : mapFind
            (mapBracketModify m1 u emptyAssetDescriptorData F2) u =
            some (F2 entry1) :=
          mapBracketModify_find_self_present m1 u emptyAssetDescriptorData
            entry1 F2 hentry1
        refine ⟨F2 entry1, ?_, ?_, ?_, ?_, ?_, ?_⟩
        · unfold currentSlotFind
          rw [hr2cf, hget2]
          dsimp only [Option.some_bind]
          exact hfinal
        · rw [hentry1eq]
        · rw [hentry1eq]
        · rw [hentry1eq]
        · rw [hentry1eq]
        · intro ds hds hcreated
          have hds2eq : ds2 = ds := by
            have : entry1.descriptorSets.get? 2 = some ds := by
              rw [hentry1eq]
              exact hds
            rw [this] at hds2
            exact Option.some.inj hds2.symm
          have hrr1 : rr.1 =
              ⟨true, ds.writes ++ [DescWrite.cameraDataWrite]⟩ := by
            unfold descriptorSetUpdate at hrr
            rw [hds2eq, hcreated] at hrr
            simp at hrr
            exact (congrArg (fun q => q.1) hrr).symm
          refine ⟨rr.1, ?_, by rw [hrr1]⟩
          show (F2 entry1).descriptorSets.get? 2 = some rr.1
          rw [hF2]
          dsimp only
          rw [listModify_get_self]
          rw [hentry1eq]
          show (add.descriptorSets.get? 2).map (fun _ => rr.1) = some rr.1
          rw [hds]
          rfl

theorem mapFind_some_mem_keys {β : Type _} (m : List (UUID × β)) (u : UUID)
    (v : β) (h : mapFind m u = some v) : u ∈ m.map (·.1) := by
  induction m with
  | nil => simp [mapFind] at h
  | cons p rest ih =>
    by_cases hp : p.1 = u
    · simp [hp]
    · simp only [mapFind, hp, if_false] at h
      simp only [List.map_cons, List.mem_cons]
      exact Or.inr (ih h)

theorem cameraFold_effect (pos : Vec3) (vm : Mat4) :
    ∀ (keys : List UUID) (s : RendererState) (evq : List REvent)
      (r : RendererState × List REvent),
      List.foldlM (fun p u => do
          let st1 ← updateCameraDataUniformBuffers u p.1.currentFrame pos
            vm p.1
          let r2 ← updateCameraDataDescriptorSet u st1.currentFrame st1
          return (r2.1, p.2 ++ r2.2)) (s, evq) keys = some r →
      keys.Nodup →
      r.1.currentFrame = s.currentFrame ∧
        (∀ j, j ≠ s.currentFrame →
          r.1.frameDependentData.get? j = s.frameDependentData.get? j) ∧
        (∀ v, v ∉ keys → currentSlotFind r.1 v = currentSlotFind s v) ∧
        (∀ u ∈ keys, ∀ add, currentSlotFind s u = some add →
          ∃ add2, currentSlotFind r.1 u = some add2 ∧
            add2.viewUBO = some vm ∧
            add2.cameraDataUBO = some ⟨pos, 1, 1⟩ ∧
            (∀ ds, add.descriptorSets.get? 2 = some ds →
              ds.created = true →
              ∃ ds2, add2.descriptorSets.get? 2 = some ds2 ∧
                ds2.writes = ds.writes ++ [DescWrite.cameraDataWrite])) := by
  intro keys
  induction keys with
  | nil =>
    intro s evq r h hnd
    simp only [List.foldlM_nil] at h
    have heq := optionPureEq h
    rw [show r.1 = s from congrArg (fun q => q.1) heq.symm]
    exact ⟨rfl, fun j _ => rfl, fun v _ => rfl, fun u hu => by simp at hu⟩
  | cons u keys' ih =>
    intro s evq r h hnd
    simp only [List.foldlM_cons] at h
    have hndu : u ∉ keys' := (List.nodup_cons.mp hnd).1
    have hnd' : keys'.Nodup := (List.nodup_cons.mp hnd).2
    cases h1 : updateCameraDataUniformBuffers u s.currentFrame pos vm s with
    | none => rw [h1] at h; exact absurd h (by simp)
    | some s1 =>
      rw [h1] at h
      simp only [Option.bind_eq_bind, Option.some_bind] at h
      cases h2 : updateCameraDataDescriptorSet u s1.currentFrame s1 with
      | none => rw [h2] at h; exact absurd h (by simp)
      | some r2 =>
        rw [h2] at h
        simp only [Option.some_bind] at h
        obtain ⟨scf, sslots, sother, sproc⟩ :=
          cameraStep_effect pos vm u s s1 r2 h1 h2
        have hrest := ih r2.1 (evq ++ r2.2) r (by
          have : (fun p (u : UUID) => do
              let st1 ← updateCameraDataUniformBuffers u
                (p : RendererState × List REvent).1.currentFrame pos vm p.1
              let r2 ← updateCameraDataDescriptorSet u st1.currentFrame st1
              return (r2.1, p.2 ++ r2.2)) = (fun p u => do
              let st1 ← updateCameraDataUniformBuffers u p.1.currentFrame
                pos vm p.1
              let r2 ← updateCameraDataDescriptorSet u st1.currentFrame st1
              return (r2.1, p.2 ++ r2.2)) := rfl
          simpa using h) hnd'
        obtain ⟨tcf, tslots, tother, tproc⟩ := hrest
        refine ⟨tcf.trans scf, ?_, ?_, ?_⟩
        · intro j hj
          rw [tslots j (by rw [scf]; exact hj)]
          exact sslots j hj
        · intro v hv
          have hvne : v ≠ u := fun hq => hv (hq ▸ List.mem_cons_self u keys')
          have hvnin : v ∉ keys' := fun hq => hv (List.mem_cons_of_mem u hq)
          rw [tother v hvnin]
          exact sother v hvne
        · intro u0 hu0 add hadd
          rcases List.mem_cons.mp hu0 with hq | hq
          · subst hq
            obtain ⟨add2, hfind2, hview, hcam, -, -, hdsp⟩ := sproc add hadd
            have hkeep := tother u0 hndu
            refine ⟨add2, ?_, hview, hcam, hdsp⟩
            rw [hkeep]
            exact hfind2
          · have hne : u0 ≠ u := fun he => hndu (he ▸ hq)
            have hsame := sother u0 hne
            exact tproc u0 hq add (by rw [hsame]; exact hadd)

/-- C7: `UpdateCameraData(position, viewMatrix)` writes the view-matrix
and camera-position/exposure uniform buffers, and flushes the camera-data
descriptor write, for every currently-registered asset — but only in the
current frame slot: every frame slot other than `currentFrame` is left
entirely unchanged (all its uniform buffers and descriptor sets
included), and the slot index itself does not move. -/
theorem claim_C7_camera_update_current_slot_only (pos : Vec3) (vm : Mat4)
    (st st' : RendererState) (ev : List REvent) (fdd : FrameDependentData)
    (hfdd : getCurrentFDD st = some fdd)
    (hnodup : (fdd.assetDescriptorDataMap.map (·.1)).Nodup)
    (h : updateCameraData pos vm st = some (st', ev)) :
    st'.currentFrame = st.currentFrame ∧
      (∀ j, j ≠ st.currentFrame →
        st'.frameDependentData.get? j = st.frameDependentData.get? j) ∧
      (∀ a ∈ st.assetResources, ∀ add,
        mapFind fdd.assetDescriptorDataMap a.uuid = some add →
        ∃ add2, currentSlotFind st' a.uuid = some add2 ∧
          add2.viewUBO = some vm ∧
          add2.cameraDataUBO = some ⟨pos, 1, 1⟩ ∧
          (∀ ds, add.descriptorSets.get? 2 = some ds → ds.created = true →
            ∃ ds2, add2.descriptorSets.get? 2 = some ds2 ∧
              ds2.writes = ds.writes ++ [DescWrite.cameraDataWrite])) := by
  unfold updateCameraData at h
  rw [hfdd] at h
  simp only [Option.bind_eq_bind, Option.some_bind] at h
  have hfold := cameraFold_effect pos vm
    (fdd.assetDescriptorDataMap.map (·.1)) st [] (st', ev) (by simpa using h)
    hnodup
  obtain ⟨hcf, hslots, -, hproc⟩ := hfold
  refine ⟨hcf, hslots, ?_⟩
  intro a ha add hadd
  have hmem : a.uuid ∈ fdd.assetDescriptorDataMap.map (·.1) :=
    mapFind_some_mem_keys _ a.uuid add hadd
  exact hproc a.uuid hmem add (by
    unfold currentSlotFind
    rw [show st.frameDependentData.get? st.currentFrame = some fdd from hfdd]
    exact hadd)

theorem claim_C7_witness :
    getCurrentFDD soloState = some soloFDD ∧
      (soloFDD.assetDescriptorDataMap.map (·.1)).Nodup ∧
      ((updateCameraData ⟨1, 2, 3⟩ (glmTranslate ⟨4, 5, 6⟩) soloState).map
        (fun r =>
          (r.1.currentFrame,
           decide (r.1.frameDependentData.get? 1 =
             soloState.frameDependentData.get? 1),
           decide ((currentSlotFind r.1 1).map (·.viewUBO) =
             some (some (glmTranslate ⟨4, 5, 6⟩))),
           decide ((currentSlotFind r.1 1).map (·.cameraDataUBO) =
             some (some ⟨⟨1, 2, 3⟩, 1, 1⟩))))) =
        some (0, true, true, true) := by
  refine ⟨rfl, by decide, ?_⟩
  cases hupd : updateCameraData ⟨1, 2, 3⟩ (glmTranslate ⟨4, 5, 6⟩)
      soloState with
  | none => exact absurd hupd (by decide)
  | some r =>
    obtain ⟨hcf, hslots, hassets⟩ := claim_C7_camera_update_current_slot_only
      ⟨1, 2, 3⟩ (glmTranslate ⟨4, 5, 6⟩) soloState r.1 r.2 soloFDD rfl
      (by decide) (by rw [hupd])
    obtain ⟨add2, hfind, hview, hcam, -⟩ := hassets
      ⟨1, false, defaultTransform, 6⟩ (by decide) soloADD (by decide)
    have c1 : r.1.currentFrame = 0 := hcf
    have c2 : r.1.frameDependentData.get? 1 =
        soloState.frameDependentData.get? 1 := hslots 1 (by decide)
    have c3 : (currentSlotFind r.1 1).map (·.viewUBO) =
        some (some (glmTranslate ⟨4, 5, 6⟩)) := by
      rw [hfind]
      show some add2.viewUBO = some (some (glmTranslate ⟨4, 5, 6⟩))
      rw [hview]
    have c4 : (currentSlotFind r.1 1).map (·.cameraDataUBO) =
        some (some ⟨⟨1, 2, 3⟩, 1, 1⟩) := by
      rw [hfind]
      show some add2.cameraDataUBO = some (some ⟨⟨1, 2, 3⟩, 1, 1⟩)
      rw [hcam]
    show some (r.1.currentFrame,
      decide (r.1.frameDependentData.get? 1 =
        soloState.frameDependentData.get? 1),
      decide ((currentSlotFind r.1 1).map (·.viewUBO) =
        some (some (glmTranslate ⟨4, 5, 6⟩))),
      decide ((currentSlotFind r.1 1).map (·.cameraDataUBO) =
        some (some ⟨⟨1, 2, 3⟩, 1, 1⟩))) = some (0, true, true, true)
    rw [c1, decide_eq_true c2, decide_eq_true c3, decide_eq_true c4]

/-! ## C8: the swapchain recreation sequence -/

/-- Preconditions under which the post-cleanup rebuild cannot fail: the
slot index is in range and every swapchain-image slot has a secondary
command buffer entry for every registered asset. -/
def recreateReady (st : RendererState) : Prop :=
  st.currentFrame < st.frameDependentData.length ∧
    ∀ swidd ∈ st.swapChainImageDependentData, ∀ a ∈ st.assetResources,
      (mapFind swidd.secondaryCommandBuffer a.uuid).isSome

theorem recordSecondary_run (u : UUID) (i : Nat) (s : RendererState)
    (hcf : s.currentFrame < getFDDSize s) (hi : i < getSWIDDSize s) :
    recordSecondaryCommandBuffer u i s = some
      (modifySWIDD (modifyFDD s s.currentFrame fun fdd =>
          { fdd with
            assetDescriptorDataMap :=
              mapBracketModify fdd.assetDescriptorDataMap u
                emptyAssetDescriptorData id })
        i fun swidd =>
          { swidd with
            secondaryCommandBuffer :=
              swidd.secondaryCommandBuffer.map fun p =>
                if p.1 = u then (p.1, ⟨some (u, i)⟩) else p },
       [REvent.recordSecondary i u]) := by
  unfold recordSecondaryCommandBuffer
  rw [if_pos hcf, if_pos hi]

theorem mapFind_recordMark_self (m : List (UUID × SecondaryCB)) (u : UUID)
    (i : Nat) (h : (mapFind m u).isSome) :
    mapFind (m.map fun p => if p.1 = u then (p.1, ⟨some (u, i)⟩) else p) u =
      some ⟨some (u, i)⟩ := by
  have : (m.map fun p => if p.1 = u then (p.1, ⟨some (u, i)⟩) else p) =
      mapAdjust m u (fun _ => ⟨some (u, i)⟩) := by
    unfold mapAdjust
    rfl
  rw [this, mapFind_adjust_self]
  cases hm : mapFind m u with
  | none => rw [hm] at h; simp at h
  | some v => rfl

theorem mapFind_recordMark_other (m : List (UUID × SecondaryCB)) (u v : UUID)
    (i : Nat) (hv : v ≠ u) :
    mapFind (m.map fun p => if p.1 = u then (p.1, ⟨some (u, i)⟩) else p) v =
      mapFind m v := by
  have : (m.map fun p => if p.1 = u then (p.1, ⟨some (u, i)⟩) else p) =
      mapAdjust m u (fun _ => ⟨some (u, i)⟩) := by
    unfold mapAdjust
    rfl
  rw [this]
  exact mapFind_adjust_other m u v _ hv

/-- The secondary-command-buffer entry of `v` at swapchain-image slot `i`. -/
def swiddSlotFind (st : RendererState) (i : Nat) (v : UUID) :
    Option SecondaryCB :=
  (st.swapChainImageDependentData.get? i).bind fun sw =>
    mapFind sw.secondaryCommandBuffer v

theorem recreateSecondaryFor_run (i : Nat) (a : AssetResources)
    (s : RendererState) (ev : List REvent) (hready : recreateReady s)
    (hi : i < s.swapChainImageDependentData.length)
    (ha : a ∈ s.assetResources) :
    ∃ s2, recreateSecondaryFor i a s ev = some (s2,
        ev ++ [REvent.createSecondary i a.uuid,
               REvent.recordSecondary i a.uuid]) ∧
      recreateReady s2 ∧
      s2.currentFrame = s.currentFrame ∧
      s2.frameDependentData.length = s.frameDependentData.length ∧
      s2.assetResources = s.assetResources ∧
      s2.swapChainImageDependentData.length =
        s.swapChainImageDependentData.length ∧
      (∀ j, j ≠ i → s2.swapChainImageDependentData.get? j =
        s.swapChainImageDependentData.get? j) ∧
      (∀ v, swiddSlotFind s2 i v =
        if v = a.uuid then some ⟨some (a.uuid, i)⟩
        else swiddSlotFind s i v) := by
  obtain ⟨swidd0, hsw0⟩ : ∃ sw,
      s.swapChainImageDependentData.get? i = some sw :=
    ⟨_, List.get?_eq_get hi⟩
  have hfind0 : (mapFind swidd0.secondaryCommandBuffer a.uuid).isSome :=
    hready.2 swidd0 (List.get?_mem hsw0) a ha
  obtain ⟨sb0, hsb0⟩ : ∃ sb,
      mapFind swidd0.secondaryCommandBuffer a.uuid = some sb := by
    cases hm : mapFind swidd0.secondaryCommandBuffer a.uuid with
    | none => rw [hm] at hfind0; simp at hfind0
    | some sb => exact ⟨sb, rfl⟩
  have hgetsw : getSWIDDAtIndex s i = some swidd0 := by
    unfold getSWIDDAtIndex
    rw [if_pos hi]
    exact hsw0
  have hrun := recordSecondary_run a.uuid i s hready.1 hi
  have heq : recreateSecondaryFor i a s ev =
      some (modifySWIDD (modifyFDD s s.currentFrame fun fdd =>
          { fdd with
            assetDescriptorDataMap :=
              mapBracketModify fdd.assetDescriptorDataMap a.uuid
                emptyAssetDescriptorData id })
        i fun swidd =>
          { swidd with
            secondaryCommandBuffer :=
              swidd.secondaryCommandBuffer.map fun p =>
                if p.1 = a.uuid then (p.1, ⟨some (a.uuid, i)⟩) else p },
       ev ++ [REvent.createSecondary i a.uuid,
              REvent.recordSecondary i a.uuid]) := by
    unfold recreateSecondaryFor
    rw [hgetsw]
    simp only [Option.bind_eq_bind, Option.some_bind]
    rw [hsb0]
    simp only [Option.some_bind]
    rw [hrun]
    simp only [Option.some_bind]
    rw [List.append_assoc]
    rfl
  refine ⟨_, heq, ?_, ?_, ?_, ?_, ?_, ?_, ?_⟩
  · -- recreateReady for the successor state
    refine ⟨?_, ?_⟩
    · show s.currentFrame < (listModify s.frameDependentData s.currentFrame _).length
      rw [listModify_length]
      exact hready.1
    · intro sw hsw b hb
      refine @listModify_forall _
        (fun sw => ∀ b ∈ s.assetResources,
          (mapFind sw.secondaryCommandBuffer b.uuid).isSome = true)
        s.swapChainImageDependentData i _ hready.2 ?_ sw hsw b hb
      intro sw0 hsw0 b0 hb0
      have hswmem : sw0 ∈ s.swapChainImageDependentData := List.get?_mem hsw0
      have hpre := hready.2 sw0 hswmem b0 hb0
      dsimp only
      cases hmv : mapFind sw0.secondaryCommandBuffer b0.uuid with
      | none => rw [hmv] at hpre; simp at hpre
      | some sbv =>
        by_cases hbu : b0.uuid = a.uuid
        · rw [hbu,
            mapFind_recordMark_self _ a.uuid i (by rw [← hbu, hmv]; rfl)]
          rfl
        · rw [mapFind_recordMark_other _ a.uuid b0.uuid i hbu, hmv]
          rfl
  · rfl
  · show (listModify _ _ _).length = s.frameDependentData.length
    exact listModify_length _ _ _
  · show s.assetResources = s.assetResources
    rfl
  · show (listModify _ _ _).length = s.swapChainImageDependentData.length
    exact listModify_length _ _ _
  · intro j hj
    show (listModify _ _ _).get? j = s.swapChainImageDependentData.get? j
    exact listModify_get_ne _ _ _ j hj
  · intro v
    unfold swiddSlotFind
    show ((listModify s.swapChainImageDependentData i _).get? i).bind _ = _
    rw [listModify_get_self, hsw0]
    by_cases hv : v = a.uuid
    · rw [if_pos hv, hv]
      show mapFind (swidd0.secondaryCommandBuffer.map fun p =>
          if p.1 = a.uuid then (p.1, ⟨some (a.uuid, i)⟩) else p) a.uuid =
        some ⟨some (a.uuid, i)⟩
      exact mapFind_recordMark_self _ a.uuid i (by rw [hsb0]; rfl)
    · rw [if_neg hv]
      show mapFind (swidd0.secondaryCommandBuffer.map fun p =>
          if p.1 = a.uuid then (p.1, ⟨some (a.uuid, i)⟩) else p) v =
        mapFind swidd0.secondaryCommandBuffer v
      exact mapFind_recordMark_other _ a.uuid v i hv

theorem recreateSecondaryFold_run (i : Nat) (as : List AssetResources)
    (s : RendererState) (ev : List REvent) (hready : recreateReady s)
    (hi : i < s.swapChainImageDependentData.length)
    (hsub : ∀ a ∈ as, a ∈ s.assetResources) :
    ∃ s2, as.foldlM
        (fun q a => recreateSecondaryFor i a q.1 q.2) (s, ev) = some (s2,
          ev ++ as.flatMap fun a =>
            [REvent.createSecondary i a.uuid,
             REvent.recordSecondary i a.uuid]) ∧
      recreateReady s2 ∧
      s2.currentFrame = s.currentFrame ∧
      s2.frameDependentData.length = s.frameDependentData.length ∧
      s2.assetResources = s.assetResources ∧
      s2.swapChainImageDependentData.length =
        s.swapChainImageDependentData.length ∧
      (∀ j, j ≠ i → s2.swapChainImageDependentData.get? j =
        s.swapChainImageDependentData.get? j) ∧
      (∀ v, swiddSlotFind s2 i v =
        if v ∈ as.map (fun a => a.uuid) then some ⟨some (v, i)⟩
        else swiddSlotFind s i v) := by
  induction as generalizing s ev with
  | nil =>
    refine ⟨s, ?_, hready, rfl, rfl, rfl, rfl, fun _ _ => rfl, ?_⟩
    · rw [List.flatMap_nil, List.append_nil]
      rfl
    · intro v
      rw [if_neg (by simp)]
  | cons a as ih =>
    obtain ⟨s1, hstep, hready1, hcf1, hfl1, har1, hsl1, hoth1, hmark1⟩ :=
      recreateSecondaryFor_run i a s ev hready hi
        (hsub a (List.mem_cons_self a as))
    obtain ⟨s2, hfold, hready2, hcf2, hfl2, har2, hsl2, hoth2, hmark2⟩ :=
      ih s1 (ev ++ [REvent.createSecondary i a.uuid,
                    REvent.recordSecondary i a.uuid])
        hready1 (hsl1 ▸ hi)
        (fun b hb => har1 ▸ hsub b (List.mem_cons_of_mem a hb))
    refine ⟨s2, ?_, hready2, hcf2.trans hcf1, hfl2.trans hfl1,
      har2.trans har1, hsl2.trans hsl1, ?_, ?_⟩
    · rw [List.foldlM_cons, hstep]
      simp only [Option.bind_eq_bind, Option.some_bind]
      rw [hfold, List.flatMap_cons, ← List.append_assoc]
    · intro j hj
      rw [hoth2 j hj, hoth1 j hj]
    · intro v
      rw [hmark2 v]
      by_cases hmem : v ∈ as.map (fun a => a.uuid)
      · rw [if_pos hmem,
          if_pos (by rw [List.map_cons]; exact List.mem_cons_of_mem _ hmem)]
      · rw [if_neg hmem, hmark1 v]
        by_cases hva : v = a.uuid
        · rw [if_pos hva,
            if_pos (by rw [List.map_cons, hva]; exact List.mem_cons_self _ _)]
          rw [hva]
        · rw [if_neg hva, if_neg (by
            rw [List.map_cons]
            intro hc
            rcases List.mem_cons.mp hc with h | h
            · exact hva h
            · exact hmem h)]

theorem swiddSlotFind_congr (s2 s1 : RendererState) (j : Nat)
    (h : s2.swapChainImageDependentData.get? j =
      s1.swapChainImageDependentData.get? j) (v : UUID) :
    swiddSlotFind s2 j v = swiddSlotFind s1 j v := by
  unfold swiddSlotFind
  rw [h]

theorem recreateSlotsFold_run (js : List Nat) (s : RendererState)
    (ev : List REvent) (hready : recreateReady s)
    (hjs : ∀ j ∈ js, j < s.swapChainImageDependentData.length) :
    ∃ s2, js.foldlM
        (fun p i => p.1.assetResources.foldlM
          (fun q a => recreateSecondaryFor i a q.1 q.2) p) (s, ev) =
        some (s2,
          ev ++ js.flatMap fun i => s.assetResources.flatMap fun a =>
            [REvent.createSecondary i a.uuid,
             REvent.recordSecondary i a.uuid]) ∧
      recreateReady s2 ∧
      s2.currentFrame = s.currentFrame ∧
      s2.frameDependentData.length = s.frameDependentData.length ∧
      s2.assetResources = s.assetResources ∧
      s2.swapChainImageDependentData.length =
        s.swapChainImageDependentData.length ∧
      (∀ j, j ∉ js → s2.swapChainImageDependentData.get? j =
        s.swapChainImageDependentData.get? j) ∧
      (∀ j ∈ js, ∀ v, v ∈ s.assetResources.map (fun a => a.uuid) →
        swiddSlotFind s2 j v = some ⟨some (v, j)⟩) := by
  induction js generalizing s ev with
  | nil =>
    refine ⟨s, ?_, hready, rfl, rfl, rfl, rfl, fun _ _ => rfl,
      fun j hj => absurd hj (List.not_mem_nil j)⟩
    rw [List.flatMap_nil, List.append_nil]
    rfl
  | cons i js ih =>
    have hi : i < s.swapChainImageDependentData.length :=
      hjs i (List.mem_cons_self i js)
    obtain ⟨s1, hstep, hready1, hcf1, hfl1, har1, hsl1, hoth1, hmark1⟩ :=
      recreateSecondaryFold_run i s.assetResources s ev hready hi
        (fun _ ha => ha)
    obtain ⟨s2, hfold, hready2, hcf2, hfl2, har2, hsl2, hoth2, hmark2⟩ :=
      ih s1 (ev ++ s.assetResources.flatMap fun a =>
          [REvent.createSecondary i a.uuid,
           REvent.recordSecondary i a.uuid])
        hready1
        (fun j hj => hsl1 ▸ hjs j (List.mem_cons_of_mem i hj))
    rw [har1] at hfold hmark2
    refine ⟨s2, ?_, hready2, hcf2.trans hcf1, hfl2.trans hfl1,
      har2.trans har1, hsl2.trans hsl1, ?_, ?_⟩
    · rw [List.foldlM_cons]
      dsimp only
      rw [hstep]
      simp only [Option.bind_eq_bind, Option.some_bind]
      rw [hfold, List.flatMap_cons, ← List.append_assoc]
    · intro j hj
      rw [hoth2 j (fun h => hj (List.mem_cons_of_mem i h)),
        hoth1 j (fun h => hj (h ▸ List.mem_cons_self i js))]
    · intro j hj v hv
      rcases List.mem_cons.mp hj with hji | hjs'
      · by_cases hin : i ∈ js
        · exact hji ▸ hmark2 i hin v hv
        · rw [hji, swiddSlotFind_congr s2 s1 i (hoth2 i hin) v, hmark1 v,
            if_pos hv]
      · exact hmark2 j hjs' v hv

theorem resizeSWIDD_length (l : List SwapChainImageDependentData) (n : Nat) :
    (resizeSWIDD l n).length = n := by
  unfold resizeSWIDD
  rw [List.length_append, List.length_take, List.length_replicate]
  omega

theorem resizeSWIDD_mem (l : List SwapChainImageDependentData) (n : Nat)
    (hn : n ≤ l.length) : ∀ sw ∈ resizeSWIDD l n, sw ∈ l := by
  intro sw hsw
  unfold resizeSWIDD at hsw
  rw [Nat.sub_eq_zero_of_le hn, List.replicate_zero, List.append_nil] at hsw
  exact List.take_subset n l hsw

/-- C8: a swapchain recreation with a driver-chosen image count `n` not
exceeding the current slot count (so that every retained slot still holds
a secondary-command-buffer entry for every registered asset, as the `at`
lookup in `RecreateAllSecondaryCommandBuffers` requires) performs, in this
order: one device-idle wait; the destruction of the color attachment, the
depth buffer, every framebuffer, every swapchain image view, every slot's
secondary command buffers and the swapchain handle; the recreation of the
swapchain handle, color attachment, depth texture and the `n`
framebuffers; and then, for every swapchain-image slot and every
currently registered asset, the re-creation and re-recording of that
asset's secondary command buffer — after which every (slot, asset) pair
carries a fresh recording for its own slot.  The rebuild is total: the
whole trace of `RecreateSwapChain` is exactly this sequence, with no
shorter or incremental path. -/
theorem claim_C8_recreate_full_rebuild (n : Nat) (st : RendererState)
    (hready : recreateReady st)
    (hn : n ≤ st.swapChainImageDependentData.length) :
    ∃ st', recreateSwapChain n st = some (st',
        REvent.waitDeviceIdle ::
          ([REvent.destroyColorAttachment, REvent.destroyDepthBuffer] ++
            (List.range st.swapChainImageDependentData.length).map
              REvent.destroyFramebuffer ++
            (List.range st.swapChainImageDependentData.length).map
              REvent.destroyImageView ++
            ((List.range st.swapChainImageDependentData.length).flatMap
              fun i =>
                match st.swapChainImageDependentData.get? i with
                | none => []
                | some swidd =>
                  swidd.secondaryCommandBuffer.map fun p =>
                    REvent.destroySecondary i p.1) ++
            [REvent.destroySwapChainHandle]) ++
          ([REvent.createSwapChainHandle, REvent.createColorAttachment,
            REvent.createDepthTexture] ++
            (List.range n).map REvent.createFramebuffer) ++
          ((List.range n).flatMap fun i =>
            st.assetResources.flatMap fun a =>
              [REvent.createSecondary i a.uuid,
               REvent.recordSecondary i a.uuid])) ∧
      st'.swapChainImageDependentData.length = n ∧
      st'.assetResources = st.assetResources ∧
      ∀ j < n, ∀ a ∈ st.assetResources,
        swiddSlotFind st' j a.uuid = some ⟨some (a.uuid, j)⟩ := by
  have hready2 : recreateReady { st with
      swapChainImageDependentData :=
        resizeSWIDD st.swapChainImageDependentData n
      swapChainExtent := (st.framebufferWidth, st.framebufferHeight) } := by
    refine ⟨hready.1, ?_⟩
    intro sw hsw a ha
    exact hready.2 sw
      (resizeSWIDD_mem st.swapChainImageDependentData n hn sw hsw) a ha
  obtain ⟨s2, hfold, hready3, hcf2, hfl2, har2, hsl2, hoth2, hmark2⟩ :=
    recreateSlotsFold_run (List.range n)
      { st with
        swapChainImageDependentData :=
          resizeSWIDD st.swapChainImageDependentData n
        swapChainExtent := (st.framebufferWidth, st.framebufferHeight) }
      [] hready2
      (by
        intro j hj
        show j < (resizeSWIDD st.swapChainImageDependentData n).length
        rw [resizeSWIDD_length]
        exact List.mem_range.mp hj)
  rw [List.nil_append] at hfold
  have hall : recreateAllSecondaryCommandBuffers
      { st with
        swapChainImageDependentData :=
          resizeSWIDD st.swapChainImageDependentData n
        swapChainExtent := (st.framebufferWidth, st.framebufferHeight) } =
      some (s2, (List.range n).flatMap fun i =>
        st.assetResources.flatMap fun a =>
          [REvent.createSecondary i a.uuid,
           REvent.recordSecondary i a.uuid]) := by
    unfold recreateAllSecondaryCommandBuffers
    rw [show getSWIDDSize
        { st with
          swapChainImageDependentData :=
            resizeSWIDD st.swapChainImageDependentData n
          swapChainExtent := (st.framebufferWidth, st.framebufferHeight) } =
        n from resizeSWIDD_length st.swapChainImageDependentData n]
    exact hfold
  refine ⟨s2, ?_, ?_, ?_, ?_⟩
  · unfold recreateSwapChain
    dsimp only
    rw [show (cleanupSwapChain st).1 = st from rfl]
    rw [hall]
    simp only [Option.bind_eq_bind, Option.some_bind]
    rfl
  · rw [hsl2]
    exact resizeSWIDD_length st.swapChainImageDependentData n
  · exact har2
  · intro j hj a ha
    exact hmark2 j (List.mem_range.mpr hj) a.uuid
      (List.mem_map_of_mem (fun a => a.uuid) ha)

/-- Witness: the one-asset, three-image state satisfies both hypotheses
of C8, and a recreation that shrinks the swapchain to two images performs
the full wait-destroy-recreate-rerecord sequence. -/
theorem claim_C8_witness :
    recreateReady soloState ∧
    2 ≤ soloState.swapChainImageDependentData.length ∧
    ∃ st', recreateSwapChain 2 soloState = some (st',
        REvent.waitDeviceIdle ::
          ([REvent.destroyColorAttachment, REvent.destroyDepthBuffer] ++
            (List.range soloState.swapChainImageDependentData.length).map
              REvent.destroyFramebuffer ++
            (List.range soloState.swapChainImageDependentData.length).map
              REvent.destroyImageView ++
            ((List.range soloState.swapChainImageDependentData.length).flatMap
              fun i =>
                match soloState.swapChainImageDependentData.get? i with
                | none => []
                | some swidd =>
                  swidd.secondaryCommandBuffer.map fun p =>
                    REvent.destroySecondary i p.1) ++
            [REvent.destroySwapChainHandle]) ++
          ([REvent.createSwapChainHandle, REvent.createColorAttachment,
            REvent.createDepthTexture] ++
            (List.range 2).map REvent.createFramebuffer) ++
          ((List.range 2).flatMap fun i =>
            soloState.assetResources.flatMap fun a =>
              [REvent.createSecondary i a.uuid,
               REvent.recordSecondary i a.uuid])) ∧
      st'.swapChainImageDependentData.length = 2 ∧
      st'.assetResources = soloState.assetResources ∧
      ∀ j < 2, ∀ a ∈ soloState.assetResources,
        swiddSlotFind st' j a.uuid = some ⟨some (a.uuid, j)⟩ :=
  ⟨by unfold recreateReady; decide, by decide,
    claim_C8_recreate_full_rebuild 2 soloState
      (by unfold recreateReady; decide) (by decide)⟩

/-- The transform-UBO content stored for `u` in frame slot `slot`:
`none` when the slot or the entry is missing, `some none` when the entry
exists but its transform UBO was never written. -/
def slotTransformUBO (st : RendererState) (slot : Nat) (u : UUID) :
    Option (Option Mat4) :=
  ((st.frameDependentData.get? slot).bind fun fdd =>
    mapFind fdd.assetDescriptorDataMap u).map fun add => add.transformUBO

theorem slotTransformUBO_modifyFDD_mapEq (st : RendererState) (i : Nat)
    (g : FrameDependentData → FrameDependentData)
    (hg : ∀ fdd, (g fdd).assetDescriptorDataMap = fdd.assetDescriptorDataMap)
    (slot : Nat) (u : UUID) :
    slotTransformUBO (modifyFDD st i g) slot u = slotTransformUBO st slot u := by
  unfold slotTransformUBO
  show (((listModify st.frameDependentData i g).get? slot).bind _).map _ = _
  by_cases hsi : slot = i
  · subst hsi
    rw [listModify_get_self]
    cases hfdd : st.frameDependentData.get? slot with
    | none => rfl
    | some fdd =>
      show (mapFind (g fdd).assetDescriptorDataMap u).map _ =
        (mapFind fdd.assetDescriptorDataMap u).map _
      rw [hg fdd]
  · rw [listModify_get_ne st.frameDependentData i g slot hsi]

theorem updateTransformUBO_slot (fc fs : ℚ → ℚ) (t : Transform) (u : UUID)
    (st : RendererState)
    (hcf : st.currentFrame < st.frameDependentData.length) :
    (updateTransformUniformBuffer fc fs t u st).currentFrame =
      st.currentFrame ∧
    (updateTransformUniformBuffer fc fs t u st).frameDependentData.length =
      st.frameDependentData.length ∧
    (updateTransformUniformBuffer fc fs t u st).assetResources =
      st.assetResources ∧
    (updateTransformUniformBuffer fc fs t u st).resourcesMap =
      st.resourcesMap ∧
    slotTransformUBO (updateTransformUniformBuffer fc fs t u st)
        st.currentFrame u =
      some (some (glmTranslate t.position *
        glmEulerAngleXYZ fc fs t.rotation.x t.rotation.y t.rotation.z *
        glmScale t.scale)) ∧
    (∀ v, v ≠ u →
      slotTransformUBO (updateTransformUniformBuffer fc fs t u st)
        st.currentFrame v = slotTransformUBO st st.currentFrame v) := by
  obtain ⟨fdd, hfdd⟩ : ∃ fdd,
      st.frameDependentData.get? st.currentFrame = some fdd :=
    ⟨_, List.get?_eq_get hcf⟩
  refine ⟨rfl, listModify_length _ _ _, rfl, rfl, ?_, ?_⟩
  · unfold slotTransformUBO updateTransformUniformBuffer
    show (((listModify st.frameDependentData st.currentFrame _).get?
      st.currentFrame).bind _).map _ = _
    rw [listModify_get_self, hfdd]
    simp only [Option.map_some', Option.some_bind]
    cases hm : mapFind fdd.assetDescriptorDataMap u with
    | none =>
      rw [mapBracketModify_find_self_absent fdd.assetDescriptorDataMap u
        emptyAssetDescriptorData _ hm]
      rfl
    | some add0 =>
      rw [mapBracketModify_find_self_present fdd.assetDescriptorDataMap u
        emptyAssetDescriptorData add0 _ hm]
      rfl
  · intro v hv
    unfold slotTransformUBO updateTransformUniformBuffer
    show (((listModify st.frameDependentData st.currentFrame _).get?
      st.currentFrame).bind _).map _ = _
    rw [listModify_get_self, hfdd]
    simp only [Option.map_some', Option.some_bind]
    rw [mapBracketModify_find_other fdd.assetDescriptorDataMap u v
      emptyAssetDescriptorData _ hv]

theorem mapBracketGet_fst_find (m : List (UUID × β)) (k k' : UUID) (d : β)
    (hk : k' ≠ k) :
    mapFind (mapBracketGet m k d).1 k' = mapFind m k' := by
  cases hm : mapFind m k with
  | none =>
    rw [mapBracketGet_absent m k d hm]
    exact mapFind_append_other m k k' d hk
  | some v =>
    rw [mapBracketGet_present m k d v hm]

theorem updateDescriptorSetAt_slotUBO (u : UUID) (si : Nat) (w : DescWrite)
    (st st' : RendererState) (ev : List REvent)
    (h : updateDescriptorSetAt u st.currentFrame si w st = some (st', ev)) :
    st'.currentFrame = st.currentFrame ∧
    st'.frameDependentData.length = st.frameDependentData.length ∧
    st'.assetResources = st.assetResources ∧
    st'.resourcesMap = st.resourcesMap ∧
    (∀ v, v ≠ u → slotTransformUBO st' st.currentFrame v =
      slotTransformUBO st st.currentFrame v) ∧
    (∀ X, slotTransformUBO st st.currentFrame u = some X →
      slotTransformUBO st' st.currentFrame u = some X) := by
  unfold updateDescriptorSetAt at h
  split at h
  case isFalse => exact absurd h (by simp)
  case isTrue hlt =>
    dsimp only at h
    split at h
    · exact absurd h (by simp)
    case h_2 ds hds =>
      split at h
      · exact absurd h (by simp)
      case h_2 r hr =>
        simp only [Option.some.injEq, Prod.mk.injEq] at h
        obtain ⟨hst, -⟩ := h
        rw [← hst]
        have hfdd : st.frameDependentData.get? st.currentFrame =
            some (st.frameDependentData.get ⟨st.currentFrame, hlt⟩) :=
          List.get?_eq_get hlt
        refine ⟨rfl, listModify_length _ _ _, rfl, rfl, ?_, ?_⟩
        · intro v hv
          unfold slotTransformUBO
          show (((listModify st.frameDependentData st.currentFrame _).get?
            st.currentFrame).bind _).map _ = _
          rw [listModify_get_self, hfdd]
          simp only [Option.map_some', Option.some_bind]
          rw [mapBracketModify_find_other _ u v emptyAssetDescriptorData _ hv,
            mapBracketGet_fst_find _ u v emptyAssetDescriptorData hv]
        · intro X hX
          unfold slotTransformUBO at hX ⊢
          rw [hfdd] at hX
          simp only [Option.some_bind] at hX
          show (((listModify st.frameDependentData st.currentFrame _).get?
            st.currentFrame).bind _).map _ = _
          rw [listModify_get_self, hfdd]
          simp only [Option.map_some', Option.some_bind]
          cases hm : mapFind (st.frameDependentData.get
              ⟨st.currentFrame, hlt⟩).assetDescriptorDataMap u with
          | none => rw [hm] at hX; simp at hX
          | some add0 =>
            rw [hm] at hX
            rw [mapBracketGet_present _ u emptyAssetDescriptorData add0 hm]
            rw [mapBracketModify_find_self_present _ u
              emptyAssetDescriptorData add0 _ hm]
            exact hX

theorem recordSecondary_slotUBO (u : UUID) (i : Nat)
    (st st' : RendererState) (ev : List REvent)
    (h : recordSecondaryCommandBuffer u i st = some (st', ev)) :
    st'.currentFrame = st.currentFrame ∧
    st'.frameDependentData.length = st.frameDependentData.length ∧
    st'.assetResources = st.assetResources ∧
    st'.resourcesMap = st.resourcesMap ∧
    (∀ v, v ≠ u → slotTransformUBO st' st.currentFrame v =
      slotTransformUBO st st.currentFrame v) ∧
    (∀ X, slotTransformUBO st st.currentFrame u = some X →
      slotTransformUBO st' st.currentFrame u = some X) := by
  unfold recordSecondaryCommandBuffer at h
  by_cases h1 : st.currentFrame < getFDDSize st
  · rw [if_pos h1] at h
    by_cases h2 : i < getSWIDDSize st
    · rw [if_pos h2] at h
      simp only [Option.some.injEq, Prod.mk.injEq] at h
      obtain ⟨hst, -⟩ := h
      rw [← hst]
      have hfdd : st.frameDependentData.get? st.currentFrame =
          some (st.frameDependentData.get ⟨st.currentFrame, h1⟩) :=
        List.get?_eq_get h1
      refine ⟨rfl, listModify_length _ _ _, rfl, rfl, ?_, ?_⟩
      · intro v hv
        unfold slotTransformUBO
        show (((listModify st.frameDependentData st.currentFrame _).get?
          st.currentFrame).bind _).map _ = _
        rw [listModify_get_self, hfdd]
        simp only [Option.map_some', Option.some_bind]
        rw [mapBracketModify_find_other _ u v emptyAssetDescriptorData _ hv]
      · intro X hX
        unfold slotTransformUBO at hX ⊢
        rw [hfdd] at hX
        simp only [Option.some_bind] at hX
        show (((listModify st.frameDependentData st.currentFrame _).get?
          st.currentFrame).bind _).map _ = _
        rw [listModify_get_self, hfdd]
        simp only [Option.map_some', Option.some_bind]
        cases hm : mapFind (st.frameDependentData.get
            ⟨st.currentFrame, h1⟩).assetDescriptorDataMap u with
        | none => rw [hm] at hX; simp at hX
        | some add0 =>
          rw [hm] at hX
          rw [mapBracketModify_find_self_present _ u
            emptyAssetDescriptorData add0 id hm]
          exact hX
    · rw [if_neg h2] at h
      exact absurd h (by simp)
  · rw [if_neg h1] at h
    exact absurd h (by simp)

theorem mapFind_bracketGet_fst_of_find (m : List (UUID × β)) (k u : UUID)
    (d v : β) (hv : mapFind m u = some v) :
    mapFind (mapBracketGet m k d).1 u = some v := by
  by_cases hku : u = k
  · subst hku
    rw [mapBracketGet_present m u d v hv]
    exact hv
  · rw [mapBracketGet_fst_find m k u d hku]
    exact hv

theorem recordPrimaryLoopStep_slotUBO (fc fs : ℚ → ℚ) (im : Nat)
    (u : UUID) (idx : Nat) (a b : AssetResources) (st : RendererState)
    (acc : List UUID) (ev : List REvent)
    (r : RendererState × List UUID × List REvent)
    (h : recordPrimaryLoopStep fc fs im b st acc ev = some r)
    (hcf : st.currentFrame < st.frameDependentData.length)
    (hmap : mapFind st.resourcesMap u = some idx)
    (hsto : st.assetResources.get? idx = some a) :
    r.1.currentFrame = st.currentFrame ∧
    r.1.frameDependentData.length = st.frameDependentData.length ∧
    r.1.assetResources = st.assetResources ∧
    mapFind r.1.resourcesMap u = some idx ∧
    (slotTransformUBO r.1 st.currentFrame u =
        slotTransformUBO st st.currentFrame u ∨
      slotTransformUBO r.1 st.currentFrame u =
        some (some (glmTranslate a.transform.position *
          glmEulerAngleXYZ fc fs a.transform.rotation.x
            a.transform.rotation.y a.transform.rotation.z *
          glmScale a.transform.scale))) ∧
    (b.uuid = u → a.shouldDraw = true →
      slotTransformUBO r.1 st.currentFrame u =
        some (some (glmTranslate a.transform.position *
          glmEulerAngleXYZ fc fs a.transform.rotation.x
            a.transform.rotation.y a.transform.rotation.z *
          glmScale a.transform.scale))) := by
  unfold recordPrimaryLoopStep at h
  dsimp only at h
  split at h
  · exact absurd h (by simp)
  · rename_i stored hstored
    split at h
    case isTrue hdraw =>
      cases hsw : getSWIDDAtIndex
          { st with resourcesMap := (mapBracketGet st.resourcesMap b.uuid 0).1 }
          im with
      | none => rw [hsw] at h; exact absurd h (by simp)
      | some swidd =>
        rw [hsw] at h
        simp only [Option.bind_eq_bind, Option.some_bind] at h
        cases hfind : mapFind swidd.secondaryCommandBuffer b.uuid with
        | none => rw [hfind] at h; exact absurd h (by simp)
        | some sb =>
          rw [hfind] at h
          simp only [Option.some_bind] at h
          cases hst2 : ({ st with
              resourcesMap :=
                (mapBracketGet
                  (mapBracketGet st.resourcesMap b.uuid 0).1 b.uuid 0).1 } :
                RendererState).assetResources.get?
              (mapBracketGet
                (mapBracketGet st.resourcesMap b.uuid 0).1 b.uuid 0).2 with
          | none => rw [hst2] at h; exact absurd h (by simp)
          | some stored2 =>
            rw [hst2] at h
            simp only [Option.some_bind] at h
            cases hup : updateTransformDescriptorSet b.uuid
                (updateTransformUniformBuffer fc fs stored2.transform b.uuid
                  { st with
                    resourcesMap :=
                      (mapBracketGet
                        (mapBracketGet st.resourcesMap b.uuid 0).1
                        b.uuid 0).1 }) with
            | none => rw [hup] at h; exact absurd h (by simp)
            | some p4 =>
              rw [hup] at h
              simp only [Option.some_bind] at h
              cases hrec : recordSecondaryCommandBuffer b.uuid im p4.1 with
              | none => rw [hrec] at h; exact absurd h (by simp)
              | some p5 =>
                rw [hrec] at h
                simp only [Option.some_bind] at h
                have h5 : p5.1 = r.1 :=
                  congrArg (fun q => q.1) (optionPureEq h)
                -- the intermediate state with the (possibly twice) extended
                -- resources map; its frame data and asset vector are those
                -- of `st`
                have hA := updateTransformUBO_slot fc fs stored2.transform
                  b.uuid
                  { st with
                    resourcesMap :=
                      (mapBracketGet
                        (mapBracketGet st.resourcesMap b.uuid 0).1
                        b.uuid 0).1 }
                  hcf
                obtain ⟨hA1, hA2, hA3, hA4, hA5, hA6⟩ := hA
                have hB := updateDescriptorSetAt_slotUBO b.uuid 2
                  DescWrite.transformWrite _ p4.1 p4.2
                  (by simpa [updateTransformDescriptorSet] using hup)
                obtain ⟨hB1, hB2, hB3, hB4, hB5, hB6⟩ := hB
                have hC := recordSecondary_slotUBO b.uuid im p4.1 p5.1 p5.2
                  (by simpa using hrec)
                obtain ⟨hC1, hC2, hC3, hC4, hC5, hC6⟩ := hC
                dsimp only at hA1 hA2 hA3 hA4 hA5 hA6 hst2
                rw [hA1] at hB1 hB5 hB6
                rw [hA2] at hB2
                rw [hA3] at hB3
                rw [hA4] at hB4
                rw [hB1] at hC1 hC5 hC6
                rw [hB2] at hC2
                rw [hB3] at hC3
                rw [hB4] at hC4
                rw [← h5]
                refine ⟨hC1, hC2, hC3, ?_, ?_, ?_⟩
                · rw [hC4]
                  exact mapFind_bracketGet_fst_of_find _ b.uuid u 0 idx
                    (mapFind_bracketGet_fst_of_find _ b.uuid u 0 idx hmap)
                · by_cases hbu : b.uuid = u
                  · right
                    -- `stored2` is the registered asset at `idx`, i.e. `a`
                    have hmapb : mapFind st.resourcesMap b.uuid = some idx := by
                      rw [hbu]
                      exact hmap
                    rw [mapBracketGet_present st.resourcesMap b.uuid 0 idx
                      hmapb] at hst2
                    dsimp only at hst2
                    rw [mapBracketGet_present st.resourcesMap b.uuid 0 idx
                      hmapb] at hst2
                    dsimp only at hst2
                    rw [hsto] at hst2
                    have hstored2 : stored2 = a := by
                      injection hst2 with hh
                      exact hh.symm
                    subst hstored2
                    have hfin := hC6 _ (hB6 _ hA5)
                    rw [hbu] at hfin
                    exact hfin
                  · left
                    have hne : u ≠ b.uuid := fun hq => hbu hq.symm
                    have hx : slotTransformUBO
                        ({ st with
                          resourcesMap :=
                            (mapBracketGet
                              (mapBracketGet st.resourcesMap b.uuid 0).1
                              b.uuid 0).1 } : RendererState)
                        st.currentFrame u =
                        slotTransformUBO st st.currentFrame u := rfl
                    rw [hC5 u hne, hB5 u hne, hA6 u hne, hx]
                · intro hbu hdrawA
                  have hmapb : mapFind st.resourcesMap b.uuid = some idx := by
                    rw [hbu]
                    exact hmap
                  rw [mapBracketGet_present st.resourcesMap b.uuid 0 idx
                    hmapb] at hst2
                  dsimp only at hst2
                  rw [mapBracketGet_present st.resourcesMap b.uuid 0 idx
                    hmapb] at hst2
                  dsimp only at hst2
                  rw [hsto] at hst2
                  have hstored2 : stored2 = a := by
                    injection hst2 with hh
                    exact hh.symm
                  subst hstored2
                  have hfin := hC6 _ (hB6 _ hA5)
                  rw [hbu] at hfin
                  exact hfin
    case isFalse hnd =>
      have hr : r = ({ st with
          resourcesMap := (mapBracketGet st.resourcesMap b.uuid 0).1 },
          acc, ev) :=
        (optionPureEq h).symm
      rw [hr]
      refine ⟨rfl, rfl, rfl, ?_, Or.inl rfl, ?_⟩
      · exact mapFind_bracketGet_fst_of_find _ b.uuid u 0 idx hmap
      · intro hbu hdrawA
        exfalso
        apply hnd
        have hpr1 : mapBracketGet st.resourcesMap b.uuid 0 =
            (st.resourcesMap, idx) := by
          rw [hbu]
          exact mapBracketGet_present _ u 0 idx hmap
        rw [hpr1] at hstored
        dsimp only at hstored
        rw [hsto] at hstored
        have : stored = a := by
          injection hstored with hh
          exact hh.symm
        rw [this, hdrawA]

theorem recordPrimaryLoop_slotUBO (fc fs : ℚ → ℚ) (im : Nat)
    (u : UUID) (idx : Nat) (a : AssetResources) :
    ∀ (assets : List AssetResources) (st : RendererState) (acc : List UUID)
      (ev : List REvent) (r : RendererState × List UUID × List REvent),
      recordPrimaryLoop fc fs im assets st acc ev = some r →
      st.currentFrame < st.frameDependentData.length →
      mapFind st.resourcesMap u = some idx →
      st.assetResources.get? idx = some a →
      r.1.currentFrame = st.currentFrame ∧
      r.1.frameDependentData.length = st.frameDependentData.length ∧
      r.1.assetResources = st.assetResources ∧
      mapFind r.1.resourcesMap u = some idx ∧
      (slotTransformUBO r.1 st.currentFrame u =
          slotTransformUBO st st.currentFrame u ∨
        slotTransformUBO r.1 st.currentFrame u =
          some (some (glmTranslate a.transform.position *
            glmEulerAngleXYZ fc fs a.transform.rotation.x
              a.transform.rotation.y a.transform.rotation.z *
            glmScale a.transform.scale))) ∧
      ((∃ b ∈ assets, b.uuid = u) → a.shouldDraw = true →
        slotTransformUBO r.1 st.currentFrame u =
          some (some (glmTranslate a.transform.position *
            glmEulerAngleXYZ fc fs a.transform.rotation.x
              a.transform.rotation.y a.transform.rotation.z *
            glmScale a.transform.scale))) := by
  intro assets
  induction assets with
  | nil =>
    intro st acc ev r h hcf hmap hsto
    unfold recordPrimaryLoop at h
    have hr := optionPureEq h
    rw [show r.1 = st from (congrArg (fun q => q.1) hr.symm)]
    refine ⟨rfl, rfl, rfl, hmap, Or.inl rfl, ?_⟩
    rintro ⟨b, hb, -⟩
    exact absurd hb (List.not_mem_nil b)
  | cons b rest ih =>
    intro st acc ev r h hcf hmap hsto
    unfold recordPrimaryLoop at h
    cases hstep : recordPrimaryLoopStep fc fs im b st acc ev with
    | none => rw [hstep] at h; exact absurd h (by simp)
    | some q =>
      rw [hstep] at h
      simp only [Option.bind_eq_bind, Option.some_bind] at h
      obtain ⟨hS1, hS2, hS3, hS4, hS5, hS6⟩ :=
        recordPrimaryLoopStep_slotUBO fc fs im u idx a b st acc ev q
          hstep hcf hmap hsto
      obtain ⟨hL1, hL2, hL3, hL4, hL5, hL6⟩ :=
        ih q.1 q.2.1 q.2.2 r (by simpa using h)
          (by rw [hS1, hS2]; exact hcf)
          hS4 (by rw [hS3]; exact hsto)
      rw [hS1] at hL1 hL5 hL6
      rw [hS2] at hL2
      rw [hS3] at hL3
      refine ⟨hL1, hL2, hL3, hL4, ?_, ?_⟩
      · rcases hL5 with hL5 | hL5
        · rcases hS5 with hS5 | hS5
          · exact Or.inl (hL5.trans hS5)
          · exact Or.inr (hL5.trans hS5)
        · exact Or.inr hL5
      · rintro ⟨c, hc, hcu⟩ hdrawA
        rcases List.mem_cons.mp hc with hcb | hcr
        · have hwrote := hS6 (hcb ▸ hcu) hdrawA
          rcases hL5 with hL5 | hL5
          · rw [hL5]
            exact hwrote
          · exact hL5
        · exact hL6 ⟨c, hcr, hcu⟩ hdrawA

theorem recordPrimaryCommandBuffer_slotUBO (fc fs : ℚ → ℚ) (fbi : Nat)
    (u : UUID) (idx : Nat) (a : AssetResources) (st st' : RendererState)
    (ev : List REvent)
    (h : recordPrimaryCommandBuffer fc fs fbi st = some (st', ev))
    (hcf : st.currentFrame < st.frameDependentData.length)
    (hmap : mapFind st.resourcesMap u = some idx)
    (hsto : st.assetResources.get? idx = some a)
    (hau : a.uuid = u) (hdraw : a.shouldDraw = true) :
    st'.currentFrame = st.currentFrame ∧
    st'.frameDependentData.length = st.frameDependentData.length ∧
    slotTransformUBO st' st.currentFrame u =
      some (some (glmTranslate a.transform.position *
        glmEulerAngleXYZ fc fs a.transform.rotation.x a.transform.rotation.y
          a.transform.rotation.z * glmScale a.transform.scale)) := by
  unfold recordPrimaryCommandBuffer at h
  cases hg1 : getCurrentFDD st with
  | none => rw [hg1] at h; exact absurd h (by simp)
  | some fdd0 =>
    rw [hg1] at h
    simp only [Option.bind_eq_bind, Option.some_bind] at h
    cases hg2 : getSWIDDAtIndex st fbi with
    | none => rw [hg2] at h; exact absurd h (by simp)
    | some sw0 =>
      rw [hg2] at h
      simp only [Option.some_bind] at h
      cases hlp : recordPrimaryLoop fc fs fbi st.assetResources st []
          [REvent.recordPrimary fbi] with
      | none => rw [hlp] at h; exact absurd h (by simp)
      | some t =>
        rw [hlp] at h
        simp only [Option.some_bind] at h
        obtain ⟨hL1, hL2, hL3, hL4, hL5, hL6⟩ :=
          recordPrimaryLoop_slotUBO fc fs fbi u idx a st.assetResources st
            [] [REvent.recordPrimary fbi] t hlp hcf hmap hsto
        have hwrote := hL6 ⟨a, List.get?_mem hsto, hau⟩ hdraw
        have hst' : st' = modifyFDD t.1 t.1.currentFrame
            fun fdd' => { fdd' with primaryCommandBuffer := ⟨t.2.1⟩ } :=
          (congrArg (fun q => q.1) (optionPureEq h)).symm
        rw [hst']
        refine ⟨hL1, ?_, ?_⟩
        · show (listModify t.1.frameDependentData _ _).length = _
          rw [listModify_length]
          exact hL2
        · rw [slotTransformUBO_modifyFDD_mapEq t.1 t.1.currentFrame
            (fun fdd' => { fdd' with primaryCommandBuffer := ⟨t.2.1⟩ })
            (fun fdd' => rfl) st.currentFrame u]
          exact hwrote

theorem glmScale_one : glmScale ⟨1, 1, 1⟩ = 1 := by
  unfold glmScale
  ext i j
  fin_cases i <;> fin_cases j <;>
    simp [Matrix.one_apply, Matrix.vecHead, Matrix.vecTail]

theorem glmEulerAngleXYZ_zero (fc fs : ℚ → ℚ) (hc : fc 0 = 1)
    (hs : fs 0 = 0) : glmEulerAngleXYZ fc fs 0 0 0 = 1 := by
  unfold glmEulerAngleXYZ
  simp only [neg_zero, hc, hs]
  ext i j
  fin_cases i <;> fin_cases j <;>
    simp [Matrix.one_apply, Matrix.vecHead, Matrix.vecTail]

theorem setPosition_then_drawState (u : UUID) (p : Vec3)
    (st : RendererState) (idx : Nat) (a0 : AssetResources)
    (hmap : mapFind st.resourcesMap u = some idx)
    (hsto : st.assetResources.get? idx = some a0) :
    (setAssetDrawState u (setAssetPosition u p st).1).1.currentFrame =
      st.currentFrame ∧
    (setAssetDrawState u (setAssetPosition u p st).1).1.frameDependentData =
      st.frameDependentData ∧
    mapFind
      (setAssetDrawState u (setAssetPosition u p st).1).1.resourcesMap u =
      some idx ∧
    (setAssetDrawState u (setAssetPosition u p st).1).1.assetResources.get?
      idx = some { a0 with
        shouldDraw := true
        transform := { a0.transform with position := p } } := by
  have hpr : mapBracketGet st.resourcesMap u 0 = (st.resourcesMap, idx) :=
    mapBracketGet_present _ u 0 idx hmap
  unfold setAssetPosition setAssetDrawState
  dsimp only
  rw [hpr]
  dsimp only
  rw [hpr]
  dsimp only
  refine ⟨rfl, rfl, hmap, ?_⟩
  rw [listModify_get_self, listModify_get_self, hsto]
  rfl

theorem drawFrameSubmitPath_slotUBO (inp : FrameInput)
    (st1 : RendererState) (ev0 : List REvent) (u : UUID) (idx : Nat)
    (a : AssetResources) (rd : RendererState × List REvent)
    (h : drawFrameSubmitPath inp st1 ev0 = some rd)
    (hpres : inp.presentRes = PresentRes.success)
    (hcf : st1.currentFrame < st1.frameDependentData.length)
    (hmap : mapFind st1.resourcesMap u = some idx)
    (hsto : st1.assetResources.get? idx = some a)
    (hau : a.uuid = u) (hdraw : a.shouldDraw = true) :
    slotTransformUBO rd.1 st1.currentFrame u =
      some (some (glmTranslate a.transform.position *
        glmEulerAngleXYZ inp.fc inp.fs a.transform.rotation.x
          a.transform.rotation.y a.transform.rotation.z *
        glmScale a.transform.scale)) := by
  unfold drawFrameSubmitPath at h
  dsimp only at h
  cases hrp : recordPrimaryCommandBuffer inp.fc inp.fs inp.imageIndex
      (setFence st1.currentFrame FenceState.unsignaled st1) with
  | none => rw [hrp] at h; exact absurd h (by simp)
  | some t =>
    rw [hrp] at h
    simp only [Option.bind_eq_bind, Option.some_bind] at h
    split at h
    · exact absurd h (by simp)
    · rw [hpres] at h
      obtain ⟨hF1, hF2, hF3⟩ :=
        recordPrimaryCommandBuffer_slotUBO inp.fc inp.fs inp.imageIndex u
          idx a (setFence st1.currentFrame FenceState.unsignaled st1) t.1
          t.2 (by simpa using hrp)
          (by
            show st1.currentFrame <
              (listModify st1.frameDependentData st1.currentFrame _).length
            rw [listModify_length]
            exact hcf)
          hmap hsto hau hdraw
      have hrd : rd.1 = setFence t.1.currentFrame FenceState.pending t.1 :=
        (congrArg (fun q => q.1) (optionPureEq h)).symm
      rw [hrd]
      have hpres2 : slotTransformUBO
          (setFence t.1.currentFrame FenceState.pending t.1)
          st1.currentFrame u = slotTransformUBO t.1 st1.currentFrame u :=
        slotTransformUBO_modifyFDD_mapEq t.1 t.1.currentFrame
          (fun fdd => { fdd with inFlightFence := FenceState.pending })
          (fun fdd => rfl) st1.currentFrame u
      rw [hpres2]
      exact hF3

theorem drawFrame_slotUBO (inp : FrameInput) (stp : RendererState)
    (u : UUID) (idx : Nat) (a : AssetResources)
    (rd : RendererState × List REvent)
    (h : drawFrame inp stp = some rd)
    (hacq : inp.acquire = AcquireRes.success)
    (hpres : inp.presentRes = PresentRes.success)
    (hcf : stp.currentFrame < stp.frameDependentData.length)
    (hmap : mapFind stp.resourcesMap u = some idx)
    (hsto : stp.assetResources.get? idx = some a)
    (hau : a.uuid = u) (hdraw : a.shouldDraw = true) :
    slotTransformUBO rd.1 stp.currentFrame u =
      some (some (glmTranslate a.transform.position *
        glmEulerAngleXYZ inp.fc inp.fs a.transform.rotation.x
          a.transform.rotation.y a.transform.rotation.z *
        glmScale a.transform.scale)) := by
  unfold drawFrame at h
  cases hg : getCurrentFDD stp with
  | none => rw [hg] at h; exact absurd h (by simp)
  | some fdd1 =>
    rw [hg] at h
    simp only [Option.bind_eq_bind, Option.some_bind] at h
    cases hw : waitInFlightFence stp.currentFrame stp with
    | none => rw [hw] at h; exact absurd h (by simp)
    | some w1 =>
      rw [hw] at h
      simp only [Option.some_bind] at h
      rw [hacq] at h
      have hw1 : w1 = setFence stp.currentFrame FenceState.signaled stp :=
        waitInFlightFence_eq _ _ _ hw
      rw [hw1] at h
      exact drawFrameSubmitPath_slotUBO inp
        (setFence stp.currentFrame FenceState.signaled stp) _ u idx a rd h
        hpres
        (by
          show stp.currentFrame <
            (listModify stp.frameDependentData stp.currentFrame _).length
          rw [listModify_length]
          exact hcf)
        hmap hsto hau hdraw

/-- C6: for a registered asset (`resourcesMap` sends `u` to the index of
an asset with UUID `u`) whose rotation and scale still hold their default
values `(0,0,0)` and `(1,1,1)` (`Transform` and its defaults are modelled
from the spec, see `Transform`), calling `SetAssetPosition(u, p)`, then
`SetAssetDrawState(u)`, then `Draw()` with a successful acquire and
present writes the transform uniform buffer of `u` in the frame slot that
was current during the draw with exactly
`translate(p) * eulerAngleXYZ(0,0,0) * scale(1,1,1)` — the model matrix
is composed as translation times XYZ-Euler rotation times scale — and
since `cos 0 = 1` and `sin 0 = 0` this matrix equals `translate(p)`. -/
theorem claim_C6_transform_round_trip (inp : FrameInput) (p : Vec3)
    (u : UUID) (idx : Nat) (a0 : AssetResources) (st st' : RendererState)
    (ev : List REvent)
    (hacq : inp.acquire = AcquireRes.success)
    (hpres : inp.presentRes = PresentRes.success)
    (hcf : st.currentFrame < st.frameDependentData.length)
    (hmap : mapFind st.resourcesMap u = some idx)
    (hsto : st.assetResources.get? idx = some a0)
    (hau : a0.uuid = u)
    (hrot : a0.transform.rotation = ⟨0, 0, 0⟩)
    (hscale : a0.transform.scale = ⟨1, 1, 1⟩)
    (h : draw inp (setAssetDrawState u (setAssetPosition u p st).1).1 =
      some (st', ev)) :
    slotTransformUBO st' st.currentFrame u =
      some (some (glmTranslate p * glmEulerAngleXYZ inp.fc inp.fs 0 0 0 *
        glmScale ⟨1, 1, 1⟩)) ∧
    (inp.fc 0 = 1 → inp.fs 0 = 0 →
      glmTranslate p * glmEulerAngleXYZ inp.fc inp.fs 0 0 0 *
        glmScale ⟨1, 1, 1⟩ = glmTranslate p) := by
  obtain ⟨P1, P2, P3, P4⟩ :=
    setPosition_then_drawState u p st idx a0 hmap hsto
  constructor
  · unfold draw at h
    cases hdf : drawFrame inp
        (setAssetDrawState u (setAssetPosition u p st).1).1 with
    | none => rw [hdf] at h; exact absurd h (by simp)
    | some rd =>
      rw [hdf] at h
      simp only [Option.bind_eq_bind, Option.some_bind] at h
      have hdrw := drawFrame_slotUBO inp
        (setAssetDrawState u (setAssetPosition u p st).1).1 u idx
        { a0 with
          shouldDraw := true
          transform := { a0.transform with position := p } }
        rd hdf hacq hpres
        (by rw [P1, P2]; exact hcf) P3 P4 hau rfl
      rw [P1] at hdrw
      dsimp only at hdrw
      rw [hrot, hscale] at hdrw
      dsimp only at hdrw
      have hfd : st'.frameDependentData = rd.1.frameDependentData :=
        (congrArg (fun q => q.1.frameDependentData) (optionPureEq h)).symm
      unfold slotTransformUBO at hdrw ⊢
      rw [hfd]
      exact hdrw
  · intro hfc hfs
    rw [glmEulerAngleXYZ_zero inp.fc inp.fs hfc hfs, glmScale_one,
      Matrix.mul_one, Matrix.mul_one]

/-- Witness: on the one-asset state, setting the position to `(2,3,4)`
and drawing writes `translate(2,3,4) * eulerAngleXYZ(0,0,0) * scale(1,1,1)`,
which equals `translate(2,3,4)`. -/
theorem claim_C6_witness :
    inpOK.acquire = AcquireRes.success ∧
    inpOK.presentRes = PresentRes.success ∧
    soloState.currentFrame < soloState.frameDependentData.length ∧
    mapFind soloState.resourcesMap 1 = some 0 ∧
    soloState.assetResources.get? 0 =
      some ⟨1, false, defaultTransform, 6⟩ ∧
    (⟨1, false, defaultTransform, 6⟩ : AssetResources).uuid = 1 ∧
    (⟨1, false, defaultTransform, 6⟩ :
      AssetResources).transform.rotation = ⟨0, 0, 0⟩ ∧
    (⟨1, false, defaultTransform, 6⟩ :
      AssetResources).transform.scale = ⟨1, 1, 1⟩ ∧
    ∃ st' ev,
      draw inpOK
        (setAssetDrawState 1
          (setAssetPosition 1 ⟨2, 3, 4⟩ soloState).1).1 = some (st', ev) ∧
      slotTransformUBO st' soloState.currentFrame 1 =
        some (some (glmTranslate ⟨2, 3, 4⟩ *
          glmEulerAngleXYZ inpOK.fc inpOK.fs 0 0 0 *
          glmScale ⟨1, 1, 1⟩)) ∧
      glmTranslate ⟨2, 3, 4⟩ * glmEulerAngleXYZ inpOK.fc inpOK.fs 0 0 0 *
        glmScale ⟨1, 1, 1⟩ = glmTranslate ⟨2, 3, 4⟩ := by
  refine ⟨rfl, rfl, by decide, by decide, by decide, rfl, rfl, rfl, ?_⟩
  cases hd : draw inpOK
      (setAssetDrawState 1 (setAssetPosition 1 ⟨2, 3, 4⟩ soloState).1).1 with
  | none =>
    have hsome : (draw inpOK
        (setAssetDrawState 1
          (setAssetPosition 1 ⟨2, 3, 4⟩ soloState).1).1).isSome = true := by
      decide
    rw [hd] at hsome
    exact absurd hsome (by decide)
  | some r =>
    obtain ⟨hA, hB⟩ := claim_C6_transform_round_trip inpOK ⟨2, 3, 4⟩ 1 0
      ⟨1, false, defaultTransform, 6⟩ soloState r.1 r.2 rfl rfl
      (by decide) (by decide) (by decide) rfl rfl rfl
      (by rw [hd])
    exact ⟨r.1, r.2, rfl, hA, hB rfl rfl⟩

end TANG
